import Mathlib

/-!
Verification of the jsvmp bytecode compiler / stack virtual machine
(src/src/opcodes.js, src/src/compiler.js, src/src/vm.js, and the JSVMP
wrapper class).

The development is a shallow embedding: JavaScript runtime values become the
inductive `Value`; the mutable JS heap (arrays, plain objects, user-function
objects) becomes explicit address-indexed lists inside `VMState`; JS `Map`s
become insertion-ordered association lists.  Numbers are modelled by `ℚ`
together with explicit `nan` / `inf` constructors (exact arithmetic instead
of IEEE rounding; no claim below depends on rounding).  Behaviour that
crosses into the host JavaScript engine (calling a host function, prototype
lookups on host objects, string-to-number coercion grammar, ...) is outside
the model and surfaces as an `Except.error` whose message starts with
`MODEL:`; every other error message is the literal message thrown by the
source.
-/

namespace Jsvmp

/-- Runtime value (§3.1 of vm.js's implicit value model).  `arr`, `obj` and
`userFn` are references (addresses) into the corresponding heap inside
`VMState`; `hostFn`/`hostObj` are opaque host values identified by an id;
`regexp` stands for the host RegExp object built by `compileRegExpLiteral`. -/
inductive Value where
  | undef
  | null
  | bool (b : Bool)
  | num (q : ℚ)
  | nan
  | inf (neg : Bool)
  | str (s : String)
  | arr (a : Nat)
  | obj (a : Nat)
  | userFn (a : Nat)
  | hostFn (id : Nat)
  | hostObj (id : Nat)
  | regexp (pattern : String) (flags : String)
deriving Repr, DecidableEq

/-- Insertion-ordered map (JS `Map` / plain-object property table):
`set` overwrites in place, otherwise appends. -/
def mapSet (m : List (String × Value)) (k : String) (v : Value) :
    List (String × Value) :=
  match m with
  | [] => [(k, v)]
  | (k', v') :: t => if k' = k then (k, v) :: t else (k', v') :: mapSet t k v

/-- JS `Map.prototype.get` (`none` for a missing key). -/
def mapGet (m : List (String × Value)) (k : String) : Option Value :=
  match m with
  | [] => none
  | (k', v') :: t => if k' = k then some v' else mapGet t k

/-- JS `Map.prototype.has`. -/
def mapHas (m : List (String × Value)) (k : String) : Bool :=
  (mapGet m k).isSome

/-- Tag of a value in the sense of the spec's tagged union (§3.1): the tag
determines equality and dispatch.  `num`, `nan` and `inf` are all numbers. -/
inductive Tag where
  | undefinedTag | nullTag | boolTag | numberTag | stringTag
  | arrayTag | objectTag | userFnTag | hostFnTag | hostObjTag | regexpTag
deriving Repr, DecidableEq

/-- Map a value to its tag. -/
def valueTag : Value → Tag
  | .undef => .undefinedTag
  | .null => .nullTag
  | .bool _ => .boolTag
  | .num _ => .numberTag
  | .nan => .numberTag
  | .inf _ => .numberTag
  | .str _ => .stringTag
  | .arr _ => .arrayTag
  | .obj _ => .objectTag
  | .userFn _ => .userFnTag
  | .hostFn _ => .hostFnTag
  | .hostObj _ => .hostObjTag
  | .regexp _ _ => .regexpTag

/-- JavaScript strict equality `===` on modelled values: `NaN` is unequal to
everything (including itself); references compare by address; all other
values compare structurally within their tag. -/
def jsStrictEq (a b : Value) : Bool :=
  match a, b with
  | .nan, _ => false
  | _, .nan => false
  | a, b => decide (a = b)

/-- JavaScript truthiness (`if (x)`): `undefined`, `null`, `false`, `0`,
`NaN` and `""` are falsy, everything else truthy. -/
def jsTruthy : Value → Bool
  | .undef => false
  | .null => false
  | .bool b => b
  | .num q => decide (q ≠ 0)
  | .nan => false
  | .inf _ => true
  | .str s => decide (s ≠ "")
  | .arr _ => true
  | .obj _ => true
  | .userFn _ => true
  | .hostFn _ => true
  | .hostObj _ => true
  | .regexp _ _ => true

/-- Result of `executeTypeof` (vm.js 813-832): `null` and arrays report
`object`; host functions and user-function records report `function`. -/
def jsTypeofStr : Value → String
  | .null => "object"
  | .arr _ => "object"
  | .hostFn _ => "function"
  | .userFn _ => "function"
  | .undef => "undefined"
  | .bool _ => "boolean"
  | .num _ => "number"
  | .nan => "number"
  | .inf _ => "number"
  | .str _ => "string"
  | .obj _ => "object"
  | .hostObj _ => "object"
  | .regexp _ _ => "object"

/-- JavaScript number as used by the arithmetic helpers: a finite rational,
NaN, or a signed infinity. -/
inductive JsNum where
  | fin (q : ℚ)
  | nan
  | inf (neg : Bool)
deriving Repr, DecidableEq

/-- Truncation toward zero (JS `ToInt32` internals). -/
def jsTrunc (q : ℚ) : Int :=
  if 0 ≤ q then ⌊q⌋ else ⌈q⌉

/-- `ToNumber` on modelled primitives.  String-to-number coercion and
`ToPrimitive` on references are host behaviour and fall out of the model. -/
def jsToNumber : Value → Except String JsNum
  | .undef => .ok .nan
  | .null => .ok (.fin 0)
  | .bool b => .ok (.fin (if b then 1 else 0))
  | .num q => .ok (.fin q)
  | .nan => .ok .nan
  | .inf n => .ok (.inf n)
  | .str _ => .error "MODEL: string-to-number coercion is outside the model"
  | _ => .error "MODEL: ToPrimitive on a reference value is outside the model"

/-- Back from `JsNum` to a `Value`. -/
def jsNumToValue : JsNum → Value
  | .fin q => .num q
  | .nan => .nan
  | .inf n => .inf n

/-- IEEE-style addition on `JsNum` (exact on finite operands). -/
def jsNumAdd : JsNum → JsNum → JsNum
  | .nan, _ => .nan
  | _, .nan => .nan
  | .inf n, .inf m => if n = m then .inf n else .nan
  | .inf n, .fin _ => .inf n
  | .fin _, .inf m => .inf m
  | .fin a, .fin b => .fin (a + b)

/-- Negation on `JsNum`. -/
def jsNumNeg : JsNum → JsNum
  | .nan => .nan
  | .inf n => .inf (!n)
  | .fin q => .fin (-q)

/-- IEEE-style multiplication on `JsNum`. -/
def jsNumMul : JsNum → JsNum → JsNum
  | .nan, _ => .nan
  | _, .nan => .nan
  | .inf n, .inf m => .inf (n != m)
  | .inf n, .fin q => if q = 0 then .nan else .inf (n != decide (q < 0))
  | .fin q, .inf m => if q = 0 then .nan else .inf (m != decide (q < 0))
  | .fin a, .fin b => .fin (a * b)

/-- IEEE-style division on `JsNum`.  A finite dividend over finite `0` gives
a signed infinity (`0/0` gives NaN); note `executeDiv` throws before this
point whenever the popped divisor is the value `0` itself, so this branch is
reached only through coerced zero divisors such as `null` or `false`. -/
def jsNumDiv : JsNum → JsNum → JsNum
  | .nan, _ => .nan
  | _, .nan => .nan
  | .inf _, .inf _ => .nan
  | .inf n, .fin q => .inf (n != decide (q < 0))
  | .fin _, .inf _ => .fin 0
  | .fin a, .fin b =>
      if b = 0 then (if a = 0 then .nan else .inf (decide (a < 0)))
      else .fin (a / b)

/-- IEEE-style remainder (JS `%`: sign of the dividend). -/
def jsNumMod : JsNum → JsNum → JsNum
  | .nan, _ => .nan
  | _, .nan => .nan
  | .inf _, _ => .nan
  | .fin q, .inf _ => .fin q
  | .fin a, .fin b =>
      if b = 0 then .nan else .fin (a - b * (jsTrunc (a / b) : ℚ))

/-- String rendering of primitives, used by the `+` operator's string
branch.  Rendering a non-integer rational (JS prints such numbers in
decimal/exponent notation) and rendering references are outside the model. -/
def jsPrimToString : Value → Except String String
  | .undef => .ok "undefined"
  | .null => .ok "null"
  | .bool b => .ok (if b then "true" else "false")
  | .nan => .ok "NaN"
  | .inf n => .ok (if n then "-Infinity" else "Infinity")
  | .str s => .ok s
  | .num q =>
      if q.den = 1 then .ok (toString q.num)
      else .error "MODEL: decimal rendering of non-integer numbers is outside the model"
  | _ => .error "MODEL: ToString on a reference value is outside the model"

/-- The JS binary `+` (`executeAdd`'s `a + b`): string concatenation when
either operand is a string, numeric addition otherwise. -/
def jsAdd (a b : Value) : Except String Value :=
  match a, b with
  | .str _, _ => do
      let sa ← jsPrimToString a
      let sb ← jsPrimToString b
      .ok (.str (sa ++ sb))
  | _, .str _ => do
      let sa ← jsPrimToString a
      let sb ← jsPrimToString b
      .ok (.str (sa ++ sb))
  | _, _ => do
      let na ← jsToNumber a
      let nb ← jsToNumber b
      .ok (jsNumToValue (jsNumAdd na nb))

/-- Numeric binary operator wrapper (for `-`, `*`, `%` and the coerced part
of `/`). -/
def jsNumBin (f : JsNum → JsNum → JsNum) (a b : Value) : Except String Value := do
  let na ← jsToNumber a
  let nb ← jsToNumber b
  .ok (jsNumToValue (f na nb))

/-- JS `<` restricted to the modelled fragment: numeric comparison after
`ToNumber`; any comparison involving NaN is false.  String-string
comparison (UTF-16 code-unit order) is outside the model. -/
def jsLtVal (a b : Value) : Except String Bool :=
  match a, b with
  | .str _, .str _ => .error "MODEL: string relational comparison is outside the model"
  | _, _ => do
    let na ← jsToNumber a
    let nb ← jsToNumber b
    .ok (match na, nb with
      | .nan, _ => false
      | _, .nan => false
      | .inf n, .inf m => n && !m
      | .inf n, .fin _ => n
      | .fin _, .inf m => !m
      | .fin x, .fin y => decide (x < y))

/-- JS `<=` on the modelled fragment (false whenever NaN is involved). -/
def jsLeVal (a b : Value) : Except String Bool :=
  match a, b with
  | .str _, .str _ => .error "MODEL: string relational comparison is outside the model"
  | _, _ => do
    let na ← jsToNumber a
    let nb ← jsToNumber b
    .ok (match na, nb with
      | .nan, _ => false
      | _, .nan => false
      | .inf n, .inf m => n || !m
      | .inf n, .fin _ => n
      | .fin _, .inf m => !m
      | .fin x, .fin y => decide (x ≤ y))

/-- `ToInt32`: truncate, then wrap into the signed 32-bit range. -/
def jsToInt32 (v : Value) : Except String Int := do
  let n ← jsToNumber v
  match n with
  | .nan => .ok 0
  | .inf _ => .ok 0
  | .fin q =>
      let m : Int := (jsTrunc q) % (2 ^ 32)
      .ok (if m ≥ 2 ^ 31 then m - 2 ^ 32 else m)

/-- `ToUint32`: truncate, then wrap into the unsigned 32-bit range. -/
def jsToUint32 (v : Value) : Except String Nat := do
  let n ← jsToNumber v
  match n with
  | .nan => .ok 0
  | .inf _ => .ok 0
  | .fin q => .ok ((jsTrunc q) % (2 ^ 32)).toNat

/-- Two's-complement encoding of an int32 as a Nat below `2^32`. -/
def int32ToNatBits (i : Int) : Nat := ((i + 2 ^ 32) % 2 ^ 32).toNat

/-- Decode a Nat below `2^32` back to a signed int32. -/
def natBitsToInt32 (n : Nat) : Int :=
  if n ≥ 2 ^ 31 then (n : Int) - 2 ^ 32 else (n : Int)

/-- JS `<<` on int32 values (`executeShl`). -/
def jsShl (a b : Value) : Except String Value := do
  let x ← jsToInt32 a
  let k ← jsToUint32 b
  .ok (.num (natBitsToInt32 ((int32ToNatBits x * 2 ^ (k % 32)) % 2 ^ 32) : ℚ))

/-- JS `>>` (arithmetic shift right, `executeShr`). -/
def jsShr (a b : Value) : Except String Value := do
  let x ← jsToInt32 a
  let k ← jsToUint32 b
  .ok (.num ((Int.ediv x (2 ^ (k % 32)) : ℚ)))

/-- JS `>>>` (logical shift right, `executeUshr`). -/
def jsUshr (a b : Value) : Except String Value := do
  let x ← jsToUint32 a
  let k ← jsToUint32 b
  .ok (.num ((x / 2 ^ (k % 32) : Nat) : ℚ))

/-- JS bitwise binary operator over two's-complement bits. -/
def jsBitBin (f : Nat → Nat → Nat) (a b : Value) : Except String Value := do
  let x ← jsToInt32 a
  let y ← jsToInt32 b
  .ok (.num (natBitsToInt32 (f (int32ToNatBits x) (int32ToNatBits y) % 2 ^ 32) : ℚ))

/-- JS `~` (`executeBitNot`): `~x = -(x+1)` on int32. -/
def jsBitNot (a : Value) : Except String Value := do
  let x ← jsToInt32 a
  .ok (.num (natBitsToInt32 (int32ToNatBits (-(x + 1))) : ℚ))

/-!
## Constant pool (src/src/opcodes.js, class ConstantPool)

The JS `indices` map is keyed by `typeof value === 'object' ?
JSON.stringify(value) : value`.  Under that rule `null` (typeof `object`)
is keyed by the *string* `"null"`, and every RegExp object (no enumerable
own properties) is keyed by the string `"\x7b\x7d"`.  `JSON.stringify` of
arrays, plain objects and host objects depends on host heap contents and is
outside the model (the compiler only ever pools primitives, RegExp literals
and function records).
-/

/-- The map key `ConstantPool.add` uses for a value (vm pool line 153). -/
def poolKeyOf : Value → Except String Value
  | .null => .ok (.str "null")
  | .regexp _ _ => .ok (.str "\x7b\x7d")
  | .arr _ => .error "MODEL: JSON.stringify of an array constant is outside the model"
  | .obj _ => .error "MODEL: JSON.stringify of an object constant is outside the model"
  | .hostObj _ => .error "MODEL: JSON.stringify of a host object is outside the model"
  | v => .ok v

/-- The constant pool: an append-only vector plus the dedup index map. -/
structure ConstantPool where
  constants : List Value
  indices : List (Value × Nat)
deriving Repr, DecidableEq

/-- The empty pool (`new ConstantPool()`). -/
def ConstantPool.empty : ConstantPool := ⟨[], []⟩

/-- Lookup in the dedup map (JS `Map` keyed by SameValueZero; `DecidableEq`
on `Value` coincides with SameValueZero on the modelled values since `nan`
is a dedicated constructor). -/
def poolIndexGet (m : List (Value × Nat)) (k : Value) : Option Nat :=
  match m with
  | [] => none
  | (k', i) :: t => if k' = k then some i else poolIndexGet t k

/-- `ConstantPool.add` (opcodes.js 144-163): function records always get a
fresh index; all other values dedup through the key map. -/
def ConstantPool.add (p : ConstantPool) (v : Value) :
    Except String (Nat × ConstantPool) :=
  match v with
  | .userFn _ =>
      .ok (p.constants.length, { p with constants := p.constants ++ [v] })
  | _ => do
      let key ← poolKeyOf v
      match poolIndexGet p.indices key with
      | some i => .ok (i, p)
      | none =>
          let i := p.constants.length
          .ok (i, { constants := p.constants ++ [v],
                    indices := p.indices ++ [(key, i)] })

/-- `ConstantPool.get` (opcodes.js 170-175): bounds-checked access. -/
def ConstantPool.get (p : ConstantPool) (i : Nat) : Except String Value :=
  if i ≥ p.constants.length then
    .error ("常量池索引越界: " ++ toString i)
  else
    .ok (p.constants.getD i .undef)

/-!
## VM data model (src/src/vm.js)
-/

/-- A user-function record: what the compiler stores in the pool
(`funcInfo`, compiler.js 539-544) and what `executeRet` copies.
`closureEnv` models the mutable `_closureEnv` map and `closureId` the
`_closureId` tag; the source formats the id as the string
`closure_<n>` — we keep the counter value `n`. -/
structure FuncObj where
  name : Option String
  params : List String
  startAddress : Nat
  closureScope : List String
  closureEnv : Option (List (String × Value))
  closureId : Option Nat
deriving Repr, DecidableEq

/-- A call frame (vm.js class CallFrame). -/
structure CallFrame where
  returnAddress : Int
  locals : List (String × Value)
  isConstructorCall : Bool
  newInstance : Value
  currentFunction : Option Nat
deriving Repr, DecidableEq

/-- One bytecode instruction (opcodes.js class Instruction; the debug-info
field carries no observable behaviour and is dropped). -/
inductive Opcode where
  | PUSH | POP | DUP
  | ADD | SUB | MUL | DIV | MOD | NEG
  | SHL | SHR | USHR | BIT_AND | BIT_OR | BIT_XOR | BIT_NOT
  | EQ | NE | LT | LE | GT | GE
  | AND | OR | NOT | TYPEOF
  | LOAD | STORE | DECLARE
  | JMP | JIF | JNF
  | CALL | CALL_METHOD | RET | ENTER | LEAVE
  | NEW_OBJ | GET_PROP | SET_PROP | NEW
  | NEW_ARR | GET_ELEM | SET_ELEM
  | THROW | TRY | CATCH | FINALLY | END_TRY
  | BREAK | CONTINUE
  | NOP | HALT
deriving Repr, DecidableEq

/-- Instruction record.  `operand` is `none` when the JS operand is `null`. -/
structure Instr where
  opcode : Opcode
  operand : Option Nat
deriving Repr, DecidableEq

/-- Bytecode container (opcodes.js class ByteCode, minus source maps). -/
structure ByteCode where
  instructions : List Instr
  constantPool : ConstantPool
deriving Repr, DecidableEq

/-- The whole VM state.  In the JS source `funcHeap`, `arrHeap` and
`objHeap` live implicitly in the JS heap: a `Value.userFn a` / `.arr a` /
`.obj a` is a reference into the respective list, and mutating through one
reference is visible through every alias — exactly as JS object references
behave.  Function constants produced by the compiler are expected to occupy
the `funcHeap` prefix so that pool entries reference them. -/
structure VMState where
  stack : List Value
  callStack : List CallFrame
  globals : List (String × Value)
  funcHeap : List FuncObj
  arrHeap : List (List Value)
  objHeap : List (List (String × Value))
  pc : Int
  instructionCount : Nat
  maxInstructions : Nat
  closureIdCounter : Nat
deriving Repr, DecidableEq

/-- Names registered by `setupBuiltins` (vm.js 210-315). -/
def builtinNames : List String :=
  ["console", "Math", "parseInt", "parseFloat", "isNaN", "isFinite",
   "encodeURIComponent", "decodeURIComponent", "encodeURI", "decodeURI",
   "escape", "unescape", "String", "Number", "Boolean", "Object",
   "Uint32Array", "Uint8Array", "Int32Array", "undefined", "NaN",
   "Infinity", "Buffer", "require", "define", "module", "exports", "Array"]

/-- The builtins map in registration order.  Host functions/objects are
opaque and get stable ids; `undefined`, `NaN`, `Infinity` are the actual
primitive bindings (vm.js 261-263). -/
def builtinsList : List (String × Value) :=
  [("console", .hostObj 0), ("Math", .hostObj 1),
   ("parseInt", .hostFn 2), ("parseFloat", .hostFn 3),
   ("isNaN", .hostFn 4), ("isFinite", .hostFn 5),
   ("encodeURIComponent", .hostFn 6), ("decodeURIComponent", .hostFn 7),
   ("encodeURI", .hostFn 8), ("decodeURI", .hostFn 9),
   ("escape", .hostFn 10), ("unescape", .hostFn 11),
   ("String", .hostFn 12), ("Number", .hostFn 13),
   ("Boolean", .hostFn 14), ("Object", .hostFn 15),
   ("Uint32Array", .hostFn 16), ("Uint8Array", .hostFn 17),
   ("Int32Array", .hostFn 18), ("undefined", .undef),
   ("NaN", .nan), ("Infinity", .inf false),
   ("Buffer", .hostFn 19), ("require", .hostFn 20),
   ("define", .hostFn 21), ("module", .hostObj 2),
   ("exports", .hostObj 3), ("Array", .hostFn 22)]

/-- A freshly constructed `VirtualMachine` (vm.js constructor, 21-35). -/
def freshVM : VMState :=
  { stack := [], callStack := [], globals := [],
    funcHeap := [], arrHeap := [], objHeap := [],
    pc := 0, instructionCount := 0, maxInstructions := 200000,
    closureIdCounter := 0 }

/-- JS `Array.prototype.pop` on the operand stack: the empty stack yields
`undefined` (the source checks for emptiness only in `executePop`/
`executeDup`; every other handler pops unchecked). -/
def popRaw : List Value → Value × List Value
  | [] => (.undef, [])
  | v :: t => (v, t)

/-- Pop `n` values; the first component lists them in pop order. -/
def popN : List Value → Nat → List Value × List Value
  | st, 0 => ([], st)
  | st, n + 1 =>
      let (v, st') := popRaw st
      let (vs, st'') := popN st' n
      (v :: vs, st'')

/-- Push onto the operand stack. -/
def push (s : VMState) (v : Value) : VMState := { s with stack := v :: s.stack }

/-- Operand presence check (the compiler always supplies operands for the
operand-carrying opcodes; a `null` operand would fall into host coercion). -/
def reqOperand : Option Nat → Except String Nat
  | some k => .ok k
  | none => .error "MODEL: missing instruction operand"

/-- Read a pool constant that must be a variable name. -/
def constName (bc : ByteCode) (operand : Option Nat) : Except String String := do
  let k ← reqOperand operand
  let v ← bc.constantPool.get k
  match v with
  | .str n => .ok n
  | _ => .error "MODEL: name operand does not reference a string constant"

/-- Read a pool constant that must be a non-negative integer count. -/
def constCount (bc : ByteCode) (operand : Option Nat) : Except String Nat := do
  let k ← reqOperand operand
  let v ← bc.constantPool.get k
  match v with
  | .num q => if q.den = 1 ∧ 0 ≤ q.num then .ok q.num.toNat
              else .error "MODEL: count constant is not a natural number"
  | _ => .error "MODEL: count operand does not reference a number constant"

/-- Best-effort display of a value inside an error message (template-string
interpolation in the source; rendering of references is approximated). -/
def valueDisplay : Value → String
  | .undef => "undefined"
  | .null => "null"
  | .bool b => if b then "true" else "false"
  | .num q => if q.den = 1 then toString q.num else "number"
  | .nan => "NaN"
  | .inf n => if n then "-Infinity" else "Infinity"
  | .str s => s
  | .arr _ => "[array]"
  | .obj _ => "[object]"
  | .userFn _ => "[function]"
  | .hostFn _ => "[function]"
  | .hostObj _ => "[object]"
  | .regexp _ _ => "[regexp]"

/-- Opcode display names (opcodes.js `OpCodeNames`). -/
def opcodeName : Opcode → String
  | .PUSH => "PUSH" | .POP => "POP" | .DUP => "DUP"
  | .ADD => "ADD" | .SUB => "SUB" | .MUL => "MUL" | .DIV => "DIV"
  | .MOD => "MOD" | .NEG => "NEG"
  | .SHL => "SHL" | .SHR => "SHR" | .USHR => "USHR"
  | .BIT_AND => "BIT_AND" | .BIT_OR => "BIT_OR" | .BIT_XOR => "BIT_XOR"
  | .BIT_NOT => "BIT_NOT"
  | .EQ => "EQ" | .NE => "NE" | .LT => "LT" | .LE => "LE"
  | .GT => "GT" | .GE => "GE"
  | .AND => "AND" | .OR => "OR" | .NOT => "NOT" | .TYPEOF => "TYPEOF"
  | .LOAD => "LOAD" | .STORE => "STORE" | .DECLARE => "DECLARE"
  | .JMP => "JMP" | .JIF => "JIF" | .JNF => "JNF"
  | .CALL => "CALL" | .CALL_METHOD => "CALL_METHOD" | .RET => "RET"
  | .ENTER => "ENTER" | .LEAVE => "LEAVE"
  | .NEW_OBJ => "NEW_OBJ" | .GET_PROP => "GET_PROP" | .SET_PROP => "SET_PROP"
  | .NEW => "NEW"
  | .NEW_ARR => "NEW_ARR" | .GET_ELEM => "GET_ELEM" | .SET_ELEM => "SET_ELEM"
  | .THROW => "THROW" | .TRY => "TRY" | .CATCH => "CATCH"
  | .FINALLY => "FINALLY" | .END_TRY => "END_TRY"
  | .BREAK => "BREAK" | .CONTINUE => "CONTINUE"
  | .NOP => "NOP" | .HALT => "HALT"

/-!
## Instruction handlers (vm.js `executeXXX` methods)

Every handler returns the post-state together with the JS return value of
the handler (the dispatch loop stores it in `result`, which becomes the
program result when the operand stack ends empty — see `vmExecuteRun`).
-/

/-- Shared shape of the binary handlers: pop `b`, pop `a`, push `f a b`. -/
def execBin (f : Value → Value → Except String Value) (s : VMState) :
    Except String (VMState × Value) := do
  let (b, st1) := popRaw s.stack
  let (a, st2) := popRaw st1
  let r ← f a b
  .ok ({ s with stack := r :: st2 }, r)

/-- `executePush` (vm.js 540-544). -/
def executePush (bc : ByteCode) (operand : Option Nat) (s : VMState) :
    Except String (VMState × Value) := do
  let k ← reqOperand operand
  let v ← bc.constantPool.get k
  .ok (push s v, v)

/-- `executePop` (vm.js 549-554): explicitly checks for an empty stack. -/
def executePop (s : VMState) : Except String (VMState × Value) :=
  match s.stack with
  | [] => .error "栈为空，无法弹出"
  | v :: t => .ok ({ s with stack := t }, v)

/-- `executeDup` (vm.js 559-566). -/
def executeDup (s : VMState) : Except String (VMState × Value) :=
  match s.stack with
  | [] => .error "栈为空，无法复制"
  | v :: t => .ok ({ s with stack := v :: v :: t }, v)

/-- `executeDiv` (vm.js 604-613): the strict check `b === 0` fires exactly
when the popped divisor is the number value `0`; a coerced zero (such as
`null` or `false`) slips past it into the float division. -/
def executeDiv (s : VMState) : Except String (VMState × Value) := do
  let (b, st1) := popRaw s.stack
  let (a, st2) := popRaw st1
  if b = .num 0 then .error "除零错误"
  else do
    let r ← jsNumBin jsNumDiv a b
    .ok ({ s with stack := r :: st2 }, r)

/-- `executeEq` (vm.js 715-721): strict `===`. -/
def executeEq (s : VMState) : Except String (VMState × Value) :=
  execBin (fun a b => .ok (.bool (jsStrictEq a b))) s

/-- `executeNe` (vm.js 726-732): strict `!==`. -/
def executeNe (s : VMState) : Except String (VMState × Value) :=
  execBin (fun a b => .ok (.bool (!jsStrictEq a b))) s

/-- `executeNeg` (vm.js 629-634). -/
def executeNeg (s : VMState) : Except String (VMState × Value) := do
  let (a, st1) := popRaw s.stack
  let n ← jsToNumber a
  let r := jsNumToValue (jsNumNeg n)
  .ok ({ s with stack := r :: st1 }, r)

/-- `executeAnd` (vm.js 781-787): JS `a && b` on already-evaluated operands. -/
def executeAnd (s : VMState) : Except String (VMState × Value) :=
  execBin (fun a b => .ok (if jsTruthy a then b else a)) s

/-- `executeOr` (vm.js 792-798). -/
def executeOr (s : VMState) : Except String (VMState × Value) :=
  execBin (fun a b => .ok (if jsTruthy a then a else b)) s

/-- `executeNot` (vm.js 803-808). -/
def executeNot (s : VMState) : Except String (VMState × Value) :=
  let (a, st1) := popRaw s.stack
  let r : Value := .bool (!jsTruthy a)
  .ok ({ s with stack := r :: st1 }, r)

/-- `executeTypeof` (vm.js 813-832). -/
def executeTypeof (s : VMState) : Except String (VMState × Value) :=
  let (a, st1) := popRaw s.stack
  let r : Value := .str (jsTypeofStr a)
  .ok ({ s with stack := r :: st1 }, r)

/-- Step 1 of `executeLoad`: the closure environment of the current frame's
`currentFunction`, when the call stack is non-empty. -/
def closureEnvLookup (s : VMState) (name : String) : Option Value :=
  match s.callStack with
  | [] => none
  | frame :: _ =>
      match frame.currentFunction with
      | none => none
      | some fa =>
          match s.funcHeap[fa]? with
          | none => none
          | some fobj =>
              match fobj.closureEnv with
              | none => none
              | some env => mapGet env name

/-- Step 2 of `executeLoad`: walk the call frames innermost-out. -/
def frameLocalsLookup : List CallFrame → String → Option Value
  | [], _ => none
  | f :: t, name =>
      match mapGet f.locals name with
      | some v => some v
      | none => frameLocalsLookup t name

/-- The own property names of `Object.prototype`: `name in obj` answers
true for each of these on every plain object, through the prototype
chain. -/
def globalThisProtoNames : List String :=
  ["constructor", "hasOwnProperty", "isPrototypeOf", "propertyIsEnumerable",
   "toLocaleString", "toString", "valueOf", "__proto__", "__defineGetter__",
   "__defineSetter__", "__lookupGetter__", "__lookupSetter__"]

/-- Step 4 of `executeLoad` (vm.js 888-895): `varName in globalThis` on the
global `this` proxy.  The proxy declares no `has` trap, so `in` forwards to
the target's full `[[HasProperty]]`: an own property of the target (the
modelled `objHeap` entry) is a hit, and an own-property miss on an
`Object.prototype` name is *also* a hit — the subsequent read returns the
inherited host member (e.g. `Object.prototype.toString`), a bound native
function outside the model.  A global `this` that is some other
object-typed value is likewise outside the model. -/
def thisPropLookup (s : VMState) (name : String) :
    Except String (Option Value) :=
  match mapGet s.globals "this" with
  | none => .ok none
  | some gt =>
      if jsTruthy gt && (jsTypeofStr gt == "object") then
        match gt with
        | .obj a =>
            match mapGet (s.objHeap.getD a []) name with
            | some v => .ok (some v)
            | none =>
                if globalThisProtoNames.contains name then
                  .error "MODEL: inherited Object.prototype member is outside the model"
                else .ok none
        | _ => .error "MODEL: global this is not a plain object"
      else .ok none

/-- The name-resolution core of `executeLoad` (vm.js 837-900).  The source
guards steps 1-2 by `callStack.length > 0`; with an empty call stack those
steps are vacuous, which the helpers encode directly. -/
def executeLoadName (s : VMState) (name : String) : Except String Value :=
  match closureEnvLookup s name with
  | some v => .ok v
  | none =>
      match frameLocalsLookup s.callStack name with
      | some v => .ok v
      | none =>
          match mapGet s.globals name with
          | some v => .ok v
          | none => do
              let t ← thisPropLookup s name
              match t with
              | some v => .ok v
              | none => .error ("未定义的变量: " ++ name)

/-- `executeLoad`: resolve and push. -/
def executeLoad (bc : ByteCode) (operand : Option Nat) (s : VMState) :
    Except String (VMState × Value) := do
  let name ← constName bc operand
  let v ← executeLoadName s name
  .ok (push s v, v)

/-- Write into the closure environment of the function object at `fa`
(branch 1 of `executeStore`, vm.js 1109-1123).  A missing heap entry or
environment leaves the state unchanged (unreachable from the guarded call
site). -/
def storeClosureVar (s : VMState) (fa : Nat) (name : String) (v : Value) :
    VMState :=
  match s.funcHeap[fa]? with
  | none => s
  | some fobj =>
      match fobj.closureEnv with
      | none => s
      | some env =>
          { s with funcHeap :=
              s.funcHeap.set fa { fobj with closureEnv := some (mapSet env name v) } }

/-- Does the current frame's function close over `name`? (the branch-1 guard
of `executeStore`/`executeLoad`). -/
def currentClosureHas (s : VMState) (name : String) : Option Nat :=
  match s.callStack with
  | [] => none
  | frame :: _ =>
      match frame.currentFunction with
      | none => none
      | some fa =>
          match s.funcHeap[fa]? with
          | none => none
          | some fobj =>
              match fobj.closureEnv with
              | none => none
              | some env => if mapHas env name then some fa else none

/-- Branch 2 of `executeStore`: update the innermost frame that already
binds `name`; `none` when no frame binds it. -/
def storeInFrames : List CallFrame → String → Value → Option (List CallFrame)
  | [], _, _ => none
  | f :: t, name, v =>
      if mapHas f.locals name then
        some ({ f with locals := mapSet f.locals name v } :: t)
      else (storeInFrames t name v).map (f :: ·)

/-- `executeStore` (vm.js 1104-1144). -/
def executeStore (bc : ByteCode) (operand : Option Nat) (s : VMState) :
    Except String (VMState × Value) := do
  let name ← constName bc operand
  let (v, st1) := popRaw s.stack
  let s1 := { s with stack := st1 }
  match currentClosureHas s1 name with
  | some fa => .ok (storeClosureVar s1 fa name v, v)
  | none =>
      match storeInFrames s1.callStack name v with
      | some frames => .ok ({ s1 with callStack := frames }, v)
      | none => .ok ({ s1 with globals := mapSet s1.globals name v }, v)

/-- `createClosureEnvironment` (vm.js 1185-1214): capture-on-declare.
Captures the declaring frame's locals (minus `this`/`arguments`,
overwriting), then outer frames (first wins), then non-builtin globals
(first wins — note the global loop does not exclude `this`). -/
def createClosureEnvironment (s : VMState) (fa : Nat) (frame : CallFrame) :
    VMState :=
  match s.funcHeap[fa]? with
  | none => s
  | some fobj =>
      let env0 := fobj.closureEnv.getD []
      let env1 := frame.locals.foldl
        (fun env p =>
          if p.1 ≠ "this" ∧ p.1 ≠ "arguments" then mapSet env p.1 p.2 else env)
        env0
      let env2 := (s.callStack.drop 1).foldl
        (fun env f =>
          f.locals.foldl
            (fun env p =>
              if ¬ mapHas env p.1 ∧ p.1 ≠ "this" ∧ p.1 ≠ "arguments" then
                mapSet env p.1 p.2
              else env)
            env)
        env1
      let env3 := s.globals.foldl
        (fun env p =>
          if ¬ mapHas env p.1 ∧ ¬ builtinNames.contains p.1 then
            mapSet env p.1 p.2
          else env)
        env2
      { s with funcHeap := s.funcHeap.set fa { fobj with closureEnv := some env3 } }

/-- `createClosureEnvironmentFromGlobal` (vm.js 1220-1231). -/
def createClosureEnvironmentFromGlobal (s : VMState) (fa : Nat) : VMState :=
  match s.funcHeap[fa]? with
  | none => s
  | some fobj =>
      let env0 := fobj.closureEnv.getD []
      let env1 := s.globals.foldl
        (fun env p =>
          if ¬ builtinNames.contains p.1 ∧ p.1 ≠ "this" then
            mapSet env p.1 p.2
          else env)
        env0
      { s with funcHeap := s.funcHeap.set fa { fobj with closureEnv := some env1 } }

/-- Does a declared/returned value trigger the function-object check
`typeof value === 'object' && value.startAddress !== undefined`?  Note
`value = null` makes the JS property read itself throw a TypeError. -/
def declTypeError : String :=
  "TypeError: Cannot read properties of null (reading 'startAddress')"

/-- `executeDeclare` (vm.js 1149-1178). -/
def executeDeclare (bc : ByteCode) (operand : Option Nat) (s : VMState) :
    Except String (VMState × Value) := do
  let name ← constName bc operand
  let (v, st1) := popRaw s.stack
  let s1 := { s with stack := st1 }
  match s1.callStack with
  | frame :: rest =>
      let frame' := { frame with locals := mapSet frame.locals name v }
      let s2 := { s1 with callStack := frame' :: rest }
      match v with
      | .null => .error declTypeError
      | .userFn fa =>
          match s2.funcHeap[fa]? with
          | some fobj =>
              if fobj.closureEnv = none then
                .ok (createClosureEnvironment s2 fa frame', v)
              else .ok (s2, v)
          | none => .ok (s2, v)
      | _ => .ok (s2, v)
  | [] =>
      let s2 := { s1 with globals := mapSet s1.globals name v }
      match v with
      | .null => .error declTypeError
      | .userFn fa =>
          match s2.funcHeap[fa]? with
          | some fobj =>
              if fobj.closureEnv = none then
                .ok (createClosureEnvironmentFromGlobal s2 fa, v)
              else .ok (s2, v)
          | none => .ok (s2, v)
      | _ => .ok (s2, v)

/-- `executeJmp` (vm.js 1371-1374): the dispatch loop increments `pc`
afterwards, hence the `- 1`. -/
def executeJmp (operand : Option Nat) (s : VMState) :
    Except String (VMState × Value) :=
  .ok ({ s with pc := (operand.getD 0 : Int) - 1 }, .undef)

/-- `executeJif` (vm.js 1379-1385): jump when the popped value is truthy. -/
def executeJif (operand : Option Nat) (s : VMState) :
    Except String (VMState × Value) :=
  let (c, st1) := popRaw s.stack
  if jsTruthy c then
    .ok ({ s with stack := st1, pc := (operand.getD 0 : Int) - 1 }, .undef)
  else .ok ({ s with stack := st1 }, .undef)

/-- `executeJnf` (vm.js 1390-1396): jump when the popped value is falsy. -/
def executeJnf (operand : Option Nat) (s : VMState) :
    Except String (VMState × Value) :=
  let (c, st1) := popRaw s.stack
  if jsTruthy c then .ok ({ s with stack := st1 }, .undef)
  else .ok ({ s with stack := st1, pc := (operand.getD 0 : Int) - 1 }, .undef)

/-- Seed a callee frame's locals with the parameters (missing arguments
default to undefined; vm.js 1422-1426). -/
def bindParams (params : List String) (args : List Value) :
    List (String × Value) :=
  params.enum.foldl (fun l p => mapSet l p.2 (args.getD p.1 .undef)) []

/-- `hoistSiblingFunctionsForIIFE` (vm.js 1451-1465): copy host-function
entries of the global `this` target into the locals that do not yet bind
them.  User-function records are `typeof 'object'` and are not copied. -/
def hoistSiblings (s : VMState) (locals : List (String × Value)) :
    Except String (List (String × Value)) :=
  match mapGet s.globals "this" with
  | none => .ok locals
  | some gt =>
      if jsTruthy gt && (jsTypeofStr gt == "object") then
        match gt with
        | .obj a =>
            .ok ((s.objHeap.getD a []).foldl
              (fun l p =>
                match p.2 with
                | .hostFn _ => if mapHas l p.1 then l else mapSet l p.1 p.2
                | _ => l)
              locals)
        | _ => .error "MODEL: global this is not a plain object"
      else .ok locals

/-- `executeCall` (vm.js 1401-1445).  Invoking a host function crosses the
host boundary and is outside the model. -/
def executeCall (bc : ByteCode) (operand : Option Nat) (s : VMState) :
    Except String (VMState × Value) := do
  let argCount ← constCount bc operand
  let (func, st1) := popRaw s.stack
  let (args, st2) := popN st1 argCount
  match func with
  | .hostFn _ => .error "MODEL: invoking a host function is outside the model"
  | .userFn fa =>
      match s.funcHeap[fa]? with
      | none => .error "MODEL: dangling function reference"
      | some fobj => do
          let locals0 := bindParams fobj.params args
          let locals1 := mapSet locals0 "this" ((mapGet s.globals "this").getD .undef)
          let locals2 ← hoistSiblings s locals1
          let frame : CallFrame :=
            { returnAddress := s.pc, locals := locals2,
              isConstructorCall := false, newInstance := .null,
              currentFunction := some fa }
          .ok ({ s with
                  stack := st2
                  callStack := frame :: s.callStack
                  pc := (fobj.startAddress : Int) - 1 }, .undef)
  | _ => .error ("无法调用非函数对象: " ++ jsTypeofStr func)

/-- `executeCallMethod` (vm.js 1472-1514): like `executeCall` but the
receiver popped beneath the callee becomes the `this` local. -/
def executeCallMethod (bc : ByteCode) (operand : Option Nat) (s : VMState) :
    Except String (VMState × Value) := do
  let argCount ← constCount bc operand
  let (method, st1) := popRaw s.stack
  let (thisObject, st2) := popRaw st1
  let (args, st3) := popN st2 argCount
  match method with
  | .hostFn _ => .error "MODEL: invoking a host function is outside the model"
  | .userFn fa =>
      match s.funcHeap[fa]? with
      | none => .error "MODEL: dangling function reference"
      | some fobj => do
          let locals0 := bindParams fobj.params args
          let locals1 := mapSet locals0 "this" thisObject
          let locals2 ← hoistSiblings s locals1
          let frame : CallFrame :=
            { returnAddress := s.pc, locals := locals2,
              isConstructorCall := false, newInstance := .null,
              currentFunction := some fa }
          .ok ({ s with
                  stack := st3
                  callStack := frame :: s.callStack
                  pc := (fobj.startAddress : Int) - 1 }, .undef)
  | _ => .error ("无法调用非函数对象: " ++ jsTypeofStr method)

/-- `isBuiltinOrGlobalFunction` (vm.js 1295-1298): a builtin name, or a name
whose *global* binding is a host function (`typeof === 'function'`; user
function records are `typeof 'object'`). -/
def isBuiltinOrGlobalFunction (s : VMState) (name : String) : Bool :=
  builtinNames.contains name ||
    (match mapGet s.globals name with
     | some (.hostFn _) => true
     | _ => false)

/-- `isFunctionObject` (vm.js 1305-1310): a user-function record. -/
def isFunctionObjectV : Value → Bool
  | .userFn _ => true
  | _ => false

/-- `deepCopyValue` (vm.js 1332-1356): primitives by value; user-function
records by reference; arrays and plain objects by freshly allocated shallow
clone; host functions fall through every branch and return by reference;
spreading a host object or a RegExp yields a fresh plain object (their own
enumerable properties are opaque to the model and drop out). -/
def deepCopyValue (v : Value) (ah : List (List Value))
    (oh : List (List (String × Value))) :
    Value × List (List Value) × List (List (String × Value)) :=
  match v with
  | .undef => (v, ah, oh)
  | .null => (v, ah, oh)
  | .bool _ => (v, ah, oh)
  | .num _ => (v, ah, oh)
  | .nan => (v, ah, oh)
  | .inf _ => (v, ah, oh)
  | .str _ => (v, ah, oh)
  | .userFn _ => (v, ah, oh)
  | .hostFn _ => (v, ah, oh)
  | .arr a => (.arr ah.length, ah ++ [ah.getD a []], oh)
  | .obj o => (.obj oh.length, ah, oh ++ [oh.getD o []])
  | .hostObj _ => (.obj oh.length, ah, oh ++ [[]])
  | .regexp _ _ => (.obj oh.length, ah, oh ++ [[]])

/-- The skip predicate of `createIndependentClosureEnvironment`
(vm.js 1250-1262). -/
def captureSkip (s : VMState) (params : List String) (name : String)
    (v : Value) : Bool :=
  name == "this" || name == "arguments" || params.contains name ||
    isBuiltinOrGlobalFunction s name || isFunctionObjectV v

/-- `createIndependentClosureEnvironment` (vm.js 1238-1278): build a brand
new closure map from the returning frame's locals (deep-copying each kept
value) and assign a fresh closure id. -/
def createIndependentClosureEnvironment (s : VMState) (template : FuncObj)
    (frame : CallFrame) : FuncObj × VMState :=
  let cid := s.closureIdCounter + 1
  let folded := frame.locals.foldl
    (fun (acc : List (String × Value) × List (List Value) × List (List (String × Value))) p =>
      if captureSkip s template.params p.1 p.2 then acc
      else
        let (cv, ah', oh') := deepCopyValue p.2 acc.2.1 acc.2.2
        (mapSet acc.1 p.1 cv, ah', oh'))
    ([], s.arrHeap, s.objHeap)
  ({ template with closureEnv := some folded.1, closureId := some cid },
   { s with closureIdCounter := cid, arrHeap := folded.2.1, objHeap := folded.2.2 })

/-- `executeRet` (vm.js 1519-1564).  A returned user function is replaced by
a freshly allocated copy with an independent closure environment; a returned
`null` makes the source's `returnValue.startAddress` read throw. -/
def executeRet (s : VMState) : Except String (VMState × Value) :=
  let (returnValue, st1) := popRaw s.stack
  match s.callStack with
  | [] => .error "没有可返回的函数调用"
  | frame :: rest =>
      let s1 := { s with
                   stack := st1
                   callStack := rest
                   pc := frame.returnAddress }
      match returnValue with
      | .null => .error declTypeError
      | .userFn fa =>
          match s1.funcHeap[fa]? with
          | none => .error "MODEL: dangling function reference"
          | some t =>
              let copyT : FuncObj :=
                { name := t.name, params := t.params,
                  startAddress := t.startAddress,
                  closureScope := t.closureScope,
                  closureEnv := none, closureId := none }
              let (fc, s2) := createIndependentClosureEnvironment s1 copyT frame
              let addr := s2.funcHeap.length
              let s3 := { s2 with
                           funcHeap := s2.funcHeap ++ [fc]
                           stack := .userFn addr :: s2.stack }
              .ok (s3, .userFn addr)
      | rv =>
          if frame.isConstructorCall then
            let isObjTyped : Bool :=
              match rv with
              | .arr _ => true | .obj _ => true
              | .hostObj _ => true | .regexp _ _ => true
              | _ => false
            let finalResult := if isObjTyped then rv else frame.newInstance
            .ok ({ s1 with stack := finalResult :: st1 }, finalResult)
          else
            .ok ({ s1 with stack := rv :: st1 }, rv)

/-- The own-property method names of `Object.prototype` (a property miss on
a plain object resolves to one of these bound host methods in
`lookupPrototypeProperty`; the bound function itself is opaque). -/
def objectProtoNames : List String :=
  ["constructor", "hasOwnProperty", "isPrototypeOf", "propertyIsEnumerable",
   "toLocaleString", "toString", "valueOf"]

/-- Is `key` the canonical decimal numeral of a natural number?  JS array
index keys behave as element accesses exactly when the key is canonical. -/
def canonicalNat (key : String) : Option Nat :=
  match key.toNat? with
  | some i => if toString i = key then some i else none
  | none => none

/-- Is `key` the canonical decimal numeral of an index below `len`? -/
def canonicalIndex (key : String) (len : Nat) : Option Nat :=
  match canonicalNat key with
  | some i => if i < len then some i else none
  | none => none

/-- `getPropertyWithPrototype` (vm.js 1590-1661) restricted to the modelled
receivers: own properties of plain objects, array `length`/indices, string
`length`/indices.  A miss that would consult a host prototype chain is
outside the model; a plain-object miss on a non-`Object.prototype` name is
`undefined`. -/
def getPropValue (s : VMState) (object propertyName : Value) :
    Except String Value :=
  match object, propertyName with
  | .obj a, .str k =>
      let props := s.objHeap.getD a []
      (match mapGet props k with
       | some v => .ok v
       | none =>
           if objectProtoNames.contains k then
             .error "MODEL: Object.prototype method lookup is outside the model"
           else .ok .undef)
  | .arr a, .str k =>
      let elems := s.arrHeap.getD a []
      if k = "length" then .ok (.num (elems.length : ℚ))
      else
        (match canonicalIndex k elems.length with
         | some i => .ok (elems.getD i .undef)
         | none => .error "MODEL: array prototype lookup is outside the model")
  | .arr a, .num q =>
      let elems := s.arrHeap.getD a []
      if q.den = 1 ∧ 0 ≤ q.num ∧ q.num < elems.length then
        .ok (elems.getD q.num.toNat .undef)
      else .ok .undef
  | .str str, .str k =>
      if k = "length" then .ok (.num (str.length : ℚ))
      else .error "MODEL: string prototype lookup is outside the model"
  | .str str, .num q =>
      if q.den = 1 ∧ 0 ≤ q.num ∧ q.num < str.length then
        .ok (.str (String.mk [str.toList.getD q.num.toNat ' ']))
      else .error "MODEL: string prototype lookup is outside the model"
  | _, _ => .error "MODEL: property access on this receiver is outside the model"

/-- `executeGetProp` (vm.js 1569-1582). -/
def executeGetProp (s : VMState) : Except String (VMState × Value) := do
  let (propertyName, st1) := popRaw s.stack
  let (object, st2) := popRaw st1
  match object with
  | .null => .error ("无法读取 null 的属性 '" ++ valueDisplay propertyName ++ "'")
  | .undef => .error ("无法读取 undefined 的属性 '" ++ valueDisplay propertyName ++ "'")
  | _ => do
      let v ← getPropValue s object propertyName
      .ok ({ s with stack := v :: st2 }, v)

/-- JS array element store `array[i] = v`: in range overwrites, out of range
extends with undefined holes. -/
def arrStore (elems : List Value) (i : Nat) (v : Value) : List Value :=
  if i < elems.length then elems.set i v
  else elems ++ List.replicate (i - elems.length) .undef ++ [v]

/-- `executeSetProp` (vm.js 1749-1761): assign and leave the value on the
stack (stack layout `[value, object, property]` bottom-to-top). -/
def executeSetProp (s : VMState) : Except String (VMState × Value) := do
  let (property, st1) := popRaw s.stack
  let (object, st2) := popRaw st1
  let (v, st3) := popRaw st2
  match object with
  | .null => .error ("无法设置 null 的属性 '" ++ valueDisplay property ++ "'")
  | .undef => .error ("无法设置 undefined 的属性 '" ++ valueDisplay property ++ "'")
  | .obj a =>
      let props := s.objHeap.getD a []
      (match property with
       | .str k =>
           .ok ({ s with
                   objHeap := s.objHeap.set a (mapSet props k v)
                   stack := v :: st3 }, v)
       | _ => .error "MODEL: non-string object keys are outside the model")
  | .arr a =>
      let elems := s.arrHeap.getD a []
      (match property with
       | .num q =>
           if q.den = 1 ∧ 0 ≤ q.num then
             .ok ({ s with
                     arrHeap := s.arrHeap.set a (arrStore elems q.num.toNat v)
                     stack := v :: st3 }, v)
           else .error "MODEL: non-index array keys are outside the model"
       | .str k =>
           (match canonicalNat k with
            | some i =>
                .ok ({ s with
                        arrHeap := s.arrHeap.set a (arrStore elems i v)
                        stack := v :: st3 }, v)
            | none => .error "MODEL: non-index array keys are outside the model")
       | _ => .error "MODEL: non-index array keys are outside the model")
  | _ => .error "MODEL: property store on this receiver is outside the model"

/-- `executeGetElem` (vm.js 1707-1718): array-only element read; a
non-array receiver is a runtime error; out-of-range or non-integer numeric
indices read as undefined. -/
def executeGetElem (s : VMState) : Except String (VMState × Value) := do
  let (index, st1) := popRaw s.stack
  let (array, st2) := popRaw st1
  match array with
  | .arr a =>
      let elems := s.arrHeap.getD a []
      (match index with
       | .num q =>
           let v := if q.den = 1 ∧ 0 ≤ q.num ∧ q.num < elems.length then
                      elems.getD q.num.toNat .undef
                    else .undef
           .ok ({ s with stack := v :: st2 }, v)
       | .str k =>
           (match canonicalIndex k elems.length with
            | some i =>
                let v := elems.getD i .undef
                .ok ({ s with stack := v :: st2 }, v)
            | none => .error "MODEL: non-index array keys are outside the model")
       | _ => .error "MODEL: non-index array keys are outside the model")
  | _ => .error ("尝试从非数组对象获取元素: " ++ jsTypeofStr array)

/-- `executeSetElem` (vm.js 1724-1743): as `SET_PROP` but with an explicit
three-element stack check and an array-only receiver. -/
def executeSetElem (s : VMState) : Except String (VMState × Value) := do
  if s.stack.length < 3 then
    .error ("SET_ELEM指令需要3个栈元素，但栈中只有" ++
            toString s.stack.length ++ "个元素")
  else do
    let (index, st1) := popRaw s.stack
    let (array, st2) := popRaw st1
    let (v, st3) := popRaw st2
    match array with
    | .arr a =>
        let elems := s.arrHeap.getD a []
        (match index with
         | .num q =>
             if q.den = 1 ∧ 0 ≤ q.num then
               .ok ({ s with
                       arrHeap := s.arrHeap.set a (arrStore elems q.num.toNat v)
                       stack := v :: st3 }, v)
             else .error "MODEL: non-index array keys are outside the model"
         | _ => .error "MODEL: non-index array keys are outside the model")
    | _ => .error ("尝试设置非数组对象的元素: " ++ jsTypeofStr array ++
                   ", 收到的值: " ++ valueDisplay array)

/-- `executeNewArr` (vm.js 1673-1684): pop the element count, then pop the
elements back-to-front into a fresh array. -/
def executeNewArr (s : VMState) : Except String (VMState × Value) := do
  let (lengthV, st1) := popRaw s.stack
  match lengthV with
  | .num q =>
      if q.den = 1 ∧ 0 ≤ q.num then
        let n := q.num.toNat
        let (popped, st2) := popN st1 n
        let elems := popped.reverse
        let addr := s.arrHeap.length
        .ok ({ s with
                arrHeap := s.arrHeap ++ [elems]
                stack := .arr addr :: st2 }, .arr addr)
      else .error "MODEL: array length is not a natural number"
  | _ => .error "MODEL: array length is not a number"

/-- `executeNewObj` (vm.js 1689-1702): pop the pair count, then pop
`(key, value)` pairs (key above value). -/
def executeNewObj (s : VMState) : Except String (VMState × Value) := do
  let (countV, st1) := popRaw s.stack
  match countV with
  | .num q =>
      if q.den = 1 ∧ 0 ≤ q.num then
        let rec build (n : Nat) (st : List Value)
            (props : List (String × Value)) :
            Except String (List (String × Value) × List Value) :=
          match n with
          | 0 => .ok (props, st)
          | m + 1 => do
              let (key, st') := popRaw st
              let (v, st'') := popRaw st'
              let k ← match key with
                | .str k => .ok k
                | .num q' => if q'.den = 1 then .ok (toString q'.num)
                             else .error "MODEL: non-integer object keys are outside the model"
                | _ => .error "MODEL: object keys of this type are outside the model"
              build m st'' (mapSet props k v)
        do
          let (props, st2) ← build q.num.toNat st1 []
          let addr := s.objHeap.length
          .ok ({ s with
                  objHeap := s.objHeap ++ [props]
                  stack := .obj addr :: st2 }, .obj addr)
      else .error "MODEL: object property count is not a natural number"
  | _ => .error "MODEL: object property count is not a number"

/-- `executeNew` (vm.js 1937-2020).  Only the user-function constructor
branch is inside the model; host constructors (Array/Object/String/... and
arbitrary host functions) cross the host boundary.  Any error raised inside
the branch body is rewrapped by the source's catch block. -/
def executeNew (bc : ByteCode) (operand : Option Nat) (s : VMState) :
    Except String (VMState × Value) := do
  let argCount ← constCount bc operand
  let (constructor, st1) := popRaw s.stack
  let (args, st2) := popN st1 argCount
  let body : Except String (VMState × Value) :=
    match constructor with
    | .hostFn _ => .error "MODEL: host constructor invocation is outside the model"
    | .userFn fa =>
        (match s.funcHeap[fa]? with
         | none => .error "MODEL: dangling function reference"
         | some fobj => do
             let newAddr := s.objHeap.length
             let s' := { s with objHeap := s.objHeap ++ [[]] }
             let newInstance : Value := .obj newAddr
             let locals0 := bindParams fobj.params args
             let locals1 := mapSet locals0 "this" newInstance
             let locals2 :=
               match fobj.closureEnv with
               | some env =>
                   env.foldl
                     (fun l p => if mapHas l p.1 then l else mapSet l p.1 p.2)
                     locals1
               | none => locals1
             let locals3 ← hoistSiblings s' locals2
             let frame : CallFrame :=
               { returnAddress := s.pc, locals := locals3,
                 isConstructorCall := true, newInstance := newInstance,
                 currentFunction := some fa }
             .ok ({ s' with
                     stack := st2
                     callStack := frame :: s'.callStack
                     pc := (fobj.startAddress : Int) - 1 }, .undef))
    | _ => .error ("无法构造对象，构造函数类型: " ++ jsTypeofStr constructor ++
                   "，构造函数: " ++ valueDisplay constructor)
  match body with
  | .ok r => .ok r
  | .error e => .error ("构造函数调用失败: " ++ e)

/-- `executeThrow` (vm.js 2025-2031): raise `String(value)` as a host
error. -/
def executeThrow (s : VMState) : Except String (VMState × Value) :=
  let (v, _) := popRaw s.stack
  match jsPrimToString v with
  | .ok msg => .error msg
  | .error _ => .error "MODEL: String() of a thrown reference value is outside the model"

/-- `executeInstruction` (vm.js 428-535): the opcode dispatch.  `NOP`,
`ENTER` and `LEAVE` have no case in the source switch and hit the
`未实现的操作码` default. -/
def executeInstruction (bc : ByteCode) (i : Instr) (s : VMState) :
    Except String (VMState × Value) :=
  match i.opcode with
  | .PUSH => executePush bc i.operand s
  | .POP => executePop s
  | .DUP => executeDup s
  | .ADD => execBin jsAdd s
  | .SUB => execBin (jsNumBin (fun a b => jsNumAdd a (jsNumNeg b))) s
  | .MUL => execBin (jsNumBin jsNumMul) s
  | .DIV => executeDiv s
  | .MOD => execBin (jsNumBin jsNumMod) s
  | .NEG => executeNeg s
  | .SHL => execBin jsShl s
  | .SHR => execBin jsShr s
  | .USHR => execBin jsUshr s
  | .BIT_AND => execBin (jsBitBin Nat.land) s
  | .BIT_OR => execBin (jsBitBin Nat.lor) s
  | .BIT_XOR => execBin (jsBitBin Nat.xor) s
  | .BIT_NOT =>
      (do
        let (a, st1) := popRaw s.stack
        let r ← jsBitNot a
        .ok ({ s with stack := r :: st1 }, r))
  | .EQ => executeEq s
  | .NE => executeNe s
  | .LT => execBin (fun a b => (jsLtVal a b).map Value.bool) s
  | .LE => execBin (fun a b => (jsLeVal a b).map Value.bool) s
  | .GT => execBin (fun a b => (jsLtVal b a).map Value.bool) s
  | .GE => execBin (fun a b => (jsLeVal b a).map Value.bool) s
  | .AND => executeAnd s
  | .OR => executeOr s
  | .NOT => executeNot s
  | .TYPEOF => executeTypeof s
  | .LOAD => executeLoad bc i.operand s
  | .STORE => executeStore bc i.operand s
  | .DECLARE => executeDeclare bc i.operand s
  | .JMP => executeJmp i.operand s
  | .JIF => executeJif i.operand s
  | .JNF => executeJnf i.operand s
  | .CALL => executeCall bc i.operand s
  | .CALL_METHOD => executeCallMethod bc i.operand s
  | .RET => executeRet s
  | .GET_PROP => executeGetProp s
  | .NEW_ARR => executeNewArr s
  | .NEW_OBJ => executeNewObj s
  | .GET_ELEM => executeGetElem s
  | .SET_ELEM => executeSetElem s
  | .SET_PROP => executeSetProp s
  | .NEW => executeNew bc i.operand s
  | .THROW => executeThrow s
  | .TRY => .ok (s, .undef)
  | .CATCH => .ok (s, .undef)
  | .FINALLY => .ok (s, .undef)
  | .END_TRY => .ok (s, .undef)
  | .BREAK => .error "BREAK_STATEMENT"
  | .CONTINUE => .error "CONTINUE_STATEMENT"
  | .HALT => .ok (s, .undef)
  | op => .error ("未实现的操作码: " ++ opcodeName op)

/-!
## Dispatch loop and host API (vm.js `execute`, the JSVMP wrapper class)
-/

/-- The watchdog message (vm.js 379). -/
def budgetMsg (m : Nat) : String :=
  "执行指令数量超过限制 (" ++ toString m ++ ")，可能存在死循环"

/-- One iteration of the dispatch-loop body (vm.js 373-397): fetch the
instruction, bump the watchdog counter, check the budget, execute, advance
`pc`.  The boolean flags a `HALT` instruction (the loop breaks after it).
A negative `pc` would make the JS destructuring of `instructions[pc]`
throw; it cannot arise from compiled code. -/
def stepExec (bc : ByteCode) (s : VMState) :
    Except String (VMState × Value × Bool) :=
  if s.pc < 0 then .error "MODEL: negative pc"
  else
    match bc.instructions[s.pc.toNat]? with
    | none => .error "MODEL: pc out of range"
    | some instr =>
        let s1 := { s with instructionCount := s.instructionCount + 1 }
        if s1.instructionCount > s1.maxInstructions then
          .error (budgetMsg s1.maxInstructions)
        else do
          let (s2, r) ← executeInstruction bc instr s1
          .ok ({ s2 with pc := s2.pc + 1 }, r, instr.opcode == .HALT)

/-- The dispatch loop (`while (this.pc < this.bytecode.instructions.length)`,
vm.js 373-398).  `fuel` is a termination device only: the watchdog throws at
the `maxInstructions + 1`-st iteration, so `maxInstructions + 1` units of
fuel can never run out. -/
def runLoop (bc : ByteCode) :
    Nat → VMState → Value → Except String (VMState × Value)
  | 0, _, _ => .error "MODEL: loop fuel exhausted"
  | fuel + 1, s, r =>
      if s.pc < (bc.instructions.length : Int) then
        match stepExec bc s with
        | .error e => .error e
        | .ok (s', r', halted) =>
            if halted then .ok (s', r') else runLoop bc fuel s' r'
      else .ok (s, r)

/-- The result selection of `execute` (vm.js 420): the top of the operand
stack, or the last instruction handler's return value when the stack is
empty. -/
def vmFinish : Except String (VMState × Value) → Except String (VMState × Value)
  | .error e => .error e
  | .ok (fin, r) =>
      match fin.stack with
      | top :: _ => .ok (fin, top)
      | [] => .ok (fin, r)

/-- The globals rebuild + context merge of `execute` (vm.js 337-367). -/
def vmInitState (s0 : VMState) (context : List (String × Value))
    (resetGlobals : Bool) : VMState :=
  let s1 := { s0 with
               pc := (0 : Int)
               stack := ([] : List Value)
               callStack := ([] : List CallFrame)
               instructionCount := 0
               maxInstructions := 200000 }
  let s2 :=
    if resetGlobals then
      let thisAddr := s1.objHeap.length
      { s1 with
         objHeap := s1.objHeap ++ [[]]
         globals := mapSet builtinsList "this" (.obj thisAddr) }
    else s1
  { s2 with
     globals := context.foldl (fun g p => mapSet g p.1 p.2) s2.globals }

/-- `VirtualMachine.execute` (vm.js 329-421), exposing both the updated
instance state and the returned value.  Note vm.js 335: `maxInstructions`
is unconditionally reset to `200000` on every call, so a prior
`setMaxInstructions` has no effect on this run.  Resetting globals rebuilds
the builtins map and installs a fresh global `this` object (the proxy's
global-sync traps are not exercised by any modelled program). -/
def vmExecuteRun (s0 : VMState) (bc : ByteCode)
    (context : List (String × Value)) (resetGlobals : Bool) :
    Except String (VMState × Value) :=
  let s3 := vmInitState s0 context resetGlobals
  vmFinish (runLoop bc (s3.maxInstructions + 1) s3 .undef)

/-- `VirtualMachine.execute`'s return value alone. -/
def vmExecute (s0 : VMState) (bc : ByteCode) (context : List (String × Value))
    (resetGlobals : Bool) : Except String Value :=
  (vmExecuteRun s0 bc context resetGlobals).map (fun p => p.2)

/-- `VirtualMachine.setMaxInstructions` (vm.js 1877-1879). -/
def vmSetMaxInstructions (s : VMState) (n : Nat) : VMState :=
  { s with maxInstructions := n }

/-- The `JSVMP` wrapper instance (unnamed part_003): a `VirtualMachine`
plus the `initialized` flag. -/
structure JSVMP where
  vm : VMState
  initialized : Bool
deriving Repr, DecidableEq

/-- `new JSVMP()`. -/
def JSVMP.fresh : JSVMP := ⟨freshVM, false⟩

/-- `JSVMP.run` (part_003 23-36) modulo parsing/compilation: execute the
given bytecode with `resetGlobals = !initialized`, then mark the instance
initialized.  On an error the flag is left untouched (the assignment sits
after the `execute` call). -/
def jsvmpRun (j : JSVMP) (bc : ByteCode) (context : List (String × Value)) :
    Except String (Value × JSVMP) :=
  match vmExecuteRun j.vm bc context (!j.initialized) with
  | .error e => .error e
  | .ok (fin, r) => .ok (r, ⟨fin, true⟩)

/-- `JSVMP.execute` (part_003 54-56): forwards to `vm.execute(bytecode,
context)`, whose `resetGlobals` parameter defaults to `true`. -/
def jsvmpExecute (j : JSVMP) (bc : ByteCode)
    (context : List (String × Value)) : Except String (Value × JSVMP) :=
  match vmExecuteRun j.vm bc context true with
  | .error e => .error e
  | .ok (fin, r) => .ok (r, ⟨fin, j.initialized⟩)

/-- `JSVMP.reset` (part_003 92-95): discard the VM instance and clear the
flag. -/
def jsvmpReset (_ : JSVMP) : JSVMP := ⟨freshVM, false⟩

/-- `JSVMP.setMaxInstructions` (part_003 85-87). -/
def jsvmpSetMaxInstructions (j : JSVMP) (n : Nat) : JSVMP :=
  { j with vm := vmSetMaxInstructions j.vm n }

/-!
## Compiler (src/src/compiler.js)

The AST mirrors the Babel node shapes the compiler's switch supports
(compiler.js 42-91).  Identifier-valued positions (parameter lists,
declarator ids, for-in loop variables, catch parameters) carry the name
directly.  Babel's `NullLiteral` has no `value` property, so
`compileLiteral` pools `undefined` for it — modelled faithfully below.
-/

mutual
/-- Supported AST nodes. -/
inductive Node where
  | File (program : Node)
  | Program (body : List Node)
  | BlockStatement (body : List Node)
  | ExpressionStatement (expression : Node)
  | VariableDeclaration (declarations : List VarDeclarator)
  | FunctionDeclaration (id : String) (params : List String) (body : Node)
  | ReturnStatement (argument : Option Node)
  | IfStatement (test : Node) (consequent : Node) (alternate : Option Node)
  | WhileStatement (test : Node) (body : Node)
  | DoWhileStatement (body : Node) (test : Node)
  | ForStatement (forInit : Option Node) (test : Option Node)
      (update : Option Node) (body : Node)
  | ForInStatement (leftIsDecl : Bool) (leftName : String) (right : Node)
      (body : Node)
  | SwitchStatement (discriminant : Node) (cases : List SwitchCase)
  | BreakStatement
  | ContinueStatement
  | ThrowStatement (argument : Node)
  | TryStatement (block : Node) (handler : Option CatchClause)
      (finalizer : Option Node)
  | DebuggerStatement
  | NumericLiteral (value : ℚ)
  | StringLiteral (value : String)
  | BooleanLiteral (value : Bool)
  | NullLiteral
  | RegExpLiteral (pattern : String) (flags : String)
  | TemplateLiteral (quasis : List String) (expressions : List Node)
  | Identifier (name : String)
  | ThisExpression
  | BinaryExpression (op : String) (left : Node) (right : Node)
  | LogicalExpression (op : String) (left : Node) (right : Node)
  | UnaryExpression (op : String) (argument : Node)
  | UpdateExpression (op : String) (preForm : Bool) (argument : Node)
  | AssignmentExpression (op : String) (left : Node) (right : Node)
  | ConditionalExpression (test : Node) (consequent : Node) (alternate : Node)
  | SequenceExpression (expressions : List Node)
  | CallExpression (callee : Node) (args : List Node)
  | NewExpression (callee : Node) (args : List Node)
  | MemberExpression (object : Node) (property : Node) (computed : Bool)
  | ArrayExpression (elements : List (Option Node))
  | ObjectExpression (properties : List ObjProp)
  | FunctionExpression (id : Option String) (params : List String)
      (body : Node)

/-- A `VariableDeclaration` declarator: identifier plus optional
initializer. -/
inductive VarDeclarator where
  | mk (id : String) (initExpr : Option Node)

/-- A `SwitchStatement` case (`test` is absent for `default`). -/
inductive SwitchCase where
  | mk (test : Option Node) (consequent : List Node)

/-- A `TryStatement` handler. -/
inductive CatchClause where
  | mk (param : Option String) (body : Node)

/-- An `ObjectExpression` property. -/
inductive ObjProp where
  | mk (key : Node) (computed : Bool) (value : Node)
end

/-- Babel `type` strings, used in compiler error messages. -/
def nodeKindName : Node → String
  | .File _ => "File"
  | .Program _ => "Program"
  | .BlockStatement _ => "BlockStatement"
  | .ExpressionStatement _ => "ExpressionStatement"
  | .VariableDeclaration _ => "VariableDeclaration"
  | .FunctionDeclaration _ _ _ => "FunctionDeclaration"
  | .ReturnStatement _ => "ReturnStatement"
  | .IfStatement _ _ _ => "IfStatement"
  | .WhileStatement _ _ => "WhileStatement"
  | .DoWhileStatement _ _ => "DoWhileStatement"
  | .ForStatement _ _ _ _ => "ForStatement"
  | .ForInStatement _ _ _ _ => "ForInStatement"
  | .SwitchStatement _ _ => "SwitchStatement"
  | .BreakStatement => "BreakStatement"
  | .ContinueStatement => "ContinueStatement"
  | .ThrowStatement _ => "ThrowStatement"
  | .TryStatement _ _ _ => "TryStatement"
  | .DebuggerStatement => "DebuggerStatement"
  | .NumericLiteral _ => "NumericLiteral"
  | .StringLiteral _ => "StringLiteral"
  | .BooleanLiteral _ => "BooleanLiteral"
  | .NullLiteral => "NullLiteral"
  | .RegExpLiteral _ _ => "RegExpLiteral"
  | .TemplateLiteral _ _ => "TemplateLiteral"
  | .Identifier _ => "Identifier"
  | .ThisExpression => "ThisExpression"
  | .BinaryExpression _ _ _ => "BinaryExpression"
  | .LogicalExpression _ _ _ => "LogicalExpression"
  | .UnaryExpression _ _ => "UnaryExpression"
  | .UpdateExpression _ _ _ => "UpdateExpression"
  | .AssignmentExpression _ _ _ => "AssignmentExpression"
  | .ConditionalExpression _ _ _ => "ConditionalExpression"
  | .SequenceExpression _ => "SequenceExpression"
  | .CallExpression _ _ => "CallExpression"
  | .NewExpression _ _ => "NewExpression"
  | .MemberExpression _ _ _ => "MemberExpression"
  | .ArrayExpression _ => "ArrayExpression"
  | .ObjectExpression _ => "ObjectExpression"
  | .FunctionExpression _ _ _ => "FunctionExpression"

/-- Break/continue bookkeeping for one loop or switch context
(compiler.js loopStack/switchStack entries). -/
structure LoopCtx where
  breakTargets : List Nat
  continueTargets : List Nat
deriving Repr, DecidableEq

/-- The compiler state: the growing instruction list and pool (the
`ByteCode` under construction), the allocated function records (JS heap
identity of the `funcInfo` objects), the lexical scope stack (head is the
current scope; names only — the `{scope, declared}` payload is dead data),
and the loop/switch context stacks. -/
structure CompState where
  instructions : List Instr
  pool : ConstantPool
  templates : List FuncObj
  scopes : List (List String)
  loopStack : List LoopCtx
  switchStack : List LoopCtx
deriving Repr, DecidableEq

/-- `ByteCode.addInstruction`. -/
def addInstr (s : CompState) (op : Opcode) (operand : Option Nat) : CompState :=
  { s with instructions := s.instructions ++ [⟨op, operand⟩] }

/-- `ByteCode.addConstant`. -/
def addConst (s : CompState) (v : Value) : Except String (Nat × CompState) :=
  (s.pool.add v).map (fun p => (p.1, { s with pool := p.2 }))

/-- `getCurrentAddress`. -/
def curAddr (s : CompState) : Nat := s.instructions.length

/-- `patchInstruction` (compiler.js 943-945): overwrite the operand,
keeping the opcode.  The compiler only patches addresses it has emitted. -/
def patchInstr (s : CompState) (address : Nat) (operand : Nat) : CompState :=
  match s.instructions[address]? with
  | some i =>
      { s with instructions := s.instructions.set address ⟨i.opcode, some operand⟩ }
  | none => s

/-- Patch a list of recorded jump addresses to one target. -/
def patchAll (s : CompState) (targets : List Nat) (operand : Nat) : CompState :=
  targets.foldl (fun s a => patchInstr s a operand) s

/-- `enterScope`. -/
def enterScope (s : CompState) : CompState :=
  { s with scopes := [] :: s.scopes }

/-- `exitScope`. -/
def exitScope (s : CompState) : CompState :=
  { s with scopes := s.scopes.tail }

/-- `declareVariable`: record the name in the current scope. -/
def declareVariable (s : CompState) (name : String) : CompState :=
  match s.scopes with
  | [] => s
  | sc :: t =>
      { s with scopes := (if sc.contains name then sc else sc ++ [name]) :: t }

/-- `captureClosure` (compiler.js 947-956): the union of all declared names
outer-to-inner (dead data downstream; only the names are kept). -/
def captureClosure (s : CompState) : List String :=
  s.scopes.reverse.flatten.foldl
    (fun acc n => if acc.contains n then acc else acc ++ [n]) []

/-- Push a fresh loop context. -/
def pushLoop (s : CompState) : CompState :=
  { s with loopStack := ⟨[], []⟩ :: s.loopStack }

/-- Pop the loop context. -/
def popLoop (s : CompState) : CompState :=
  { s with loopStack := s.loopStack.tail }

/-- Record a break-jump address in the innermost loop context. -/
def addBreakToLoop (s : CompState) (j : Nat) : CompState :=
  match s.loopStack with
  | [] => s
  | c :: t =>
      { s with loopStack := { c with breakTargets := c.breakTargets ++ [j] } :: t }

/-- Record a continue-jump address in the innermost loop context. -/
def addContinueToLoop (s : CompState) (j : Nat) : CompState :=
  match s.loopStack with
  | [] => s
  | c :: t =>
      { s with loopStack :=
          { c with continueTargets := c.continueTargets ++ [j] } :: t }

/-- Push a fresh switch context. -/
def pushSwitch (s : CompState) : CompState :=
  { s with switchStack := ⟨[], []⟩ :: s.switchStack }

/-- Pop the switch context. -/
def popSwitch (s : CompState) : CompState :=
  { s with switchStack := s.switchStack.tail }

/-- Record a break-jump address in the innermost switch context. -/
def addBreakToSwitch (s : CompState) (j : Nat) : CompState :=
  match s.switchStack with
  | [] => s
  | c :: t =>
      { s with switchStack := { c with breakTargets := c.breakTargets ++ [j] } :: t }

/-- The innermost loop context (defaulting is never exercised: reads happen
under a matching push). -/
def headLoop (s : CompState) : LoopCtx := s.loopStack.headD ⟨[], []⟩

/-- The innermost switch context. -/
def headSwitch (s : CompState) : LoopCtx := s.switchStack.headD ⟨[], []⟩

/-- The binary-operator table of `compileBinaryExpression`
(compiler.js 195-201): both `==` and `===` lower to `EQ`, both `!=` and
`!==` to `NE`. -/
def binaryOpcode : String → Option Opcode
  | "+" => some .ADD
  | "-" => some .SUB
  | "*" => some .MUL
  | "/" => some .DIV
  | "%" => some .MOD
  | "==" => some .EQ
  | "===" => some .EQ
  | "!=" => some .NE
  | "!==" => some .NE
  | "<" => some .LT
  | "<=" => some .LE
  | ">" => some .GT
  | ">=" => some .GE
  | "<<" => some .SHL
  | ">>" => some .SHR
  | ">>>" => some .USHR
  | "&" => some .BIT_AND
  | "|" => some .BIT_OR
  | "^" => some .BIT_XOR
  | _ => none

/-- The compound-assignment operator table (compiler.js 339-343/365-369). -/
def compoundOpcode : String → Option Opcode
  | "+" => some .ADD
  | "-" => some .SUB
  | "*" => some .MUL
  | "/" => some .DIV
  | "%" => some .MOD
  | "<<" => some .SHL
  | ">>" => some .SHR
  | ">>>" => some .USHR
  | "&" => some .BIT_AND
  | "|" => some .BIT_OR
  | "^" => some .BIT_XOR
  | _ => none

/-- The unary-operator table (compiler.js 235-237). -/
def unaryOpcode : String → Option Opcode
  | "-" => some .NEG
  | "!" => some .NOT
  | "~" => some .BIT_NOT
  | "typeof" => some .TYPEOF
  | _ => none

/-- The pooled value of a literal node (`node.value`); Babel's
`NullLiteral` carries no `value` property, so it pools `undefined`. -/
def literalValue : Node → Option Value
  | .NumericLiteral q => some (.num q)
  | .StringLiteral s => some (.str s)
  | .BooleanLiteral b => some (.bool b)
  | .NullLiteral => some .undef
  | _ => none

/-- Pool the constant for a non-computed member property
(`node.property.name`: `undefined` unless the property is an identifier). -/
def memberPropConst (s : CompState) (property : Node) :
    Except String (Nat × CompState) :=
  match property with
  | .Identifier n => addConst s (.str n)
  | _ => addConst s .undef

mutual

/-- `compileNode` together with the per-kind handlers (compiler.js 39-913).
The leading `Nat` is fuel, a pure termination device: every recursive call
passes one unit less, so any AST compiles unchanged given enough fuel. -/
def compileNode : Nat → Node → CompState → Except String CompState
  | 0, _, _ => .error "MODEL: compiler fuel exhausted"
  | fuel + 1, node, s =>
    match node with
    | .File program => compileNode fuel program s
    | .Program body => compileProgramBody fuel body s
    | .BlockStatement body => do
        let s' ← compileBlockBody fuel body (enterScope s)
        .ok (exitScope s')
    | .ExpressionStatement e => compileNode fuel e s
    | .VariableDeclaration decls => compileDeclarators fuel decls s
    | .FunctionDeclaration funcName params body => do
        let jumpIndex := curAddr s
        let s := addInstr s .JMP (some 0)
        let functionStart := curAddr s
        let funcInfo : FuncObj :=
          { name := some funcName, params := params,
            startAddress := functionStart, closureScope := captureClosure s,
            closureEnv := none, closureId := none }
        let s := params.foldl declareVariable (enterScope s)
        let s ← compileNode fuel body s
        let (ui, s) ← addConst s .undef
        let s := addInstr s .PUSH (some ui)
        let s := addInstr s .RET none
        let s := exitScope s
        let s := patchInstr s jumpIndex (curAddr s)
        let tIdx := s.templates.length
        let s := { s with templates := s.templates ++ [funcInfo] }
        let (fi, s) ← addConst s (.userFn tIdx)
        let s := addInstr s .PUSH (some fi)
        let (ni, s) ← addConst s (.str funcName)
        .ok (addInstr s .DECLARE (some ni))
    | .FunctionExpression idOpt params body => do
        let jumpIndex := curAddr s
        let s := addInstr s .JMP (some 0)
        let functionStart := curAddr s
        let funcInfo : FuncObj :=
          { name := idOpt, params := params,
            startAddress := functionStart, closureScope := captureClosure s,
            closureEnv := none, closureId := none }
        let s := enterScope s
        let s := match idOpt with
          | some n => declareVariable s n
          | none => s
        let s := params.foldl declareVariable s
        let s ← compileNode fuel body s
        let (ui, s) ← addConst s .undef
        let s := addInstr s .PUSH (some ui)
        let s := addInstr s .RET none
        let s := exitScope s
        let s := patchInstr s jumpIndex (curAddr s)
        let tIdx := s.templates.length
        let s := { s with templates := s.templates ++ [funcInfo] }
        let (fi, s) ← addConst s (.userFn tIdx)
        .ok (addInstr s .PUSH (some fi))
    | .ReturnStatement arg => do
        let s ← match arg with
          | some a => compileNode fuel a s
          | none => do
              let (ui, s) ← addConst s .undef
              .ok (addInstr s .PUSH (some ui))
        .ok (addInstr s .RET none)
    | .IfStatement test consequent alternate => do
        let s ← compileNode fuel test s
        let elseJump := curAddr s
        let s := addInstr s .JNF (some 0)
        let s ← compileNode fuel consequent s
        (match alternate with
         | some alt => do
             let endJump := curAddr s
             let s := addInstr s .JMP (some 0)
             let s := patchInstr s elseJump (curAddr s)
             let s ← compileNode fuel alt s
             .ok (patchInstr s endJump (curAddr s))
         | none => .ok (patchInstr s elseJump (curAddr s)))
    | .WhileStatement test body => do
        let loopStart := curAddr s
        let s := pushLoop s
        let s ← compileNode fuel test s
        let exitJump := curAddr s
        let s := addInstr s .JNF (some 0)
        let s := addBreakToLoop s exitJump
        let s ← compileNode fuel body s
        let s := patchAll s (headLoop s).continueTargets (curAddr s)
        let s := addInstr s .JMP (some loopStart)
        let s := patchAll s (headLoop s).breakTargets (curAddr s)
        .ok (popLoop s)
    | .DoWhileStatement body test => do
        let loopStart := curAddr s
        let s := pushLoop s
        let s ← compileNode fuel body s
        let s := patchAll s (headLoop s).continueTargets (curAddr s)
        let s ← compileNode fuel test s
        let s := addInstr s .JIF (some loopStart)
        let s := patchAll s (headLoop s).breakTargets (curAddr s)
        .ok (popLoop s)
    | .ForStatement forInit test update body => do
        let s := enterScope s
        let s := pushLoop s
        let s ← match forInit with
          | some fi =>
              (do
                let s ← compileNode fuel fi s
                match fi with
                | .VariableDeclaration _ => .ok s
                | _ => .ok (addInstr s .POP none))
          | none => .ok s
        let loopStart := curAddr s
        let s ← match test with
          | some t => do
              let s ← compileNode fuel t s
              let exitJump := curAddr s
              let s := addInstr s .JNF (some 0)
              .ok (addBreakToLoop s exitJump)
          | none => .ok s
        let s ← compileNode fuel body s
        let continueTarget := curAddr s
        let s := patchAll s (headLoop s).continueTargets continueTarget
        let s ← match update with
          | some u => do
              let s ← compileNode fuel u s
              .ok (addInstr s .POP none)
          | none => .ok s
        let s := addInstr s .JMP (some loopStart)
        let s := patchAll s (headLoop s).breakTargets (curAddr s)
        .ok (exitScope (popLoop s))
    | .ForInStatement leftIsDecl leftName right body => do
        let s := enterScope s
        let s := pushLoop s
        let s ← compileNode fuel right s
        let (oi, s) ← addConst s (.str "Object")
        let s := addInstr s .LOAD (some oi)
        let (ki, s) ← addConst s (.str "keys")
        let s := addInstr s .PUSH (some ki)
        let s := addInstr s .GET_PROP none
        let (c1, s) ← addConst s (.num 1)
        let s := addInstr s .CALL (some c1)
        let s := declareVariable s "__for_in_index__"
        let (zi, s) ← addConst s (.num 0)
        let s := addInstr s .PUSH (some zi)
        let (idxNi, s) ← addConst s (.str "__for_in_index__")
        let s := addInstr s .DECLARE (some idxNi)
        let s := declareVariable s "__for_in_length__"
        let s := addInstr s .DUP none
        let (lpi, s) ← addConst s (.str "length")
        let s := addInstr s .PUSH (some lpi)
        let s := addInstr s .GET_PROP none
        let (lenNi, s) ← addConst s (.str "__for_in_length__")
        let s := addInstr s .DECLARE (some lenNi)
        let s := declareVariable s "__for_in_keys__"
        let (keysNi, s) ← addConst s (.str "__for_in_keys__")
        let s := addInstr s .DECLARE (some keysNi)
        let loopStart := curAddr s
        let s := addInstr s .LOAD (some idxNi)
        let s := addInstr s .LOAD (some lenNi)
        let s := addInstr s .LT none
        let exitJump := curAddr s
        let s := addInstr s .JNF (some 0)
        let s := addBreakToLoop s exitJump
        let s := addInstr s .LOAD (some keysNi)
        let s := addInstr s .LOAD (some idxNi)
        let s := addInstr s .GET_ELEM none
        let s ←
          if leftIsDecl then do
            let s := declareVariable s leftName
            let (vni, s) ← addConst s (.str leftName)
            .ok (addInstr s .DECLARE (some vni))
          else do
            let (vni, s) ← addConst s (.str leftName)
            .ok (addInstr s .STORE (some vni))
        let s ← compileNode fuel body s
        let continueTarget := curAddr s
        let s := patchAll s (headLoop s).continueTargets continueTarget
        let s := addInstr s .LOAD (some idxNi)
        let (one, s) ← addConst s (.num 1)
        let s := addInstr s .PUSH (some one)
        let s := addInstr s .ADD none
        let s := addInstr s .STORE (some idxNi)
        let s := addInstr s .JMP (some loopStart)
        let s := patchAll s (headLoop s).breakTargets (curAddr s)
        .ok (exitScope (popLoop s))
    | .SwitchStatement disc cases => do
        let s ← compileNode fuel disc s
        let s := pushSwitch s
        let (caseJumps, defaultJump, s) ← compileSwitchTests fuel cases 0 [] none s
        let s := addInstr s .POP none
        let noMatchJump := curAddr s
        let s := addInstr s .JMP (some 0)
        let (caseAddresses, s) ← compileSwitchBodies fuel cases [] s
        let s := caseJumps.foldl
          (fun s p => patchInstr s p.1 (caseAddresses.getD p.2 0)) s
        let s := match defaultJump with
          | some di => patchInstr s noMatchJump (caseAddresses.getD di 0)
          | none => patchInstr s noMatchJump (curAddr s)
        let s := patchAll s (headSwitch s).breakTargets (curAddr s)
        .ok (popSwitch s)
    | .BreakStatement =>
        let jumpIndex := curAddr s
        let s := addInstr s .JMP (some 0)
        if s.switchStack.length > 0 then .ok (addBreakToSwitch s jumpIndex)
        else if s.loopStack.length > 0 then .ok (addBreakToLoop s jumpIndex)
        else .error "break语句必须在循环或switch语句内"
    | .ContinueStatement =>
        let jumpIndex := curAddr s
        let s := addInstr s .JMP (some 0)
        if s.loopStack.length > 0 then .ok (addContinueToLoop s jumpIndex)
        else .error "continue语句必须在循环语句内"
    | .ThrowStatement argument => do
        let s ← compileNode fuel argument s
        .ok (addInstr s .THROW none)
    | .TryStatement block handler finalizer => do
        let s := addInstr s .TRY none
        let s ← compileNode fuel block s
        let s ← match handler with
          | some (.mk param hbody) => do
              let s := addInstr s .CATCH none
              let s ← match param with
                | some pn => do
                    let s := declareVariable s pn
                    let (ni, s) ← addConst s (.str pn)
                    .ok (addInstr s .STORE (some ni))
                | none => .ok s
              compileNode fuel hbody s
          | none => .ok s
        let s ← match finalizer with
          | some f => do
              let s := addInstr s .FINALLY none
              compileNode fuel f s
          | none => .ok s
        .ok (addInstr s .END_TRY none)
    | .DebuggerStatement => do
        let s := addInstr s .NOP none
        let (di, s) ← addConst s (.str "__DEBUGGER__")
        let s := addInstr s .PUSH (some di)
        .ok (addInstr s .POP none)
    | .NumericLiteral q => do
        let (i, s) ← addConst s (.num q)
        .ok (addInstr s .PUSH (some i))
    | .StringLiteral v => do
        let (i, s) ← addConst s (.str v)
        .ok (addInstr s .PUSH (some i))
    | .BooleanLiteral b => do
        let (i, s) ← addConst s (.bool b)
        .ok (addInstr s .PUSH (some i))
    | .NullLiteral => do
        let (i, s) ← addConst s .undef
        .ok (addInstr s .PUSH (some i))
    | .RegExpLiteral pat flags => do
        let (i, s) ← addConst s (.regexp pat flags)
        .ok (addInstr s .PUSH (some i))
    | .TemplateLiteral quasis exprs =>
        if exprs.isEmpty then do
          let (i, s) ← addConst s (.str (quasis.headD ""))
          .ok (addInstr s .PUSH (some i))
        else compileTemplate fuel quasis exprs true s
    | .Identifier name => do
        let (ni, s) ← addConst s (.str name)
        .ok (addInstr s .LOAD (some ni))
    | .ThisExpression => do
        let (ti, s) ← addConst s (.str "this")
        .ok (addInstr s .LOAD (some ti))
    | .BinaryExpression op left right => do
        let s ← compileNode fuel left s
        let s ← compileNode fuel right s
        (match binaryOpcode op with
         | some o => .ok (addInstr s o none)
         | none => .error ("未支持的二元运算符: " ++ op))
    | .LogicalExpression op left right => do
        let s ← compileNode fuel left s
        if op = "&&" then do
          let s := addInstr s .DUP none
          let skipJump := curAddr s
          let s := addInstr s .JNF (some 0)
          let s := addInstr s .POP none
          let s ← compileNode fuel right s
          .ok (patchInstr s skipJump (curAddr s))
        else if op = "||" then do
          let s := addInstr s .DUP none
          let skipJump := curAddr s
          let s := addInstr s .JIF (some 0)
          let s := addInstr s .POP none
          let s ← compileNode fuel right s
          .ok (patchInstr s skipJump (curAddr s))
        else .error ("未支持的逻辑运算符: " ++ op)
    | .UnaryExpression op argument => do
        let s ← compileNode fuel argument s
        (match unaryOpcode op with
         | some o => .ok (addInstr s o none)
         | none =>
             if op = "void" then do
               let s := addInstr s .POP none
               let (ui, s) ← addConst s .undef
               .ok (addInstr s .PUSH (some ui))
             else if op = "delete" then do
               let s := addInstr s .POP none
               let (ti, s) ← addConst s (.bool true)
               .ok (addInstr s .PUSH (some ti))
             else .error ("未支持的一元运算符: " ++ op))
    | .UpdateExpression op preForm argument =>
        (match argument with
         | .Identifier varName => do
             let (ni, s) ← addConst s (.str varName)
             if preForm then do
               let s := addInstr s .LOAD (some ni)
               let (oi, s) ← addConst s (.num 1)
               let s := addInstr s .PUSH (some oi)
               let s := addInstr s (if op = "++" then .ADD else .SUB) none
               let s := addInstr s .DUP none
               .ok (addInstr s .STORE (some ni))
             else do
               let s := addInstr s .LOAD (some ni)
               let s := addInstr s .DUP none
               let (oi, s) ← addConst s (.num 1)
               let s := addInstr s .PUSH (some oi)
               let s := addInstr s (if op = "++" then .ADD else .SUB) none
               .ok (addInstr s .STORE (some ni))
         | .MemberExpression mobj mprop mcomp =>
             if preForm then do
               let s ← compileNode fuel (.MemberExpression mobj mprop mcomp) s
               let (oi, s) ← addConst s (.num 1)
               let s := addInstr s .PUSH (some oi)
               let s := addInstr s (if op = "++" then .ADD else .SUB) none
               let s := addInstr s .DUP none
               let s ← compileNode fuel mobj s
               let s ←
                 if mcomp then do
                   let s ← compileNode fuel mprop s
                   .ok (addInstr s .SET_PROP none)
                 else do
                   let (pidx, s) ← memberPropConst s mprop
                   let s := addInstr s .PUSH (some pidx)
                   .ok (addInstr s .SET_PROP none)
               .ok (addInstr s .POP none)
             else do
               let s ← compileNode fuel (.MemberExpression mobj mprop mcomp) s
               let s := addInstr s .DUP none
               let (oi, s) ← addConst s (.num 1)
               let s := addInstr s .PUSH (some oi)
               let s := addInstr s (if op = "++" then .ADD else .SUB) none
               let s ← compileNode fuel mobj s
               let s ←
                 if mcomp then do
                   let s ← compileNode fuel mprop s
                   .ok (addInstr s .SET_PROP none)
                 else do
                   let (pidx, s) ← memberPropConst s mprop
                   let s := addInstr s .PUSH (some pidx)
                   .ok (addInstr s .SET_PROP none)
               .ok (addInstr s .POP none)
         | other => .error ("不支持的自增/自减目标类型: " ++ nodeKindName other))
    | .AssignmentExpression op left right =>
        if op ≠ "=" then
          let binaryOp := op.dropRight 1
          match left with
          | .Identifier varName => do
              let s ← compileNode fuel (.Identifier varName) s
              let s ← compileNode fuel right s
              (match compoundOpcode binaryOp with
               | some o => do
                   let s := addInstr s o none
                   let (ni, s) ← addConst s (.str varName)
                   let s := addInstr s .DUP none
                   .ok (addInstr s .STORE (some ni))
               | none => .error ("未支持的复合赋值运算符: " ++ op))
          | .MemberExpression mobj mprop mcomp => do
              let s ← compileNode fuel (.MemberExpression mobj mprop mcomp) s
              let s ← compileNode fuel right s
              (match compoundOpcode binaryOp with
               | some o => do
                   let s := addInstr s o none
                   let s ← compileNode fuel mobj s
                   if mcomp then do
                     let s ← compileNode fuel mprop s
                     .ok (addInstr s .SET_PROP none)
                   else do
                     let (pidx, s) ← memberPropConst s mprop
                     let s := addInstr s .PUSH (some pidx)
                     .ok (addInstr s .SET_PROP none)
               | none => .error ("未支持的复合赋值运算符: " ++ op))
          | other => .error ("不支持的赋值目标类型: " ++ nodeKindName other)
        else do
          let s ← compileNode fuel right s
          (match left with
           | .Identifier varName => do
               let (ni, s) ← addConst s (.str varName)
               let s := addInstr s .DUP none
               .ok (addInstr s .STORE (some ni))
           | .MemberExpression mobj mprop mcomp => do
               let s ← compileNode fuel mobj s
               if mcomp then do
                 let s ← compileNode fuel mprop s
                 .ok (addInstr s .SET_PROP none)
               else do
                 let (pidx, s) ← memberPropConst s mprop
                 let s := addInstr s .PUSH (some pidx)
                 .ok (addInstr s .SET_PROP none)
           | other => .error ("不支持的赋值目标类型: " ++ nodeKindName other))
    | .ConditionalExpression test consequent alternate => do
        let s ← compileNode fuel test s
        let falseJump := curAddr s
        let s := addInstr s .JNF (some 0)
        let s ← compileNode fuel consequent s
        let endJump := curAddr s
        let s := addInstr s .JMP (some 0)
        let s := patchInstr s falseJump (curAddr s)
        let s ← compileNode fuel alternate s
        .ok (patchInstr s endJump (curAddr s))
    | .SequenceExpression exprs => compileSequence fuel exprs s
    | .CallExpression callee args => do
        let s ← compileEach fuel args.reverse s
        (match callee with
         | .MemberExpression object property computed => do
             let s ← compileNode fuel object s
             let s := addInstr s .DUP none
             let s ←
               if computed then compileNode fuel property s
               else do
                 let (pidx, s) ← memberPropConst s property
                 .ok (addInstr s .PUSH (some pidx))
             let s := addInstr s .GET_PROP none
             let (ci, s) ← addConst s (.num args.length)
             .ok (addInstr s .CALL_METHOD (some ci))
         | _ => do
             let s ← compileNode fuel callee s
             let (ci, s) ← addConst s (.num args.length)
             .ok (addInstr s .CALL (some ci)))
    | .NewExpression callee args => do
        let s ← compileEach fuel args.reverse s
        let s ← compileNode fuel callee s
        let (ci, s) ← addConst s (.num args.length)
        .ok (addInstr s .NEW (some ci))
    | .MemberExpression object property computed => do
        let s ← compileNode fuel object s
        let s ←
          if computed then compileNode fuel property s
          else do
            let (pidx, s) ← memberPropConst s property
            .ok (addInstr s .PUSH (some pidx))
        .ok (addInstr s .GET_PROP none)
    | .ArrayExpression elements => do
        let s ← compileArrayElems fuel elements s
        let (li, s) ← addConst s (.num elements.length)
        let s := addInstr s .PUSH (some li)
        .ok (addInstr s .NEW_ARR none)
    | .ObjectExpression properties => do
        let s ← compileObjProps fuel properties s
        let (ci, s) ← addConst s (.num properties.length)
        let s := addInstr s .PUSH (some ci)
        .ok (addInstr s .NEW_OBJ none)

/-- Sequential compilation of a node list (argument lists are passed
pre-reversed; switch-case consequents are compiled plainly). -/
def compileEach : Nat → List Node → CompState → Except String CompState
  | 0, _, _ => .error "MODEL: compiler fuel exhausted"
  | _, [], s => .ok s
  | fuel + 1, n :: rest, s => do
      let s ← compileNode fuel n s
      compileEach fuel rest s

/-- `compileProgram` (compiler.js 94-102): a `POP` after every
expression-statement except the last statement. -/
def compileProgramBody : Nat → List Node → CompState → Except String CompState
  | 0, _, _ => .error "MODEL: compiler fuel exhausted"
  | _, [], s => .ok s
  | fuel + 1, [stmt], s => compileNode fuel stmt s
  | fuel + 1, stmt :: rest, s => do
      let s ← compileNode fuel stmt s
      let s := match stmt with
        | .ExpressionStatement _ => addInstr s .POP none
        | _ => s
      compileProgramBody fuel rest s

/-- `compileBlockStatement`'s body loop (compiler.js 110-129): both source
branches append a `POP` after an expression statement, so every
expression-statement in a block is popped. -/
def compileBlockBody : Nat → List Node → CompState → Except String CompState
  | 0, _, _ => .error "MODEL: compiler fuel exhausted"
  | _, [], s => .ok s
  | fuel + 1, stmt :: rest, s => do
      let s ← compileNode fuel stmt s
      let s := match stmt with
        | .ExpressionStatement _ => addInstr s .POP none
        | _ => s
      compileBlockBody fuel rest s

/-- `compileVariableDeclaration` (compiler.js 516-531). -/
def compileDeclarators :
    Nat → List VarDeclarator → CompState → Except String CompState
  | 0, _, _ => .error "MODEL: compiler fuel exhausted"
  | _, [], s => .ok s
  | fuel + 1, .mk name initE :: rest, s => do
      let s := declareVariable s name
      let s ← match initE with
        | some e => compileNode fuel e s
        | none => do
            let (ui, s) ← addConst s .undef
            .ok (addInstr s .PUSH (some ui))
      let (ni, s) ← addConst s (.str name)
      let s := addInstr s .DECLARE (some ni)
      compileDeclarators fuel rest s

/-- `compileTemplateLiteral`'s interpolation loop (compiler.js 153-177):
concatenate cooked chunks and `String(expr)` calls with `ADD`s; an entirely
empty template pushes `""`. -/
def compileTemplate :
    Nat → List String → List Node → Bool → CompState → Except String CompState
  | 0, _, _, _, _ => .error "MODEL: compiler fuel exhausted"
  | _, [], _, isFirst, s =>
      if isFirst then do
        let (i, s) ← addConst s (.str "")
        .ok (addInstr s .PUSH (some i))
      else .ok s
  | fuel + 1, q :: qrest, exprs, isFirst, s => do
      let (s, isFirst) ←
        if q ≠ "" then do
          let (i, s) ← addConst s (.str q)
          let s := addInstr s .PUSH (some i)
          let s := if isFirst then s else addInstr s .ADD none
          .ok (s, false)
        else .ok (s, isFirst)
      (match exprs with
       | e :: erest => do
           let s ← compileNode fuel e s
           let (si, s) ← addConst s (.str "String")
           let s := addInstr s .LOAD (some si)
           let (ci, s) ← addConst s (.num 1)
           let s := addInstr s .CALL (some ci)
           let s := if isFirst then s else addInstr s .ADD none
           compileTemplate fuel qrest erest false s
       | [] => compileTemplate fuel qrest [] isFirst s)

/-- `compileSequenceExpression` (compiler.js 429-436): `POP` between
expressions, keeping the last. -/
def compileSequence : Nat → List Node → CompState → Except String CompState
  | 0, _, _ => .error "MODEL: compiler fuel exhausted"
  | _, [], s => .ok s
  | fuel + 1, [e], s => compileNode fuel e s
  | fuel + 1, e :: rest, s => do
      let s ← compileNode fuel e s
      compileSequence fuel rest (addInstr s .POP none)

/-- `compileArrayExpression`'s element loop (compiler.js 484-491): a hole
pushes `undefined`. -/
def compileArrayElems :
    Nat → List (Option Node) → CompState → Except String CompState
  | 0, _, _ => .error "MODEL: compiler fuel exhausted"
  | _, [], s => .ok s
  | fuel + 1, el :: rest, s => do
      let s ← match el with
        | some e => compileNode fuel e s
        | none => do
            let (ui, s) ← addConst s .undef
            .ok (addInstr s .PUSH (some ui))
      compileArrayElems fuel rest s

/-- `compileObjectExpression`'s property loop (compiler.js 499-508). -/
def compileObjProps :
    Nat → List ObjProp → CompState → Except String CompState
  | 0, _, _ => .error "MODEL: compiler fuel exhausted"
  | _, [], s => .ok s
  | fuel + 1, .mk key computed value :: rest, s => do
      let s ← compileNode fuel value s
      let s ← match key, computed with
        | .Identifier n, false => do
            let (ki, s) ← addConst s (.str n)
            .ok (addInstr s .PUSH (some ki))
        | _, _ => compileNode fuel key s
      compileObjProps fuel rest s

/-- First pass of `compileSwitchStatement` (compiler.js 803-817): per
tested case emit `DUP; <test>; EQ; JIF 0` and record the jump; the last
`default` case wins. -/
def compileSwitchTests :
    Nat → List SwitchCase → Nat → List (Nat × Nat) → Option Nat → CompState →
    Except String (List (Nat × Nat) × Option Nat × CompState)
  | 0, _, _, _, _, _ => .error "MODEL: compiler fuel exhausted"
  | _, [], _, jumps, dj, s => .ok (jumps, dj, s)
  | fuel + 1, .mk testOpt _ :: rest, i, jumps, dj, s =>
      match testOpt with
      | some t => do
          let s := addInstr s .DUP none
          let s ← compileNode fuel t s
          let s := addInstr s .EQ none
          let jumpIndex := curAddr s
          let s := addInstr s .JIF (some 0)
          compileSwitchTests fuel rest (i + 1) (jumps ++ [(jumpIndex, i)]) dj s
      | none => compileSwitchTests fuel rest (i + 1) jumps (some i) s

/-- Second pass of `compileSwitchStatement` (compiler.js 824-830): record
each case's address and compile its consequent statements. -/
def compileSwitchBodies :
    Nat → List SwitchCase → List Nat → CompState →
    Except String (List Nat × CompState)
  | 0, _, _, _ => .error "MODEL: compiler fuel exhausted"
  | _, [], addrs, s => .ok (addrs, s)
  | fuel + 1, .mk _ consequent :: rest, addrs, s => do
      let a := curAddr s
      let s ← compileEach fuel consequent s
      compileSwitchBodies fuel rest (addrs ++ [a]) s

end

/-- `Compiler.compile` (compiler.js 21-37): fresh state, compile the AST,
then a trailing `HALT`. -/
def compile (fuel : Nat) (ast : Node) : Except String CompState := do
  let s0 : CompState :=
    { instructions := [], pool := ConstantPool.empty, templates := [],
      scopes := [[]], loopStack := [], switchStack := [] }
  let s ← compileNode fuel ast s0
  .ok (addInstr s .HALT none)

/-- Package a compiler state as the produced `ByteCode`. -/
def CompState.toByteCode (s : CompState) : ByteCode :=
  { instructions := s.instructions, constantPool := s.pool }

/-!
## Definitions supporting the claim statements
-/

/-- One iteration of the dispatch loop as a relation (fetch, count, budget
check, execute, advance — exactly `stepExec`). -/
def StepRel (bc : ByteCode) (s s' : VMState) : Prop :=
  ∃ r h, stepExec bc s = .ok (s', r, h)

/-- Zero or more dispatch-loop iterations. -/
def Steps (bc : ByteCode) : VMState → VMState → Prop :=
  Relation.ReflTransGen (StepRel bc)

/-- The heap-growth invariant used by the closure-isolation claim: the
function heap only grows, the closure-id counter never decreases, and an
existing function record keeps its identity (its `closureId` is never
rewritten; only its `closureEnv` may be updated in place). -/
def HeapExtends (s s' : VMState) : Prop :=
  s.funcHeap.length ≤ s'.funcHeap.length ∧
  s.closureIdCounter ≤ s'.closureIdCounter ∧
  ∀ (a : Nat) (o : FuncObj), s.funcHeap[a]? = some o →
    ∃ o' : FuncObj, s'.funcHeap[a]? = some o' ∧ o'.closureId = o.closureId

/-- The shallow-copy relation `deepCopyValue` realises for a captured
value: primitives and function references are returned unchanged; an array
or plain object is replaced by a reference to a freshly allocated cell
holding the same (shallow) contents; spreading a host object or RegExp
yields a fresh plain object. -/
def CapturedShallow (s s' : VMState) (orig copied : Value) : Prop :=
  match orig with
  | .arr a => ∃ b, copied = .arr b ∧ s.arrHeap.length ≤ b ∧
      s'.arrHeap.getD b [] = s.arrHeap.getD a []
  | .obj o => ∃ b, copied = .obj b ∧ s.objHeap.length ≤ b ∧
      s'.objHeap.getD b [] = s.objHeap.getD o []
  | .hostObj _ => ∃ b, copied = .obj b ∧ s.objHeap.length ≤ b
  | .regexp _ _ => ∃ b, copied = .obj b ∧ s.objHeap.length ≤ b
  | v => copied = v

/-- The claim-C5 exclusion condition, spelled out in the amended claim's
own words (the source's `captureSkip`). -/
def AmendedSkip (s : VMState) (params : List String) (x : String)
    (v : Value) : Prop :=
  x = "this" ∨ x = "arguments" ∨ x ∈ params ∨ x ∈ builtinNames ∨
    (∃ id, mapGet s.globals x = some (.hostFn id)) ∨ (∃ fa, v = .userFn fa)

/-- Primitive values in the sense of claim C7 (number, string, bool, null,
undefined; `nan`/`inf` are numbers). -/
def isPrimitiveConst : Value → Bool
  | .undef => true
  | .null => true
  | .bool _ => true
  | .num _ => true
  | .nan => true
  | .inf _ => true
  | .str _ => true
  | _ => false

/-- No `BREAK`/`CONTINUE` opcode occurs in an instruction list. -/
def noBCL (l : List Instr) : Prop :=
  ∀ i ∈ l, i.opcode ≠ .BREAK ∧ i.opcode ≠ .CONTINUE

/-- No `BREAK`/`CONTINUE` opcode occurs in the compiler state's output. -/
def noBC (s : CompState) : Prop := noBCL s.instructions

/-- `while (true) {}` as an AST. -/
def whileTrueAst : Node :=
  .Program [.WhileStatement (.BooleanLiteral true) (.BlockStatement [])]

/-- The bytecode the compiler produces for `while (true) {}`. -/
def loopBC : ByteCode :=
  { instructions := [⟨.PUSH, some 0⟩, ⟨.JNF, some 3⟩, ⟨.JMP, some 0⟩,
                     ⟨.HALT, none⟩],
    constantPool := { constants := [.bool true], indices := [(.bool true, 0)] } }

/-- Bytecode for `var x = v;` (hand-assembled, mirroring the compiler's
output shape for a declaration). -/
def declBC (x : String) (v : Value) : ByteCode :=
  { instructions := [⟨.PUSH, some 0⟩, ⟨.DECLARE, some 1⟩, ⟨.HALT, none⟩],
    constantPool := { constants := [v, .str x], indices := [] } }

/-- Bytecode for the top-level expression `x` (a bare `LOAD`). -/
def loadBC (x : String) : ByteCode :=
  { instructions := [⟨.LOAD, some 0⟩, ⟨.HALT, none⟩],
    constantPool := { constants := [.str x], indices := [] } }

/-- Bytecode `[PUSH 5, POP]` — the pc runs off the end with an empty
operand stack and a popped value in `result`. -/
def bcPushPop : ByteCode :=
  { instructions := [⟨.PUSH, some 0⟩, ⟨.POP, none⟩],
    constantPool := { constants := [.num 5], indices := [(.num 5, 0)] } }

/-- Bytecode `[PUSH 5, POP, HALT]` — stops at `HALT` with an empty stack. -/
def bcPushPopHalt : ByteCode :=
  { instructions := [⟨.PUSH, some 0⟩, ⟨.POP, none⟩, ⟨.HALT, none⟩],
    constantPool := { constants := [.num 5], indices := [(.num 5, 0)] } }

/-- Bytecode `[PUSH 5, HALT]` — stops at `HALT` with `5` on the stack. -/
def bcPushHalt : ByteCode :=
  { instructions := [⟨.PUSH, some 0⟩, ⟨.HALT, none⟩],
    constantPool := { constants := [.num 5], indices := [(.num 5, 0)] } }

/-- The inner-function template of the closure-isolation witness
(`function(){ c++; return c; }` compiled at some entry pc). -/
def innerTemplate : FuncObj :=
  { name := none, params := [], startAddress := 5, closureScope := [],
    closureEnv := none, closureId := none }

/-- A returning frame of the witness outer function `mk`, whose local `c`
holds `q`. -/
def mkFrame (q : ℚ) : CallFrame :=
  { returnAddress := 7, locals := [("c", .num q)], isConstructorCall := false,
    newInstance := .null, currentFunction := some 0 }

/-- The witness start state: two pending invocations of the outer function,
each about to return the inner function template. -/
def s0Witness : VMState :=
  { freshVM with
     stack := [.userFn 0, .userFn 0]
     callStack := [mkFrame 10, mkFrame 100]
     funcHeap := [innerTemplate] }

/-- A capture-on-return counterexample frame: a local named like the
builtin `parseInt` but holding a number. -/
def builtinNameFrame : CallFrame :=
  { returnAddress := 0, locals := [("parseInt", .num 5)],
    isConstructorCall := false, newInstance := .null, currentFunction := none }

/-- A capture-on-return counterexample frame: a local holding a host
function under a name that is neither a builtin nor globally bound. -/
def hostFnFrame : CallFrame :=
  { returnAddress := 0, locals := [("myCb", .hostFn 7)],
    isConstructorCall := false, newInstance := .null, currentFunction := none }

/-- The final VM state of running `[PUSH 5, HALT]` on a fresh VM (used to
instantiate the claim-C6 theorem at a concrete input). -/
def c6wFin : VMState :=
  match vmExecuteRun freshVM bcPushHalt [] true with
  | .ok p => p.1
  | .error _ => freshVM

/-- The VM state after `run`-ning `var x = v;` on a fresh `JSVMP` instance:
the builtins plus the global `this` object plus the new binding, with the
pc and instruction counter left at the end of the three-instruction
program. -/
def c9Fin (x : String) (v : Value) : VMState :=
  ⟨[], [], mapSet (mapSet builtinsList "this" (.obj 0)) x v,
   [], [], [[]], 3, 3, 200000, 0⟩

/-- The capture fold body of `createIndependentClosureEnvironment`, named
for reasoning (definitionally equal to the lambda in the source
embedding). -/
def captureStep (s : VMState) (params : List String)
    (acc : List (String × Value) × List (List Value) ×
      List (List (String × Value)))
    (p : String × Value) :
    List (String × Value) × List (List Value) ×
      List (List (String × Value)) :=
  if captureSkip s params p.1 p.2 then acc
  else
    let (cv, ah', oh') := deepCopyValue p.2 acc.2.1 acc.2.2
    (mapSet acc.1 p.1 cv, ah', oh')

/-- The state after the first `RET` of the closure-isolation witness. -/
def c1Mid : VMState :=
  match executeRet s0Witness with
  | .ok p => p.1
  | .error _ => s0Witness

/-- The state after the second `RET` of the closure-isolation witness. -/
def c1Fin : VMState :=
  match executeRet c1Mid with
  | .ok p => p.1
  | .error _ => c1Mid

/-- The compiler state produced for `while (true) \x7b\x7d` (used to
instantiate the claim-C8 theorem at a concrete program). -/
def c8St : CompState :=
  match compile 20 whileTrueAst with
  | .ok s => s
  | .error _ => ⟨[], ConstantPool.empty, [], [[]], [], []⟩

/-!
## Map lemmas
-/

/-- Setting then reading the same key. -/
theorem mapGet_mapSet_self (m : List (String × Value)) (k : String) (v : Value) :
    mapGet (mapSet m k v) k = some v := by
  induction m with
  | nil => simp [mapSet, mapGet]
  | cons p t ih =>
      obtain ⟨k', v'⟩ := p
      by_cases h : k' = k <;> simp [mapSet, mapGet, h, ih]

/-- Setting one key leaves other keys unchanged. -/
theorem mapGet_mapSet_ne (m : List (String × Value)) (k k' : String) (v : Value)
    (h : k' ≠ k) : mapGet (mapSet m k v) k' = mapGet m k' := by
  induction m with
  | nil => simp [mapSet, mapGet, Ne.symm h]
  | cons p t ih =>
      obtain ⟨k0, v0⟩ := p
      by_cases h0 : k0 = k
      · subst h0
        simp [mapSet, mapGet, Ne.symm h]
      · by_cases h1 : k0 = k' <;> simp [mapSet, mapGet, h0, h1, ih, h]

/-- Bind reduction on an `Except` success (used throughout to unfold the
handlers' do-notation). -/
@[simp] theorem exceptBind_ok {α β : Type} (a : α) (f : α → Except String β) :
    (Except.ok a >>= f : Except String β) = f a := rfl

/-- Bind reduction on an `Except` failure. -/
@[simp] theorem exceptBind_error {α β : Type} (e : String)
    (f : α → Except String β) :
    ((Except.error e : Except String α) >>= f) = .error e := rfl

/-!
## Claim C2 — DIV with a zero divisor
-/

/-- The amended C2: executing `DIV` when the popped divisor is the number
value `0` raises the runtime error `除零错误` — execution fails instead of
pushing ±∞/NaN and continuing (vm.js 607-609 throws before dividing). -/
theorem c2_div_zero_throws (s : VMState) (rest : List Value)
    (h : s.stack = .num 0 :: rest) : executeDiv s = .error "除零错误" := by
  cases rest with
  | nil => simp [executeDiv, popRaw, h]
  | cons a t => simp [executeDiv, popRaw, h]

/-- C2 counterexample: with operands `1 / 0` the claim predicts a pushed
`Infinity` and continued execution, but `executeDiv` throws. -/
theorem c2_div_zero_counterexample :
    executeDiv { freshVM with stack := [.num 0, .num 1] } = .error "除零错误" := rfl

/-- Witness: the amended theorem applied at a concrete state. -/
theorem c2_div_zero_witness :
    ({ freshVM with stack := [.num 0, .num 2] } : VMState).stack
        = .num 0 :: [.num 2] ∧
    executeDiv { freshVM with stack := [.num 0, .num 2] } = .error "除零错误" :=
  ⟨rfl, c2_div_zero_throws { freshVM with stack := [.num 0, .num 2] } [.num 2] rfl⟩

/-!
## Claim C7 — constant-pool round trip and deduplication
-/

/-- Lookup in an extended dedup index. -/
theorem poolIndexGet_append_self (l : List (Value × Nat)) (k : Value) (i : Nat)
    (h : poolIndexGet l k = none) : poolIndexGet (l ++ [(k, i)]) k = some i := by
  induction l with
  | nil => simp [poolIndexGet]
  | cons p t ih =>
      obtain ⟨k0, i0⟩ := p
      by_cases h0 : k0 = k
      · simp [poolIndexGet, h0] at h
      · simp [poolIndexGet, h0] at h ⊢
        exact ih h

/-- C7 counterexample: `null` is typeof `object`, so the pool keys it by
`JSON.stringify(null)`, the *string* `"null"`.  Adding `null` and then the
string `"null"` collides: the second add returns the first value's index
and the round trip returns `null`, not `"null"`. -/
theorem c7_pool_counterexample :
    (do
      let r1 ← ConstantPool.empty.add .null
      let r2 ← r1.2.add (.str "null")
      let v ← r2.2.get r2.1
      (.ok (r1.1, r2.1, v) : Except String (Nat × Nat × Value)))
      = .ok (0, 0, .null) ∧ Value.null ≠ .str "null" :=
  ⟨rfl, by decide⟩

/-- The amended C7: the primitive round trip `get (add v) = v` holds
whenever the pool's dedup index does not already map `v`'s key to a
different value (in particular on a fresh pool); adding an equal
non-function value twice returns the same index; user-function records
always receive a fresh index, so two successive function adds differ. -/
theorem poolAdd_of_key (p : ConstantPool) (v k : Value)
    (hfn : isFunctionObjectV v = false) (hkey : poolKeyOf v = .ok k) :
    p.add v =
      (match poolIndexGet p.indices k with
       | some i => .ok (i, p)
       | none => .ok (p.constants.length,
           { constants := p.constants ++ [v],
             indices := p.indices ++ [(k, p.constants.length)] })) := by
  cases v <;> simp [isFunctionObjectV] at hfn <;>
    (simp only [ConstantPool.add, poolKeyOf] at hkey ⊢) <;>
    (try cases hkey) <;>
    (cases hidx : poolIndexGet p.indices _ <;> simp [hidx])

/-- The amended C7: the primitive round trip `get (add v) = v` holds
whenever the pool's dedup index does not already map `v`'s key to a
different value (in particular on a fresh pool); adding an equal
non-function value twice returns the same index; user-function records
always receive a fresh index, so two successive function adds differ. -/
theorem c7_pool_amended :
    (∀ (p : ConstantPool) (v k : Value), isPrimitiveConst v = true →
      poolKeyOf v = .ok k →
      (∀ i, poolIndexGet p.indices k = some i → p.constants[i]? = some v) →
      ∃ i p', p.add v = .ok (i, p') ∧ p'.get i = .ok v) ∧
    (∀ (p : ConstantPool) (v : Value) (i : Nat) (p' : ConstantPool),
      isFunctionObjectV v = false → p.add v = .ok (i, p') →
      p'.add v = .ok (i, p')) ∧
    (∀ (p : ConstantPool) (a : Nat),
      p.add (.userFn a) =
        .ok (p.constants.length, { p with constants := p.constants ++ [.userFn a] })) ∧
    (∀ (p : ConstantPool) (a b i j : Nat) (p' p'' : ConstantPool),
      p.add (.userFn a) = .ok (i, p') → p'.add (.userFn b) = .ok (j, p'') →
      i ≠ j) := by
  refine ⟨?_, ?_, ?_, ?_⟩
  · intro p v k hprim hkey hcons
    have hfn : isFunctionObjectV v = false := by
      cases v <;> simp [isPrimitiveConst] at hprim <;> rfl
    rw [poolAdd_of_key p v k hfn hkey]
    cases hidx : poolIndexGet p.indices k with
    | some i =>
        refine ⟨i, p, rfl, ?_⟩
        have hc := hcons i hidx
        have hlt : i < p.constants.length := by
          by_contra hge
          rw [List.getElem?_eq_none (by omega)] at hc
          cases hc
        simp [ConstantPool.get, Nat.not_le.mpr hlt, List.getD_eq_getElem?_getD, hc]
    | none =>
        refine ⟨p.constants.length, _, rfl, ?_⟩
        simp [ConstantPool.get, List.getD_eq_getElem?_getD,
          List.getElem?_concat_length]
  · intro p v i p' hfn hadd
    have hkey : ∃ k, poolKeyOf v = .ok k := by
      cases v <;> simp [isFunctionObjectV] at hfn <;>
        first
          | exact ⟨_, rfl⟩
          | (simp only [ConstantPool.add, poolKeyOf, Except.bind] at hadd;
             cases hadd)
    obtain ⟨k, hk⟩ := hkey
    rw [poolAdd_of_key p v k hfn hk] at hadd
    rw [poolAdd_of_key p' v k hfn hk]
    cases hidx : poolIndexGet p.indices k with
    | some i0 =>
        rw [hidx] at hadd
        cases hadd
        simp [hidx]
    | none =>
        rw [hidx] at hadd
        cases hadd
        simp [poolIndexGet_append_self _ _ _ hidx]
  · intro p a
    rfl
  · intro p a b i j p' p'' h1 h2
    simp only [ConstantPool.add] at h1 h2
    cases h1
    cases h2
    simp

/-- Witness: the round trip and dedup at concrete inputs on the empty
pool. -/
theorem c7_pool_witness :
    isPrimitiveConst (.num 5) = true ∧ poolKeyOf (.num 5) = .ok (.num 5) ∧
    (∀ i, poolIndexGet ConstantPool.empty.indices (.num 5) = some i →
      ConstantPool.empty.constants[i]? = some (.num 5)) ∧
    (∃ i p', ConstantPool.empty.add (.num 5) = .ok (i, p') ∧
      p'.get i = .ok (.num 5)) := by
  refine ⟨rfl, rfl, ?_, ?_⟩
  · intro i h
    simp [ConstantPool.empty, poolIndexGet] at h
  · exact c7_pool_amended.1 ConstantPool.empty (.num 5) (.num 5) rfl rfl
      (by intro i h; simp [ConstantPool.empty, poolIndexGet] at h)

/-!
## Claim C10 — loose equality is compiled away; EQ/NE are strict
-/

/-- Strict equality is false across distinct value tags. -/
theorem jsStrictEq_false_of_tag_ne (a b : Value) (h : valueTag a ≠ valueTag b) :
    jsStrictEq a b = false := by
  cases a <;> cases b <;> first
    | rfl
    | exact absurd rfl h

/-- C10: the compiler lowers `==` and `===` to the single `EQ` opcode and
`!=`/`!==` to `NE` (compiler.js 197), and `executeEq`/`executeNe` compare
with strict identity, so operands of different tags are never equal in the
executed program (`1 == "1"` is false). -/
theorem c10_strict_equality :
    binaryOpcode "==" = some .EQ ∧ binaryOpcode "===" = some .EQ ∧
    binaryOpcode "!=" = some .NE ∧ binaryOpcode "!==" = some .NE ∧
    (∀ (s : VMState) (a b : Value) (rest : List Value),
      s.stack = b :: a :: rest → valueTag a ≠ valueTag b →
      executeEq s = .ok ({ s with stack := .bool false :: rest }, .bool false)) ∧
    (∀ (s : VMState) (a b : Value) (rest : List Value),
      s.stack = b :: a :: rest → valueTag a ≠ valueTag b →
      executeNe s = .ok ({ s with stack := .bool true :: rest }, .bool true)) := by
  refine ⟨rfl, rfl, rfl, rfl, ?_, ?_⟩
  · intro s a b rest hst htag
    simp [executeEq, execBin, popRaw, hst, jsStrictEq_false_of_tag_ne a b htag]
  · intro s a b rest hst htag
    simp [executeNe, execBin, popRaw, hst, jsStrictEq_false_of_tag_ne a b htag]

/-- Witness: `1 == "1"` evaluates to false through `EQ`. -/
theorem c10_witness :
    ({ freshVM with stack := [.str "1", .num 1] } : VMState).stack
        = .str "1" :: .num 1 :: [] ∧
    valueTag (.num 1) ≠ valueTag (.str "1") ∧
    executeEq { freshVM with stack := [.str "1", .num 1] } =
      .ok ({ freshVM with stack := [.bool false] }, .bool false) :=
  ⟨rfl, by decide,
   c10_strict_equality.2.2.2.2.1 { freshVM with stack := [.str "1", .num 1] }
     (.num 1) (.str "1") [] rfl (by decide)⟩

/-!
## Claim C6 — the result of `execute`
-/

/-- C6 counterexample: running `[PUSH 5, POP]` ends with an empty operand
stack, yet `execute` returns the popped `5` (the last handler's return
value, vm.js 420), not undefined. -/
theorem c6_result_counterexample :
    (vmExecuteRun freshVM bcPushPop [] true).map (fun p => (p.1.stack, p.2))
      = .ok ([], .num 5) ∧ Value.num 5 ≠ .undef :=
  ⟨rfl, by decide⟩

/-- When the loop result's final stack is non-empty, `vmFinish` returns
its top. -/
theorem vmFinish_stack_top (res : Except String (VMState × Value))
    (fin : VMState) (ans top : Value) (rest : List Value)
    (h : vmFinish res = .ok (fin, ans)) (hs : fin.stack = top :: rest) :
    ans = top := by
  rcases res with e | ⟨fin', r⟩
  · cases h
  · simp only [vmFinish] at h
    rcases hstack' : fin'.stack with _ | ⟨t, ts⟩ <;> rw [hstack'] at h <;> cases h
    · rw [hstack'] at hs
      cases hs
    · rw [hstack'] at hs
      cases hs
      rfl

/-- The amended C6: the value returned by `execute` is the top of the
operand stack whenever the stack is non-empty; when the stack is empty the
returned value is the internal `result` of the last executed instruction —
undefined when execution stopped at `HALT`, but possibly another value
(e.g. the popped value after a trailing `POP`) when the pc runs off the
end. -/
theorem c6_result_amended :
    (∀ (s0 : VMState) (bc : ByteCode) (ctx : List (String × Value)) (rg : Bool)
        (fin : VMState) (ans top : Value) (rest : List Value),
      vmExecuteRun s0 bc ctx rg = .ok (fin, ans) → fin.stack = top :: rest →
      ans = top) ∧
    (vmExecuteRun freshVM bcPushPopHalt [] true).map (fun p => (p.1.stack, p.2))
      = .ok ([], .undef) ∧
    (vmExecuteRun freshVM bcPushPop [] true).map (fun p => (p.1.stack, p.2))
      = .ok ([], .num 5) := by
  refine ⟨?_, rfl, rfl⟩
  intro s0 bc ctx rg fin ans top rest h hstack
  unfold vmExecuteRun at h
  exact vmFinish_stack_top _ fin ans top rest h hstack

/-- Witness: the non-empty-stack part applied to `[PUSH 5, HALT]`. -/
theorem c6_result_witness :
    vmExecuteRun freshVM bcPushHalt [] true = .ok (c6wFin, .num 5) ∧
    c6wFin.stack = .num 5 :: [] ∧ (Value.num 5 : Value) = .num 5 :=
  ⟨rfl, rfl,
   c6_result_amended.1 freshVM bcPushHalt [] true c6wFin (.num 5) (.num 5) []
     rfl rfl⟩

/-!
## Claim C4 — LOAD resolution order
-/

/-- `frameLocalsLookup` returns the innermost frame's binding: if frame `i`
binds the name and every frame closer to the top does not, the walk returns
frame `i`'s value. -/
theorem frameLocalsLookup_first (frames : List CallFrame) (name : String) :
    ∀ (i : Nat) (f : CallFrame) (v : Value),
      frames[i]? = some f → mapGet f.locals name = some v →
      (∀ (j : Nat) (g : CallFrame), j < i → frames[j]? = some g →
        mapGet g.locals name = none) →
      frameLocalsLookup frames name = some v := by
  induction frames with
  | nil => intro i f v h; simp at h
  | cons f0 t ih =>
      intro i f v hf hv hmiss
      cases i with
      | zero =>
          simp at hf
          cases hf
          simp [frameLocalsLookup, hv]
      | succ i' =>
          have h0 : mapGet f0.locals name = none :=
            hmiss 0 f0 (Nat.succ_pos _) (by simp)
          simp only [frameLocalsLookup, h0]
          exact ih i' f v (by simpa using hf) hv
            (fun j g hj hg => hmiss (j + 1) g (by omega) (by simpa using hg))

/-- C4: `executeLoad` resolves a name by (1) the current frame's
`currentFunction` closure environment, (2) the call frames' locals from the
innermost frame outward, (3) the globals map, (4) the global `this` object
(via the `in` check of `thisPropLookup`, whose `.ok none` answer means the
name is neither an own property nor an inherited `Object.prototype`
member), and a full miss raises `未定义的变量: <name>`.  The final conjunct
ties the resolution to the full `LOAD` instruction, which pushes the
resolved value. -/
theorem c4_load_resolution :
    (∀ (s : VMState) (name : String) (v : Value),
      closureEnvLookup s name = some v → executeLoadName s name = .ok v) ∧
    (∀ (s : VMState) (name : String) (i : Nat) (f : CallFrame) (v : Value),
      closureEnvLookup s name = none →
      s.callStack[i]? = some f → mapGet f.locals name = some v →
      (∀ (j : Nat) (g : CallFrame), j < i → s.callStack[j]? = some g →
        mapGet g.locals name = none) →
      executeLoadName s name = .ok v) ∧
    (∀ (s : VMState) (name : String) (v : Value),
      closureEnvLookup s name = none →
      frameLocalsLookup s.callStack name = none →
      mapGet s.globals name = some v → executeLoadName s name = .ok v) ∧
    (∀ (s : VMState) (name : String) (v : Value),
      closureEnvLookup s name = none →
      frameLocalsLookup s.callStack name = none →
      mapGet s.globals name = none → thisPropLookup s name = .ok (some v) →
      executeLoadName s name = .ok v) ∧
    (∀ (s : VMState) (name : String),
      closureEnvLookup s name = none →
      frameLocalsLookup s.callStack name = none →
      mapGet s.globals name = none → thisPropLookup s name = .ok none →
      executeLoadName s name = .error ("未定义的变量: " ++ name)) ∧
    (∀ (bc : ByteCode) (k : Nat) (s : VMState) (name : String) (v : Value),
      bc.constantPool.get k = .ok (.str name) →
      executeLoadName s name = .ok v →
      executeLoad bc (some k) s = .ok (push s v, v)) := by
  refine ⟨?_, ?_, ?_, ?_, ?_, ?_⟩
  · intro s name v h
    simp [executeLoadName, h]
  · intro s name i f v hclo hf hv hmiss
    simp [executeLoadName, hclo,
      frameLocalsLookup_first s.callStack name i f v hf hv hmiss]
  · intro s name v hclo hfr hg
    simp [executeLoadName, hclo, hfr, hg]
  · intro s name v hclo hfr hg ht
    simp [executeLoadName, hclo, hfr, hg, ht]
  · intro s name hclo hfr hg ht
    simp [executeLoadName, hclo, hfr, hg, ht]
  · intro bc k s name v hk hres
    simp [executeLoad, constName, reqOperand, hk, hres]

/-- Witness: a full miss on the fresh VM names the variable. -/
theorem c4_load_witness :
    closureEnvLookup freshVM "zz" = none ∧
    frameLocalsLookup freshVM.callStack "zz" = none ∧
    mapGet freshVM.globals "zz" = none ∧
    thisPropLookup freshVM "zz" = .ok none ∧
    executeLoadName freshVM "zz" = .error ("未定义的变量: " ++ "zz") :=
  ⟨rfl, rfl, rfl, rfl,
   c4_load_resolution.2.2.2.2.1 freshVM "zz" rfl rfl rfl rfl⟩

/-!
## Claim C9 — persistence of globals across runs
-/

/-- One unfolding of the dispatch loop. -/
theorem runLoop_succ (bc : ByteCode) (fuel : Nat) (s : VMState) (r : Value) :
    runLoop bc (fuel + 1) s r =
      if s.pc < (bc.instructions.length : Int) then
        match stepExec bc s with
        | .error e => .error e
        | .ok (s', r', halted) =>
            if halted then .ok (s', r') else runLoop bc fuel s' r'
      else .ok (s, r) := rfl

/-- The fields `execute` re-initialises regardless of `resetGlobals`
(vm.js 330-336). -/
theorem vmInitState_fixed (s0 : VMState) (c : List (String × Value))
    (r : Bool) :
    (vmInitState s0 c r).pc = 0 ∧ (vmInitState s0 c r).stack = [] ∧
    (vmInitState s0 c r).callStack = [] ∧
    (vmInitState s0 c r).instructionCount = 0 ∧
    (vmInitState s0 c r).maxInstructions = 200000 := by
  cases r <;> simp [vmInitState]

/-- `run`-ning the declaration `var x = v;` on a fresh instance succeeds
(for a non-`null`, non-`UserFunction` initial value) and leaves the
binding in the instance's globals. -/
theorem jsvmpRun_declBC (x : String) (v : Value)
    (hv1 : v ≠ .null) (hv2 : ∀ fa : Nat, v ≠ .userFn fa) :
    jsvmpRun JSVMP.fresh (declBC x v) [] =
      .ok (.undef, ⟨c9Fin x v, true⟩) := by
  cases v
  case null => exact absurd rfl hv1
  case userFn fa => exact absurd rfl (hv2 fa)
  all_goals rfl

/-- Running the bare `LOAD x` program from a dispatch entry whose globals
bind `x`: the value is pushed and execution halts. -/
theorem runLoop_loadBC_found (x : String) (v : Value) (s : VMState)
    (fuel : Nat) (hpc : s.pc = 0) (hstack : s.stack = [])
    (hcs : s.callStack = []) (hcount : s.instructionCount = 0)
    (hmax : s.maxInstructions = 200000)
    (hg : mapGet s.globals x = some v) :
    runLoop (loadBC x) (fuel + 2) s .undef =
      .ok (⟨[v], [], s.globals, s.funcHeap, s.arrHeap, s.objHeap,
            2, 2, 200000, s.closureIdCounter⟩, .undef) := by
  have h2 : fuel + 2 = fuel + 1 + 1 := rfl
  rw [h2]
  simp [runLoop_succ, stepExec, executeInstruction, executeLoad,
    executeLoadName, closureEnvLookup, frameLocalsLookup, constName,
    reqOperand, ConstantPool.get, loadBC, push,
    hpc, hstack, hcs, hcount, hmax, hg]

/-- `thisPropLookup` depends only on the globals map and the object
heap. -/
theorem thisPropLookup_congr (s t : VMState) (name : String)
    (hgl : t.globals = s.globals) (hoh : t.objHeap = s.objHeap) :
    thisPropLookup t name = thisPropLookup s name := by
  simp [thisPropLookup, hgl, hoh]

/-- Running the bare `LOAD x` program from a dispatch entry whose globals
miss `x` (and whose global `this` object does not supply it) raises the
undefined-variable error naming `x`. -/
theorem runLoop_loadBC_err (x : String) (s : VMState) (fuel : Nat)
    (hpc : s.pc = 0) (hcs : s.callStack = [])
    (hcount : s.instructionCount = 0) (hmax : s.maxInstructions = 200000)
    (hg : mapGet s.globals x = none)
    (hthis : ∀ t : VMState, t.globals = s.globals → t.objHeap = s.objHeap →
      thisPropLookup t x = .ok none) :
    runLoop (loadBC x) (fuel + 2) s .undef =
      .error ("未定义的变量: " ++ x) := by
  have h2 : fuel + 2 = fuel + 1 + 1 := rfl
  rw [h2]
  simp [runLoop_succ, stepExec, executeInstruction, executeLoad,
    executeLoadName, closureEnvLookup, frameLocalsLookup, constName,
    reqOperand, ConstantPool.get, loadBC,
    hpc, hcs, hcount, hmax, hg, hthis]

/-- `execute` on the bare `LOAD x` program errors whenever the globals the
run starts from miss `x` and the global `this` object does not supply
it. -/
theorem vmExecuteRun_loadBC_err (s0 : VMState) (rg : Bool) (x : String)
    (hg : mapGet (vmInitState s0 [] rg).globals x = none)
    (hthis : thisPropLookup (vmInitState s0 [] rg) x = .ok none) :
    vmExecuteRun s0 (loadBC x) [] rg = .error ("未定义的变量: " ++ x) := by
  obtain ⟨hpc, hstack, hcs, hcount, hmax⟩ := vmInitState_fixed s0 [] rg
  have hthis' : ∀ t : VMState, t.globals = (vmInitState s0 [] rg).globals →
      t.objHeap = (vmInitState s0 [] rg).objHeap →
      thisPropLookup t x = .ok none :=
    fun t hgl hoh =>
      (thisPropLookup_congr (vmInitState s0 [] rg) t x hgl hoh).trans hthis
  have hrun := runLoop_loadBC_err x (vmInitState s0 [] rg) 199999
      hpc hcs hcount hmax hg hthis'
  have hfold : (199999 + 2 : Nat) = (vmInitState s0 [] rg).maxInstructions + 1 := by
    rw [hmax]
  rw [hfold] at hrun
  simp only [vmExecuteRun]
  rw [hrun]
  rfl

/-- `run` on an already-initialised instance keeps the instance globals
(`resetGlobals` is false), so a bound global resolves. -/
theorem jsvmpRun_loadBC_found (vm0 : VMState) (x : String) (v : Value)
    (hg : mapGet vm0.globals x = some v) :
    (jsvmpRun ⟨vm0, true⟩ (loadBC x) []).map (fun q => q.1) = .ok v := by
  have hg' : mapGet (vmInitState vm0 [] false).globals x = some v := hg
  have hrun := runLoop_loadBC_found x v (vmInitState vm0 [] false) 199999
      rfl rfl rfl rfl rfl hg'
  have hfold : (199999 + 2 : Nat) =
      (vmInitState vm0 [] false).maxInstructions + 1 := rfl
  rw [hfold] at hrun
  simp only [jsvmpRun, vmExecuteRun, Bool.not_true]
  rw [hrun]
  rfl

/-- C9 counterexample: `JSVMP.execute` always calls the VM with
`resetGlobals = true` (part_003 54-56 forwards to `vm.execute(bytecode,
context)`, whose third parameter defaults to `true`), so a global declared
by a previous `run` is *not* visible to a subsequent `execute` on the same
instance — the read raises the undefined-variable error instead. -/
theorem c9_globals_counterexample :
    (jsvmpRun JSVMP.fresh (declBC "x" (.num 5)) [] >>=
        fun p => jsvmpExecute p.2 (loadBC "x") [])
      = .error ("未定义的变量: " ++ "x") := rfl

/-- The amended C9: (1) a global declared by one `run` is visible to the
next `run` on the same instance (the first run flips `initialized`, so the
second run keeps the globals); (2) after `reset()` the instance is a fresh
VM, so reading a previously declared non-builtin global raises
`未定义的变量: <x>` — unless the name is an `Object.prototype` member such
as `toString`, which the global-`this` `in` fallback still resolves to the
inherited host member, hence the `globalThisProtoNames` exclusion; (3)
`execute` rebuilds the globals on every call, so the same read fails
through `execute` even *without* a reset, under the same exclusion. -/
theorem c9_globals_amended :
    (∀ (x : String) (v : Value), v ≠ .null → (∀ fa : Nat, v ≠ .userFn fa) →
      ((jsvmpRun JSVMP.fresh (declBC x v) [] >>=
          fun p => jsvmpRun p.2 (loadBC x) []).map (fun q => q.1))
        = .ok v) ∧
    (∀ (x : String) (v : Value), v ≠ .null → (∀ fa : Nat, v ≠ .userFn fa) →
      mapGet builtinsList x = none → x ≠ "this" →
      globalThisProtoNames.contains x = false →
      (jsvmpRun JSVMP.fresh (declBC x v) [] >>=
          fun p => jsvmpRun (jsvmpReset p.2) (loadBC x) [])
        = .error ("未定义的变量: " ++ x)) ∧
    (∀ (x : String) (v : Value), v ≠ .null → (∀ fa : Nat, v ≠ .userFn fa) →
      mapGet builtinsList x = none → x ≠ "this" →
      globalThisProtoNames.contains x = false →
      (jsvmpRun JSVMP.fresh (declBC x v) [] >>=
          fun p => jsvmpExecute p.2 (loadBC x) [])
        = .error ("未定义的变量: " ++ x)) := by
  refine ⟨?_, ?_, ?_⟩
  · intro x v hv1 hv2
    rw [jsvmpRun_declBC x v hv1 hv2, exceptBind_ok]
    exact jsvmpRun_loadBC_found (c9Fin x v) x v (mapGet_mapSet_self _ x v)
  · intro x v hv1 hv2 hb hx hproto
    rw [jsvmpRun_declBC x v hv1 hv2, exceptBind_ok]
    have hg : mapGet (vmInitState freshVM [] true).globals x = none := by
      show mapGet (mapSet builtinsList "this" (.obj 0)) x = none
      rw [mapGet_mapSet_ne builtinsList "this" x (.obj 0) hx]
      exact hb
    have hthis : thisPropLookup (vmInitState freshVM [] true) x = .ok none := by
      show thisPropLookup
        ⟨[], [], mapSet builtinsList "this" (.obj 0), [], [], [[]],
         0, 0, 200000, 0⟩ x = .ok none
      have hproto2 : x ∉ globalThisProtoNames := by simpa using hproto
      simp [thisPropLookup, mapGet_mapSet_self, jsTruthy, jsTypeofStr, mapGet,
        hproto2]
    have herr := vmExecuteRun_loadBC_err freshVM true x hg hthis
    simp only [jsvmpRun, jsvmpReset, Bool.not_false]
    rw [herr]
  · intro x v hv1 hv2 hb hx hproto
    rw [jsvmpRun_declBC x v hv1 hv2, exceptBind_ok]
    have hg : mapGet (vmInitState (c9Fin x v) [] true).globals x = none := by
      show mapGet (mapSet builtinsList "this" (.obj 1)) x = none
      rw [mapGet_mapSet_ne builtinsList "this" x (.obj 1) hx]
      exact hb
    have hthis : thisPropLookup (vmInitState (c9Fin x v) [] true) x
        = .ok none := by
      show thisPropLookup
        ⟨[], [], mapSet builtinsList "this" (.obj 1), [], [], [[], []],
         0, 0, 200000, 0⟩ x = .ok none
      have hproto2 : x ∉ globalThisProtoNames := by simpa using hproto
      simp [thisPropLookup, mapGet_mapSet_self, jsTruthy, jsTypeofStr, mapGet,
        hproto2]
    have herr := vmExecuteRun_loadBC_err (c9Fin x v) true x hg hthis
    simp only [jsvmpExecute]
    rw [herr]

/-!
## Claim C3 — the instruction budget
-/

/-- One full `while (true) {}` cycle (`PUSH true`, `JNF`, `JMP 0`): three
instructions, the pc returns to 0, the stack is left empty, and only the
instruction counter moves — provided the budget is not yet hit. -/
theorem loopBC_cycle (fuel : Nat) (s : VMState) (r : Value)
    (hpc : s.pc = 0) (hstack : s.stack = [])
    (hlt : s.instructionCount + 3 ≤ s.maxInstructions) :
    runLoop loopBC (fuel + 3) s r =
      runLoop loopBC fuel
        ⟨[], s.callStack, s.globals, s.funcHeap, s.arrHeap, s.objHeap,
         0, s.instructionCount + 3, s.maxInstructions, s.closureIdCounter⟩
        .undef := by
  have h1 : ¬ (s.instructionCount + 1 > s.maxInstructions) := by omega
  have h2 : ¬ (s.instructionCount + 1 + 1 > s.maxInstructions) := by omega
  have h2b : ¬ (s.instructionCount + 2 > s.maxInstructions) := by omega
  have h3 : ¬ (s.instructionCount + 1 + 1 + 1 > s.maxInstructions) := by omega
  have h3b : ¬ (s.instructionCount + 3 > s.maxInstructions) := by omega
  rw [show fuel + 3 = fuel + 1 + 1 + 1 from rfl]
  simp [runLoop_succ, stepExec, executeInstruction, executePush, executeJnf,
    executeJmp, ConstantPool.get, reqOperand, loopBC, push, popRaw, jsTruthy,
    hpc, hstack, h1, h2, h2b, h3, h3b]

/-- When the counter is two short of the budget at a cycle entry, the
watchdog fires on the cycle's third instruction. -/
theorem loopBC_err3 (fuel : Nat) (s : VMState) (r : Value)
    (hpc : s.pc = 0) (hstack : s.stack = [])
    (hc : s.instructionCount + 2 = s.maxInstructions) :
    runLoop loopBC (fuel + 3) s r = .error (budgetMsg s.maxInstructions) := by
  have h1 : ¬ (s.instructionCount + 1 > s.maxInstructions) := by omega
  have h2 : ¬ (s.instructionCount + 1 + 1 > s.maxInstructions) := by omega
  have h2b : ¬ (s.instructionCount + 2 > s.maxInstructions) := by omega
  have h3 : s.instructionCount + 1 + 1 + 1 > s.maxInstructions := by omega
  have h3b : s.instructionCount + 3 > s.maxInstructions := by omega
  rw [show fuel + 3 = fuel + 1 + 1 + 1 from rfl]
  simp [runLoop_succ, stepExec, executeInstruction, executePush, executeJnf,
    ConstantPool.get, reqOperand, loopBC, push, popRaw, jsTruthy,
    hpc, hstack, h1, h2, h2b, h3, h3b]

/-- Running `while (true) {}` from a cycle entry with `3n + 2` budget
units left always ends in the watchdog error (the loop itself never
exits). -/
theorem runLoop_loopBC_budget :
    ∀ (n fuel : Nat) (s : VMState) (r : Value),
      s.pc = 0 → s.stack = [] →
      s.instructionCount + 3 * n + 2 = s.maxInstructions →
      runLoop loopBC (3 * n + (fuel + 3)) s r
        = .error (budgetMsg s.maxInstructions) := by
  intro n
  induction n with
  | zero =>
      intro fuel s r hpc hstack hc
      rw [show 3 * 0 + (fuel + 3) = fuel + 3 from by omega]
      exact loopBC_err3 fuel s r hpc hstack (by omega)
  | succ n ih =>
      intro fuel s r hpc hstack hc
      have hstep := loopBC_cycle (3 * n + (fuel + 3)) s r hpc hstack (by omega)
      rw [show 3 * (n + 1) + (fuel + 3) = 3 * n + (fuel + 3) + 3 from by omega,
        hstep]
      exact ih fuel _ .undef rfl rfl (show s.instructionCount + 3 + 3 * n + 2
        = s.maxInstructions from by omega)

/-- C3 is a code bug: `setMaxInstructions` is dead.  `execute`
unconditionally resets `maxInstructions` to `200000` at entry (vm.js 335),
so (1) the compiler maps `while (true) {}` to `loopBC`; (2) `execute` after
`setMaxInstructions n` behaves identically to `execute` without it, for
every `n`, every bytecode and every start state; and (3) executing the
infinite loop after `setMaxInstructions 1000` still raises the budget
error naming `200000` — not after 1000 instructions as the spec says. -/
theorem c3_budget_bug :
    ((compile 20 whileTrueAst).map CompState.toByteCode) = .ok loopBC ∧
    (∀ (s0 : VMState) (n : Nat) (bc : ByteCode)
        (ctx : List (String × Value)) (rg : Bool),
      vmExecuteRun (vmSetMaxInstructions s0 n) bc ctx rg
        = vmExecuteRun s0 bc ctx rg) ∧
    vmExecute (vmSetMaxInstructions freshVM 1000) loopBC [] true
      = .error (budgetMsg 200000) := by
  refine ⟨rfl, fun s0 n bc ctx rg => rfl, ?_⟩
  have hrun := runLoop_loopBC_budget 66666 0 (vmInitState freshVM [] true)
    .undef rfl rfl rfl
  rw [show (3 * 66666 + (0 + 3) : Nat)
    = (vmInitState freshVM [] true).maxInstructions + 1 from rfl] at hrun
  have hset : vmExecuteRun (vmSetMaxInstructions freshVM 1000) loopBC [] true
      = vmExecuteRun freshVM loopBC [] true := rfl
  simp only [vmExecute]
  rw [hset]
  simp only [vmExecuteRun]
  rw [hrun]
  rfl

/-!
## Claim C5 — capture-on-return
-/

/-- `createIndependentClosureEnvironment`, re-expressed through the named
fold body (definitional). -/
theorem createIndependent_eq (s : VMState) (t : FuncObj) (frame : CallFrame) :
    createIndependentClosureEnvironment s t frame =
      (let folded := frame.locals.foldl (captureStep s t.params)
        ([], s.arrHeap, s.objHeap)
       ({ t with
           closureEnv := some folded.1
           closureId := some (s.closureIdCounter + 1) },
        { s with
           closureIdCounter := s.closureIdCounter + 1
           arrHeap := folded.2.1
           objHeap := folded.2.2 })) := rfl

/-- A key outside the association list resolves to nothing. -/
theorem mapGet_eq_none_of_not_mem (l : List (String × Value)) (x : String)
    (h : x ∉ l.map Prod.fst) : mapGet l x = none := by
  induction l with
  | nil => rfl
  | cons p t ih =>
      simp only [List.map_cons, List.mem_cons, not_or] at h
      have h1 : ¬ p.1 = x := fun hh => h.1 hh.symm
      simp [mapGet, h1, ih h.2]

/-- The source skip condition as a proposition: skip `this`, `arguments`,
the returned function's parameters, any *name* that is a builtin or
globally bound to a host function, and any *value* that is a user-function
record. -/
theorem captureSkip_iff (s : VMState) (params : List String) (x : String)
    (v : Value) :
    captureSkip s params x v = true ↔ AmendedSkip s params x v := by
  unfold captureSkip AmendedSkip isBuiltinOrGlobalFunction isFunctionObjectV
  constructor
  · intro h
    simp only [Bool.or_eq_true, beq_iff_eq] at h
    rcases h with ((((h | h) | h) | (h | h)) | h)
    · exact Or.inl h
    · exact Or.inr (Or.inl h)
    · exact Or.inr (Or.inr (Or.inl (by simpa using h)))
    · exact Or.inr (Or.inr (Or.inr (Or.inl (by simpa using h))))
    · rcases hg : mapGet s.globals x with _ | w
      · rw [hg] at h; simp at h
      · rw [hg] at h
        revert h
        cases w <;> intro h
        case hostFn id =>
          exact Or.inr (Or.inr (Or.inr (Or.inr (Or.inl ⟨id, rfl⟩))))
        all_goals simp at h
    · revert h
      cases v <;> intro h
      case userFn fa =>
        exact Or.inr (Or.inr (Or.inr (Or.inr (Or.inr ⟨fa, rfl⟩))))
      all_goals simp at h
  · intro h
    simp only [Bool.or_eq_true, beq_iff_eq]
    rcases h with h | h | h | h | ⟨id, hg⟩ | ⟨fa, hv⟩
    · exact Or.inl (Or.inl (Or.inl (Or.inl h)))
    · exact Or.inl (Or.inl (Or.inl (Or.inr h)))
    · exact Or.inl (Or.inl (Or.inr (by simpa using h)))
    · exact Or.inl (Or.inr (Or.inl (by simpa using h)))
    · exact Or.inl (Or.inr (Or.inr (by rw [hg])))
    · subst hv
      exact Or.inr rfl

/-- `deepCopyValue` only ever appends to the array heap. -/
theorem deepCopy_ah_ext (v : Value) (ah : List (List Value))
    (oh : List (List (String × Value))) :
    ∃ e, (deepCopyValue v ah oh).2.1 = ah ++ e := by
  cases v
  case arr a => exact ⟨[ah.getD a []], rfl⟩
  all_goals exact ⟨[], by simp [deepCopyValue]⟩

/-- `deepCopyValue` only ever appends to the object heap. -/
theorem deepCopy_oh_ext (v : Value) (ah : List (List Value))
    (oh : List (List (String × Value))) :
    ∃ e, (deepCopyValue v ah oh).2.2 = oh ++ e := by
  cases v
  case obj o => exact ⟨[oh.getD o []], rfl⟩
  case hostObj hid => exact ⟨[[]], rfl⟩
  case regexp p f => exact ⟨[[]], rfl⟩
  all_goals exact ⟨[], by simp [deepCopyValue]⟩

/-- The capture fold, characterised: heaps only grow, skipped or unbound
names fall through to the accumulator, and each captured binding maps to
the shallow copy of its value. -/
theorem captureFold_spec (s : VMState) (params : List String) :
    ∀ (l : List (String × Value)) (env : List (String × Value))
      (ah : List (List Value)) (oh : List (List (String × Value)))
      (eah : List (List Value)) (eoh : List (List (String × Value))),
      ah = s.arrHeap ++ eah → oh = s.objHeap ++ eoh →
      (l.map Prod.fst).Nodup →
      (∀ p ∈ l, (∀ a, p.2 = Value.arr a → a < s.arrHeap.length) ∧
                (∀ o, p.2 = Value.obj o → o < s.objHeap.length)) →
      (∃ e, (l.foldl (captureStep s params) (env, ah, oh)).2.1 = ah ++ e) ∧
      (∃ e, (l.foldl (captureStep s params) (env, ah, oh)).2.2 = oh ++ e) ∧
      (∀ x, mapGet l x = none →
        mapGet (l.foldl (captureStep s params) (env, ah, oh)).1 x
          = mapGet env x) ∧
      (∀ x v, mapGet l x = some v → captureSkip s params x v = true →
        mapGet (l.foldl (captureStep s params) (env, ah, oh)).1 x
          = mapGet env x) ∧
      (∀ x v, mapGet l x = some v → captureSkip s params x v = false →
        ∃ cv, mapGet (l.foldl (captureStep s params) (env, ah, oh)).1 x
            = some cv ∧
          ∀ s' : VMState,
            s'.arrHeap = (l.foldl (captureStep s params) (env, ah, oh)).2.1 →
            s'.objHeap = (l.foldl (captureStep s params) (env, ah, oh)).2.2 →
            CapturedShallow s s' v cv) := by
  intro l
  induction l with
  | nil =>
      intro env ah oh eah eoh hah hoh hnd hwf
      refine ⟨⟨[], by simp⟩, ⟨[], by simp⟩, fun x _ => rfl, ?_, ?_⟩
      · intro x v hx _
        simp [mapGet] at hx
      · intro x v hx _
        simp [mapGet] at hx
  | cons p t ih =>
      obtain ⟨px, pv⟩ := p
      intro env ah oh eah eoh hah hoh hnd hwf
      simp only [List.map_cons, List.nodup_cons] at hnd
      obtain ⟨hpx, hndt⟩ := hnd
      have hwf_p := hwf (px, pv) (by simp)
      have hwf_t : ∀ q ∈ t, (∀ a, q.2 = Value.arr a → a < s.arrHeap.length) ∧
          (∀ o, q.2 = Value.obj o → o < s.objHeap.length) :=
        fun q hq => hwf q (by simp [hq])
      simp only [List.foldl_cons]
      by_cases hskip : captureSkip s params px pv = true
      · have hstep : captureStep s params (env, ah, oh) (px, pv)
            = (env, ah, oh) := by
          simp [captureStep, hskip]
        rw [hstep]
        obtain ⟨he1, he2, hn, hs, hc⟩ := ih env ah oh eah eoh hah hoh hndt hwf_t
        refine ⟨he1, he2, ?_, ?_, ?_⟩
        · intro x hx
          rcases eq_or_ne px x with h | h
          · subst h; simp [mapGet] at hx
          · exact hn x (by simpa [mapGet, h] using hx)
        · intro x v hx hsk
          rcases eq_or_ne px x with h | h
          · subst h
            exact hn px (mapGet_eq_none_of_not_mem t px hpx)
          · exact hs x v (by simpa [mapGet, h] using hx) hsk
        · intro x v hx hsk
          rcases eq_or_ne px x with h | h
          · subst h
            have hv : pv = v := by simpa [mapGet] using hx
            rw [← hv, hskip] at hsk
            cases hsk
          · exact hc x v (by simpa [mapGet, h] using hx) hsk
      · rw [Bool.not_eq_true] at hskip
        rcases hdc : deepCopyValue pv ah oh with ⟨cv, ah1, oh1⟩
        have hstep : captureStep s params (env, ah, oh) (px, pv)
            = (mapSet env px cv, ah1, oh1) := by
          simp [captureStep, hskip, hdc]
        rw [hstep]
        obtain ⟨e1, he1⟩ := deepCopy_ah_ext pv ah oh
        obtain ⟨e2, he2⟩ := deepCopy_oh_ext pv ah oh
        have hA : (deepCopyValue pv ah oh).2.1 = ah1 := by rw [hdc]
        have hO : (deepCopyValue pv ah oh).2.2 = oh1 := by rw [hdc]
        rw [hA] at he1
        rw [hO] at he2
        obtain ⟨hf1, hf2, hn, hs, hc⟩ := ih (mapSet env px cv) ah1 oh1
          (eah ++ e1) (eoh ++ e2)
          (by rw [he1, hah, List.append_assoc])
          (by rw [he2, hoh, List.append_assoc])
          hndt hwf_t
        obtain ⟨f1, hf1⟩ := hf1
        obtain ⟨f2, hf2⟩ := hf2
        refine ⟨⟨e1 ++ f1, by rw [hf1, he1, List.append_assoc]⟩,
                ⟨e2 ++ f2, by rw [hf2, he2, List.append_assoc]⟩, ?_, ?_, ?_⟩
        · intro x hx
          rcases eq_or_ne px x with h | h
          · subst h; simp [mapGet] at hx
          · rw [hn x (by simpa [mapGet, h] using hx)]
            exact mapGet_mapSet_ne env px x cv (Ne.symm h)
        · intro x v hx hsk
          rcases eq_or_ne px x with h | h
          · subst h
            have hv : pv = v := by simpa [mapGet] using hx
            rw [← hv, hskip] at hsk
            cases hsk
          · rw [hs x v (by simpa [mapGet, h] using hx) hsk]
            exact mapGet_mapSet_ne env px x cv (Ne.symm h)
        · intro x v hx hsk
          rcases eq_or_ne px x with h | h
          · subst h
            have hv : pv = v := by simpa [mapGet] using hx
            subst hv
            have hres : mapGet (t.foldl (captureStep s params)
                (mapSet env px cv, ah1, oh1)).1 px
                = mapGet (mapSet env px cv) px :=
              hn px (mapGet_eq_none_of_not_mem t px hpx)
            rw [mapGet_mapSet_self env px cv] at hres
            refine ⟨cv, hres, ?_⟩
            intro s' hsa hso
            cases pv with
            | arr a =>
                simp only [deepCopyValue, Prod.mk.injEq] at hdc
                obtain ⟨h1, h2, h3⟩ := hdc
                refine ⟨ah.length, h1.symm, ?_, ?_⟩
                · rw [hah]; simp
                · have hfin : s'.arrHeap
                      = ah ++ ([ah.getD a []] ++ f1) := by
                    rw [hsa, hf1, ← h2, List.append_assoc]
                  rw [hfin, List.getD_append_right ah ([ah.getD a []] ++ f1)
                    [] ah.length (le_refl _)]
                  simp
                  rw [hah, List.getElem?_append_left (hwf_p.1 a rfl)]
            | obj o =>
                simp only [deepCopyValue, Prod.mk.injEq] at hdc
                obtain ⟨h1, h2, h3⟩ := hdc
                refine ⟨oh.length, h1.symm, ?_, ?_⟩
                · rw [hoh]; simp
                · have hfin : s'.objHeap
                      = oh ++ ([oh.getD o []] ++ f2) := by
                    rw [hso, hf2, ← h3, List.append_assoc]
                  rw [hfin, List.getD_append_right oh ([oh.getD o []] ++ f2)
                    [] oh.length (le_refl _)]
                  simp
                  rw [hoh, List.getElem?_append_left (hwf_p.2 o rfl)]
            | hostObj hid =>
                simp only [deepCopyValue, Prod.mk.injEq] at hdc
                obtain ⟨h1, h2, h3⟩ := hdc
                exact ⟨oh.length, h1.symm, by rw [hoh]; simp⟩
            | regexp rs rf =>
                simp only [deepCopyValue, Prod.mk.injEq] at hdc
                obtain ⟨h1, h2, h3⟩ := hdc
                exact ⟨oh.length, h1.symm, by rw [hoh]; simp⟩
            | undef =>
                simp only [deepCopyValue, Prod.mk.injEq] at hdc
                exact hdc.1.symm
            | null =>
                simp only [deepCopyValue, Prod.mk.injEq] at hdc
                exact hdc.1.symm
            | bool b =>
                simp only [deepCopyValue, Prod.mk.injEq] at hdc
                exact hdc.1.symm
            | num q =>
                simp only [deepCopyValue, Prod.mk.injEq] at hdc
                exact hdc.1.symm
            | nan =>
                simp only [deepCopyValue, Prod.mk.injEq] at hdc
                exact hdc.1.symm
            | inf b =>
                simp only [deepCopyValue, Prod.mk.injEq] at hdc
                exact hdc.1.symm
            | str st =>
                simp only [deepCopyValue, Prod.mk.injEq] at hdc
                exact hdc.1.symm
            | userFn fa =>
                simp only [deepCopyValue, Prod.mk.injEq] at hdc
                exact hdc.1.symm
            | hostFn hf =>
                simp only [deepCopyValue, Prod.mk.injEq] at hdc
                exact hdc.1.symm
          · exact hc x v (by simpa [mapGet, h] using hx) hsk

/-- C5 counterexample: the skip test is name-based
(`isBuiltinOrGlobalFunction(name)`) — a local named like the builtin
`parseInt` is skipped even though it holds the number `5` (the claim says
only function-valued bindings are excluded), while a local holding a
*host function* under a non-builtin name (`myCb`) is captured by reference
(the claim says host-function values are excluded). -/
theorem c5_capture_counterexample :
    (createIndependentClosureEnvironment freshVM innerTemplate
        builtinNameFrame).1.closureEnv = some [] ∧
    (createIndependentClosureEnvironment freshVM innerTemplate
        hostFnFrame).1.closureEnv = some [("myCb", .hostFn 7)] := ⟨rfl, rfl⟩

/-- The amended C5: a `RET` whose returned value is a `UserFunction`
allocates a fresh record (copying name/params/startAddress) with a fresh
`closure_id` (the incremented counter) and a brand-new closure map built
from the returning frame's locals; a binding is captured iff it is not
skipped, where the skip set is: `this`, `arguments`, the returned
function's parameters, names that are builtins or globally bound to host
functions, and user-function *values*; captured arrays/objects are
shallow-cloned into fresh cells, primitives copied by value, and functions
kept by reference. -/
theorem c5_capture_amended :
    (∀ (s : VMState) (fa : Nat) (st1 : List Value) (frame : CallFrame)
        (rest : List CallFrame) (tmpl : FuncObj),
      s.stack = .userFn fa :: st1 → s.callStack = frame :: rest →
      s.funcHeap[fa]? = some tmpl →
      executeRet s =
        (let s1 : VMState := { s with
           stack := st1
           callStack := rest
           pc := frame.returnAddress }
         let fs := createIndependentClosureEnvironment s1
           ⟨tmpl.name, tmpl.params, tmpl.startAddress, tmpl.closureScope,
            none, none⟩ frame
         .ok ({ fs.2 with
                 funcHeap := fs.2.funcHeap ++ [fs.1]
                 stack := .userFn fs.2.funcHeap.length :: fs.2.stack },
              .userFn fs.2.funcHeap.length))) ∧
    (∀ (s : VMState) (t : FuncObj) (frame : CallFrame),
      (frame.locals.map Prod.fst).Nodup →
      (∀ p ∈ frame.locals,
        (∀ a, p.2 = Value.arr a → a < s.arrHeap.length) ∧
        (∀ o, p.2 = Value.obj o → o < s.objHeap.length)) →
      (createIndependentClosureEnvironment s t frame).1.closureId
          = some (s.closureIdCounter + 1) ∧
      (createIndependentClosureEnvironment s t frame).2.closureIdCounter
          = s.closureIdCounter + 1 ∧
      (createIndependentClosureEnvironment s t frame).1.name = t.name ∧
      (createIndependentClosureEnvironment s t frame).1.params = t.params ∧
      (createIndependentClosureEnvironment s t frame).1.startAddress
          = t.startAddress ∧
      ∃ env, (createIndependentClosureEnvironment s t frame).1.closureEnv
          = some env ∧
        (∀ x, mapGet frame.locals x = none → mapGet env x = none) ∧
        (∀ x v, mapGet frame.locals x = some v →
          AmendedSkip s t.params x v → mapGet env x = none) ∧
        (∀ x v, mapGet frame.locals x = some v →
          ¬ AmendedSkip s t.params x v →
          ∃ cv, mapGet env x = some cv ∧
            CapturedShallow s
              (createIndependentClosureEnvironment s t frame).2 v cv)) := by
  constructor
  · intro s fa st1 frame rest tmpl hst hcs hfa
    obtain ⟨stk, cs, gl, fh, ahp, ohp, pc0, ic, mi, cic⟩ := s
    have hst' : stk = .userFn fa :: st1 := hst
    have hcs' : cs = frame :: rest := hcs
    have hfa' : fh[fa]? = some tmpl := hfa
    subst hst'
    subst hcs'
    simp only [executeRet, popRaw]
    rw [hfa']
  · intro s t frame hnd hwf
    obtain ⟨he1, he2, hn, hs, hc⟩ := captureFold_spec s t.params frame.locals
      [] s.arrHeap s.objHeap [] [] (by simp) (by simp) hnd hwf
    refine ⟨rfl, rfl, rfl, rfl, rfl,
      (frame.locals.foldl (captureStep s t.params)
        ([], s.arrHeap, s.objHeap)).1, rfl, ?_, ?_, ?_⟩
    · intro x hx
      simpa [mapGet] using hn x hx
    · intro x v hx hsk
      simpa [mapGet] using
        hs x v hx ((captureSkip_iff s t.params x v).mpr hsk)
    · intro x v hx hsk
      have hskb : captureSkip s t.params x v = false := by
        cases hb : captureSkip s t.params x v with
        | false => rfl
        | true => exact absurd ((captureSkip_iff s t.params x v).mp hb) hsk
      obtain ⟨cv, hcv, hshallow⟩ := hc x v hx hskb
      exact ⟨cv, hcv,
        hshallow (createIndependentClosureEnvironment s t frame).2 rfl rfl⟩

/-- Witness: the amended C5 at the `myCb`-to-host-function frame and at a
concrete two-frame return state. -/
theorem c5_capture_witness :
    (hostFnFrame.locals.map Prod.fst).Nodup ∧
    mapGet hostFnFrame.locals "myCb" = some (.hostFn 7) ∧
    (∃ env, (createIndependentClosureEnvironment freshVM innerTemplate
        hostFnFrame).1.closureEnv = some env ∧
      ∃ cv, mapGet env "myCb" = some cv ∧
        CapturedShallow freshVM
          (createIndependentClosureEnvironment freshVM innerTemplate
            hostFnFrame).2 (.hostFn 7) cv) ∧
    (createIndependentClosureEnvironment freshVM innerTemplate
        hostFnFrame).1.closureId = some 1 ∧
    (executeRet (⟨[Value.userFn 0], [mkFrame 10], [], [innerTemplate],
        [], [], 0, 0, 200000, 0⟩ : VMState)).map (fun p => p.2)
      = .ok (.userFn 1) := by
  have hnd : (hostFnFrame.locals.map Prod.fst).Nodup := by
    simp [hostFnFrame]
  have hwf : ∀ p ∈ hostFnFrame.locals,
      (∀ a, p.2 = Value.arr a → a < freshVM.arrHeap.length) ∧
      (∀ o, p.2 = Value.obj o → o < freshVM.objHeap.length) := by
    intro p hp
    simp [hostFnFrame] at hp
    subst hp
    exact ⟨fun a h => Value.noConfusion h, fun o h => Value.noConfusion h⟩
  obtain ⟨hcid, _, _, _, _, env, henv, _, _, hcap⟩ :=
    c5_capture_amended.2 freshVM innerTemplate hostFnFrame hnd hwf
  have hAS : ¬ AmendedSkip freshVM innerTemplate.params "myCb"
      (.hostFn 7) := by
    rintro (h | h | h | h | ⟨id, hg⟩ | ⟨fa, hv⟩)
    · exact absurd h (by decide)
    · exact absurd h (by decide)
    · simp [innerTemplate] at h
    · exact absurd h (by decide)
    · simp [freshVM, mapGet] at hg
    · exact Value.noConfusion hv
  obtain ⟨cv, hcv, hsh⟩ := hcap "myCb" (.hostFn 7) rfl hAS
  have hret := c5_capture_amended.1
    (⟨[Value.userFn 0], [mkFrame 10], [], [innerTemplate],
      [], [], 0, 0, 200000, 0⟩ : VMState) 0 [] (mkFrame 10) [] innerTemplate
    rfl rfl rfl
  refine ⟨hnd, rfl, ⟨env, henv, cv, hcv, hsh⟩, hcid.trans rfl, ?_⟩
  rw [hret]
  rfl

/-!
## Claim C1 — closure isolation
-/

/-- Inversion of a successful `Except` bind. -/
theorem exceptBind_eq_ok {α β : Type} (x : Except String α)
    (f : α → Except String β) (b : β) :
    (x >>= f) = .ok b ↔ ∃ a, x = .ok a ∧ f a = .ok b := by
  cases x with
  | error e => simp [exceptBind_error]
  | ok a => simp [exceptBind_ok]

/-- `HeapExtends` is reflexive. -/
theorem heapExtends_refl (s : VMState) : HeapExtends s s :=
  ⟨le_refl _, le_refl _, fun a o h => ⟨o, h, rfl⟩⟩

/-- `HeapExtends` is transitive. -/
theorem heapExtends_trans (s1 s2 s3 : VMState) (h1 : HeapExtends s1 s2)
    (h2 : HeapExtends s2 s3) : HeapExtends s1 s3 := by
  obtain ⟨hl1, hc1, hp1⟩ := h1
  obtain ⟨hl2, hc2, hp2⟩ := h2
  refine ⟨le_trans hl1 hl2, le_trans hc1 hc2, fun a o h => ?_⟩
  obtain ⟨o1, ho1, hi1⟩ := hp1 a o h
  obtain ⟨o2, ho2, hi2⟩ := hp2 a o1 ho1
  exact ⟨o2, ho2, hi2.trans hi1⟩

/-- A step that leaves the function heap and the closure-id counter
untouched extends the heap. -/
theorem heapExtends_of_eq (s s' : VMState) (h1 : s'.funcHeap = s.funcHeap)
    (h2 : s'.closureIdCounter = s.closureIdCounter) : HeapExtends s s' :=
  ⟨by rw [h1], by rw [h2], fun a o h => ⟨o, by rw [h1]; exact h, rfl⟩⟩

/-- Every instruction handler except `STORE`, `DECLARE` and `RET` leaves
the function heap and the closure-id counter untouched. -/
theorem executeInstruction_fh (bc : ByteCode) (op : Opcode)
    (operand : Option Nat) (s s' : VMState) (r : Value)
    (hop1 : op ≠ .STORE) (hop2 : op ≠ .DECLARE) (hop3 : op ≠ .RET)
    (h : executeInstruction bc ⟨op, operand⟩ s = .ok (s', r)) :
    s'.funcHeap = s.funcHeap ∧ s'.closureIdCounter = s.closureIdCounter := by
  cases op
  case STORE => exact absurd rfl hop1
  case DECLARE => exact absurd rfl hop2
  case RET => exact absurd rfl hop3
  case NEW =>
    simp only [executeInstruction, executeNew, exceptBind_eq_ok] at h
    obtain ⟨n, hn, h⟩ := h
    split at h
    case h_2 => exact Except.noConfusion h
    case h_1 =>
      rename_i val heq
      simp only [Except.ok.injEq] at h
      subst h
      repeat' first
        | (obtain ⟨_, _, heq⟩ := heq)
        | split at heq
        | (simp only [exceptBind_eq_ok] at heq)
      all_goals
        first
          | exact Except.noConfusion heq
          | (simp only [Except.ok.injEq, Prod.mk.injEq] at heq
             obtain ⟨h1, h2⟩ := heq
             rw [← h1]
             exact ⟨rfl, rfl⟩)
          | exact ⟨rfl, rfl⟩
  all_goals
    simp only [executeInstruction, executePush, executePop, executeDup,
      executeDiv, executeEq, executeNe, executeNeg, executeAnd, executeOr,
      executeNot, executeTypeof, executeLoad, executeJmp, executeJif,
      executeJnf, executeCall, executeCallMethod, executeGetProp,
      executeNewArr, executeNewObj, executeGetElem, executeSetElem,
      executeSetProp, executeNew, executeThrow, execBin, push,
      exceptBind_eq_ok] at h
  all_goals
    repeat' first
      | (obtain ⟨_, _, h⟩ := h)
      | split at h
      | (simp only [exceptBind_eq_ok] at h)
  all_goals
    first
      | exact ⟨rfl, rfl⟩
      | exact Except.noConfusion h
      | (simp only [Except.ok.injEq, Prod.mk.injEq] at h
         obtain ⟨h1, h2⟩ := h
         rw [← h1]
         exact ⟨rfl, rfl⟩)

/-- A successful indexed lookup is in bounds. -/
theorem getElem?_some_lt {α : Type} (l : List α) (i : Nat) (a : α)
    (h : l[i]? = some a) : i < l.length := by
  by_contra hc
  rw [List.getElem?_eq_none (Nat.le_of_not_lt hc)] at h
  exact Option.noConfusion h

/-- Updating one record's `closureEnv` in place extends the heap (the
record keeps its `closureId`). -/
theorem funcHeap_set_extends (s : VMState) (fa : Nat) (fobj : FuncObj)
    (env' : Option (List (String × Value)))
    (hfa : s.funcHeap[fa]? = some fobj) :
    HeapExtends s { s with
      funcHeap := s.funcHeap.set fa { fobj with closureEnv := env' } } := by
  refine ⟨by simp, le_refl _, fun a o h => ?_⟩
  rcases eq_or_ne a fa with rfl | hne
  · have hof : o = fobj := by
      rw [hfa] at h
      exact (Option.some.injEq _ _).mp h.symm
    refine ⟨{ fobj with closureEnv := env' }, ?_, ?_⟩
    · exact List.getElem?_set_self (getElem?_some_lt _ _ _ hfa)
    · rw [hof]
  · exact ⟨o, by simpa [List.getElem?_set_ne (Ne.symm hne)] using h, rfl⟩

/-- Precompose `HeapExtends` with a heap-preserving step. -/
theorem heapExtends_step (s t u : VMState) (h : HeapExtends t u)
    (h1 : t.funcHeap = s.funcHeap)
    (h2 : t.closureIdCounter = s.closureIdCounter) :
    HeapExtends s u := heapExtends_trans s t u (heapExtends_of_eq s t h1 h2) h

/-- `storeClosureVar` extends the heap. -/
theorem storeClosureVar_extends (s : VMState) (fa : Nat) (name : String)
    (v : Value) : HeapExtends s (storeClosureVar s fa name v) := by
  unfold storeClosureVar
  split
  · exact heapExtends_refl _
  · rename_i fobj hfa
    split
    · exact heapExtends_refl _
    · rename_i env henv
      exact funcHeap_set_extends s fa fobj _ hfa

/-- Capture-on-declare extends the heap. -/
theorem createClosureEnvironment_extends (s : VMState) (fa : Nat)
    (frame : CallFrame) : HeapExtends s (createClosureEnvironment s fa frame) := by
  unfold createClosureEnvironment
  split
  · exact heapExtends_refl _
  · rename_i fobj hfa
    exact funcHeap_set_extends s fa fobj _ hfa

/-- Global capture-on-declare extends the heap. -/
theorem createClosureEnvironmentFromGlobal_extends (s : VMState) (fa : Nat) :
    HeapExtends s (createClosureEnvironmentFromGlobal s fa) := by
  unfold createClosureEnvironmentFromGlobal
  split
  · exact heapExtends_refl _
  · rename_i fobj hfa
    exact funcHeap_set_extends s fa fobj _ hfa

/-- `STORE` extends the heap. -/
theorem executeStore_extends (bc : ByteCode) (operand : Option Nat)
    (s s' : VMState) (r : Value)
    (h : executeStore bc operand s = .ok (s', r)) : HeapExtends s s' := by
  simp only [executeStore, exceptBind_eq_ok] at h
  obtain ⟨name, hname, h⟩ := h
  repeat' split at h
  all_goals
    simp only [Except.ok.injEq, Prod.mk.injEq] at h
  all_goals
    obtain ⟨h1, h2⟩ := h
  all_goals
    rw [← h1]
  all_goals
    first
      | exact heapExtends_step _ _ _ (storeClosureVar_extends _ _ _ _) rfl rfl
      | exact heapExtends_of_eq _ _ rfl rfl

/-- `DECLARE` extends the heap. -/
theorem executeDeclare_extends (bc : ByteCode) (operand : Option Nat)
    (s s' : VMState) (r : Value)
    (h : executeDeclare bc operand s = .ok (s', r)) : HeapExtends s s' := by
  simp only [executeDeclare, exceptBind_eq_ok] at h
  obtain ⟨name, hname, h⟩ := h
  repeat' split at h
  all_goals
    first
      | exact Except.noConfusion h
      | (simp only [Except.ok.injEq, Prod.mk.injEq] at h
         obtain ⟨h1, h2⟩ := h
         rw [← h1]
         first
           | exact heapExtends_step _ _ _
               (createClosureEnvironment_extends _ _ _) rfl rfl
           | exact heapExtends_step _ _ _
               (createClosureEnvironmentFromGlobal_extends _ _) rfl rfl
           | exact heapExtends_of_eq _ _ rfl rfl)

/-- `RET` extends the heap: at most one fresh record is appended and the
counter only grows. -/
theorem executeRet_extends (s s' : VMState) (r : Value)
    (h : executeRet s = .ok (s', r)) : HeapExtends s s' := by
  unfold executeRet at h
  split at h
  split at h
  · exact Except.noConfusion h
  · dsimp only at h
    split at h
    · exact Except.noConfusion h
    · split at h
      · exact Except.noConfusion h
      · rename_i t hfa
        simp only [Except.ok.injEq, Prod.mk.injEq] at h
        obtain ⟨h1, h2⟩ := h
        rw [← h1]
        refine ⟨by simp [createIndependent_eq], Nat.le_succ _,
          fun a o ho => ?_⟩
        exact ⟨o, by
          simpa [createIndependent_eq, List.getElem?_append_left
            (getElem?_some_lt _ _ _ ho)] using ho, rfl⟩
    · split at h
      all_goals
        simp only [Except.ok.injEq, Prod.mk.injEq] at h
      all_goals
        obtain ⟨h1, h2⟩ := h
      all_goals
        rw [← h1]
      all_goals
        exact heapExtends_of_eq _ _ rfl rfl

/-- Postcompose `HeapExtends` with a heap-preserving step. -/
theorem heapExtends_stepR (s t u : VMState) (h : HeapExtends s t)
    (h1 : u.funcHeap = t.funcHeap)
    (h2 : u.closureIdCounter = t.closureIdCounter) :
    HeapExtends s u := heapExtends_trans s t u h (heapExtends_of_eq t u h1 h2)

/-- Every successful instruction extends the heap. -/
theorem executeInstruction_extends (bc : ByteCode) (i : Instr)
    (s s' : VMState) (r : Value)
    (h : executeInstruction bc i s = .ok (s', r)) : HeapExtends s s' := by
  rcases i with ⟨op, operand⟩
  by_cases h1 : op = .STORE
  · subst h1
    exact executeStore_extends bc operand s s' r h
  · by_cases h2 : op = .DECLARE
    · subst h2
      exact executeDeclare_extends bc operand s s' r h
    · by_cases h3 : op = .RET
      · subst h3
        exact executeRet_extends s s' r h
      · have hfh := executeInstruction_fh bc op operand s s' r h1 h2 h3 h
        exact heapExtends_of_eq _ _ hfh.1 hfh.2

/-- One dispatch-loop iteration extends the heap. -/
theorem stepExec_extends (bc : ByteCode) (s s' : VMState) (r : Value)
    (hl : Bool) (h : stepExec bc s = .ok (s', r, hl)) : HeapExtends s s' := by
  unfold stepExec at h
  split at h
  · exact Except.noConfusion h
  · split at h
    · exact Except.noConfusion h
    · dsimp only at h
      split at h
      · exact Except.noConfusion h
      · simp only [exceptBind_eq_ok] at h
        obtain ⟨p, hp, h⟩ := h
        obtain ⟨s2, r2⟩ := p
        simp only [Except.ok.injEq, Prod.mk.injEq] at h
        obtain ⟨hh1, _⟩ := h
        rw [← hh1]
        exact heapExtends_stepR _ _ _
          (heapExtends_step _ _ _
            (executeInstruction_extends bc _ _ _ _ hp) rfl rfl) rfl rfl

/-- Any number of dispatch steps extends the heap. -/
theorem steps_extends (bc : ByteCode) (s s' : VMState) (h : Steps bc s s') :
    HeapExtends s s' := by
  induction h with
  | refl => exact heapExtends_refl _
  | tail hab hbc ih =>
      obtain ⟨r, hl, hstep⟩ := hbc
      exact heapExtends_trans _ _ _ ih (stepExec_extends bc _ _ r hl hstep)

/-- Inversion of a `RET` whose popped value is a user function: the result
is a reference to a freshly appended record carrying the incremented
closure id. -/
theorem executeRet_userFn_inv (s s' : VMState) (fa : Nat) (v : Value)
    (hhead : s.stack.head? = some (.userFn fa))
    (h : executeRet s = .ok (s', v)) :
    ∃ fc : FuncObj, v = .userFn s.funcHeap.length ∧
      s'.funcHeap = s.funcHeap ++ [fc] ∧
      fc.closureId = some (s.closureIdCounter + 1) ∧
      s'.closureIdCounter = s.closureIdCounter + 1 ∧
      s'.funcHeap[s.funcHeap.length]? = some fc := by
  rcases hs : s.stack with _ | ⟨top, st1⟩
  · rw [hs] at hhead
    exact Option.noConfusion hhead
  · rw [hs] at hhead
    have htop : top = .userFn fa := by simpa using hhead
    subst htop
    unfold executeRet at h
    rw [hs] at h
    simp only [popRaw] at h
    split at h
    · exact Except.noConfusion h
    · split at h
      · exact Except.noConfusion h
      · rename_i t hfa
        simp only [Except.ok.injEq, Prod.mk.injEq] at h
        obtain ⟨h1, h2⟩ := h
        subst h1
        exact ⟨_, h2.symm, rfl, rfl, rfl, List.getElem?_concat_length _ _⟩

/-- Writing through one closure leaves every other function record
untouched. -/
theorem storeClosureVar_getElem_ne (s : VMState) (fa a : Nat) (name : String)
    (v : Value) (hne : a ≠ fa) :
    (storeClosureVar s fa name v).funcHeap[a]? = s.funcHeap[a]? := by
  unfold storeClosureVar
  split
  · rfl
  · split
    · rfl
    · simp [List.getElem?_set_ne (Ne.symm hne)]

/-- C1: two `RET` events that each return a user function — the second
reachable from the first by any number of dispatch steps — allocate
*distinct* records (the addresses differ), the two records carry distinct
`closure_id`s in the final state, and writing a captured variable through
one record never changes the other record. -/
theorem c1_closure_isolation (bc : ByteCode) (sA sA' sB sB' : VMState)
    (fa1 fa2 a1 a2 : Nat)
    (hA : sA.stack.head? = some (.userFn fa1))
    (hAret : executeRet sA = .ok (sA', .userFn a1))
    (hsteps : Steps bc sA' sB)
    (hB : sB.stack.head? = some (.userFn fa2))
    (hBret : executeRet sB = .ok (sB', .userFn a2)) :
    a1 ≠ a2 ∧
    (∃ o1 o2 : FuncObj,
      sB'.funcHeap[a1]? = some o1 ∧ sB'.funcHeap[a2]? = some o2 ∧
      o1.closureId = some (sA.closureIdCounter + 1) ∧
      o2.closureId = some (sB.closureIdCounter + 1) ∧
      o1.closureId ≠ o2.closureId) ∧
    (∀ (name : String) (v : Value),
      (storeClosureVar sB' a1 name v).funcHeap[a2]? = sB'.funcHeap[a2]? ∧
      (storeClosureVar sB' a2 name v).funcHeap[a1]? = sB'.funcHeap[a1]?) := by
  obtain ⟨fc1, hv1, hfh1, hid1, hcid1, hget1⟩ :=
    executeRet_userFn_inv sA sA' fa1 (.userFn a1) hA hAret
  obtain ⟨fc2, hv2, hfh2, hid2, hcid2, hget2⟩ :=
    executeRet_userFn_inv sB sB' fa2 (.userFn a2) hB hBret
  have ha1 := Value.userFn.inj hv1
  have ha2 := Value.userFn.inj hv2
  have hext := steps_extends bc sA' sB hsteps
  have hlen := hext.1
  have hcidle := hext.2.1
  have hlenA' : sA'.funcHeap.length = sA.funcHeap.length + 1 := by
    rw [hfh1]; simp
  have hltB : a1 < sB.funcHeap.length := by omega
  have hne : a1 ≠ a2 := by omega
  have hgetA' : sA'.funcHeap[a1]? = some fc1 := by
    rw [ha1]; exact hget1
  obtain ⟨o1, ho1, hoid1⟩ := hext.2.2 a1 fc1 hgetA'
  have ho1' : sB'.funcHeap[a1]? = some o1 := by
    rw [hfh2, List.getElem?_append_left hltB]
    exact ho1
  have ho2' : sB'.funcHeap[a2]? = some fc2 := by
    rw [ha2]; exact hget2
  refine ⟨hne, ⟨o1, fc2, ho1', ho2', hoid1.trans hid1, hid2, ?_⟩, ?_⟩
  · rw [hoid1.trans hid1, hid2]
    intro hcontra
    simp only [Option.some.injEq] at hcontra
    omega
  · intro name v
    exact ⟨storeClosureVar_getElem_ne sB' a1 a2 name v (Ne.symm hne),
      storeClosureVar_getElem_ne sB' a2 a1 name v hne⟩

/-- Witness: the isolation theorem at the two-frame start state, with an
empty `Steps` segment between the two returns. -/
theorem c1_closure_witness :
    s0Witness.stack.head? = some (.userFn 0) ∧
    executeRet s0Witness = .ok (c1Mid, .userFn 1) ∧
    Steps loopBC c1Mid c1Mid ∧
    c1Mid.stack.head? = some (.userFn 1) ∧
    executeRet c1Mid = .ok (c1Fin, .userFn 2) ∧
    ((1 : Nat) ≠ 2 ∧
      (∃ o1 o2 : FuncObj,
        c1Fin.funcHeap[1]? = some o1 ∧ c1Fin.funcHeap[2]? = some o2 ∧
        o1.closureId = some (s0Witness.closureIdCounter + 1) ∧
        o2.closureId = some (c1Mid.closureIdCounter + 1) ∧
        o1.closureId ≠ o2.closureId) ∧
      (∀ (name : String) (v : Value),
        (storeClosureVar c1Fin 1 name v).funcHeap[2]?
          = c1Fin.funcHeap[2]? ∧
        (storeClosureVar c1Fin 2 name v).funcHeap[1]?
          = c1Fin.funcHeap[1]?)) :=
  ⟨rfl, rfl, Relation.ReflTransGen.refl, rfl, rfl,
   c1_closure_isolation loopBC s0Witness c1Mid c1Mid c1Fin 0 1 1 2
     rfl rfl Relation.ReflTransGen.refl rfl rfl⟩

/-!
## Claim C8 — break/continue compile to JMP
-/

/-- List membership through optional indexing. -/
theorem mem_iff_getElemQ {α : Type} (l : List α) (a : α) :
    a ∈ l ↔ ∃ i : Nat, l[i]? = some a := by
  constructor
  · intro h
    obtain ⟨i, hi, hg⟩ := List.getElem_of_mem h
    exact ⟨i, by rw [List.getElem?_eq_getElem hi]; exact congrArg some hg⟩
  · rintro ⟨i, hi⟩
    exact List.getElem?_mem hi

/-- Appending an instruction other than `BREAK`/`CONTINUE` preserves the
no-`BREAK`/`CONTINUE` property in both directions. -/
theorem nb_addInstr (s : CompState) (op : Opcode) (operand : Option Nat)
    (h1 : op ≠ .BREAK) (h2 : op ≠ .CONTINUE) :
    noBC (addInstr s op operand) ↔ noBC s := by
  show noBCL (s.instructions ++ [⟨op, operand⟩]) ↔ noBCL s.instructions
  constructor
  · intro h i hi
    exact h i (by simp [hi])
  · intro h i hi
    rcases List.mem_append.mp hi with hh | hh
    · exact h i hh
    · simp at hh
      subst hh
      exact ⟨h1, h2⟩

/-- Patching an operand never changes any opcode. -/
theorem nb_patchInstr (s : CompState) (a o : Nat) :
    noBC (patchInstr s a o) ↔ noBC s := by
  unfold patchInstr
  split
  · rename_i i0 hi0
    show noBCL (s.instructions.set a ⟨i0.opcode, some o⟩) ↔
      noBCL s.instructions
    constructor
    · intro h j hj
      obtain ⟨k, hk⟩ := (mem_iff_getElemQ _ _).mp hj
      rcases eq_or_ne k a with rfl | hne
      · have hij : i0 = j := by
          rw [hi0] at hk
          exact (Option.some.injEq _ _).mp hk
        have hmem : (⟨i0.opcode, some o⟩ : Instr) ∈
            s.instructions.set k ⟨i0.opcode, some o⟩ :=
          List.getElem?_mem
            (List.getElem?_set_self (getElem?_some_lt _ _ _ hi0))
        have := h _ hmem
        rw [← hij]
        exact this
      · have : (s.instructions.set a ⟨i0.opcode, some o⟩)[k]? = some j := by
          rw [List.getElem?_set_ne (Ne.symm hne)]
          exact hk
        exact h j (List.getElem?_mem this)
    · intro h j hj
      rcases List.mem_or_eq_of_mem_set hj with hh | rfl
      · exact h j hh
      · exact h i0 (List.getElem?_mem hi0)
  · exact Iff.rfl

/-- Patching a list of operands never changes any opcode. -/
theorem nb_patchAll (targets : List Nat) (s : CompState) (o : Nat) :
    noBC (patchAll s targets o) ↔ noBC s := by
  induction targets generalizing s with
  | nil => exact Iff.rfl
  | cons t ts ih =>
      simp only [patchAll, List.foldl_cons]
      exact (ih (patchInstr s t o)).trans (nb_patchInstr s t o)

/-- Declaring variables does not touch the instruction list. -/
theorem nb_foldDecl (l : List String) (s : CompState) :
    noBC (l.foldl declareVariable s) ↔ noBC s := by
  induction l generalizing s with
  | nil => exact Iff.rfl
  | cons a as ih =>
      simp only [List.foldl_cons]
      exact (ih (declareVariable s a)).trans (by
        unfold declareVariable
        split <;> exact Iff.rfl)

/-- A fold of operand patches never changes any opcode. -/
theorem nb_foldPatchPairs {α : Type} (l : List α) (f1 f2 : α → Nat)
    (s : CompState) :
    noBC (l.foldl (fun s p => patchInstr s (f1 p) (f2 p)) s) ↔ noBC s := by
  induction l generalizing s with
  | nil => exact Iff.rfl
  | cons a as ih =>
      simp only [List.foldl_cons]
      exact (ih _).trans (nb_patchInstr s (f1 a) (f2 a))

/-- Scope entry does not touch instructions. -/
theorem nb_enterScope (s : CompState) : noBC (enterScope s) ↔ noBC s := Iff.rfl

/-- Scope exit does not touch instructions. -/
theorem nb_exitScope (s : CompState) : noBC (exitScope s) ↔ noBC s := Iff.rfl

/-- Variable declaration does not touch instructions. -/
theorem nb_declareVariable (s : CompState) (n : String) :
    noBC (declareVariable s n) ↔ noBC s := by
  unfold declareVariable
  split <;> exact Iff.rfl

/-- Pushing a loop context does not touch instructions. -/
theorem nb_pushLoop (s : CompState) : noBC (pushLoop s) ↔ noBC s := Iff.rfl

/-- Popping a loop context does not touch instructions. -/
theorem nb_popLoop (s : CompState) : noBC (popLoop s) ↔ noBC s := Iff.rfl

/-- Pushing a switch context does not touch instructions. -/
theorem nb_pushSwitch (s : CompState) : noBC (pushSwitch s) ↔ noBC s := Iff.rfl

/-- Popping a switch context does not touch instructions. -/
theorem nb_popSwitch (s : CompState) : noBC (popSwitch s) ↔ noBC s := Iff.rfl

/-- Recording a function template does not touch instructions. -/
theorem nb_setTemplates (s : CompState) (t : List FuncObj) :
    noBC { s with templates := t } ↔ noBC s := Iff.rfl

/-- Recording a break target does not touch instructions. -/
theorem nb_addBreakToLoop (s : CompState) (j : Nat) :
    noBC (addBreakToLoop s j) ↔ noBC s := by
  unfold addBreakToLoop
  split <;> exact Iff.rfl

/-- Recording a continue target does not touch instructions. -/
theorem nb_addContinueToLoop (s : CompState) (j : Nat) :
    noBC (addContinueToLoop s j) ↔ noBC s := by
  unfold addContinueToLoop
  split <;> exact Iff.rfl

/-- Recording a switch break target does not touch instructions. -/
theorem nb_addBreakToSwitch (s : CompState) (j : Nat) :
    noBC (addBreakToSwitch s j) ↔ noBC s := by
  unfold addBreakToSwitch
  split <;> exact Iff.rfl

/-- Pooling a constant does not touch instructions. -/
theorem nb_addConst (s : CompState) (v : Value) (i : Nat) (s2 : CompState)
    (hs : noBC s) (h : addConst s v = .ok (i, s2)) : noBC s2 := by
  unfold addConst at h
  rcases hadd : s.pool.add v with e | q
  · rw [hadd] at h
    exact Except.noConfusion h
  · rw [hadd] at h
    simp only [Except.map, Except.ok.injEq, Prod.mk.injEq] at h
    rw [← h.2]
    exact hs

/-- Pooling a member-property constant does not touch instructions. -/
theorem nb_memberPropConst (s : CompState) (prop : Node) (i : Nat)
    (s2 : CompState) (hs : noBC s)
    (h : memberPropConst s prop = .ok (i, s2)) : noBC s2 := by
  unfold memberPropConst at h
  split at h <;> exact nb_addConst _ _ _ _ hs h

/-- The binary-operator table never yields `BREAK`/`CONTINUE`. -/
theorem binaryOpcode_ne (str : String) (op : Opcode)
    (h : binaryOpcode str = some op) : op ≠ .BREAK ∧ op ≠ .CONTINUE := by
  unfold binaryOpcode at h
  split at h
  all_goals first
    | exact Option.noConfusion h
    | (cases Option.some.inj h; exact (by decide))

/-- The compound-assignment table never yields `BREAK`/`CONTINUE`. -/
theorem compoundOpcode_ne (str : String) (op : Opcode)
    (h : compoundOpcode str = some op) : op ≠ .BREAK ∧ op ≠ .CONTINUE := by
  unfold compoundOpcode at h
  split at h
  all_goals first
    | exact Option.noConfusion h
    | (cases Option.some.inj h; exact (by decide))

/-- The unary-operator table never yields `BREAK`/`CONTINUE`. -/
theorem unaryOpcode_ne (str : String) (op : Opcode)
    (h : unaryOpcode str = some op) : op ≠ .BREAK ∧ op ≠ .CONTINUE := by
  unfold unaryOpcode at h
  split at h
  all_goals first
    | exact Option.noConfusion h
    | (cases Option.some.inj h; exact (by decide))

set_option maxHeartbeats 4000000 in
/-- Joint fuel induction over the eleven mutual compile functions: a
compiler state without `BREAK`/`CONTINUE` instructions never acquires
one. -/
theorem compile_noBC_all :
    ∀ fuel : Nat,
      (∀ (n : Node) (s s' : CompState), noBC s →
        compileNode fuel n s = .ok s' → noBC s') ∧
      (∀ (l : List Node) (s s' : CompState), noBC s →
        compileEach fuel l s = .ok s' → noBC s') ∧
      (∀ (l : List Node) (s s' : CompState), noBC s →
        compileProgramBody fuel l s = .ok s' → noBC s') ∧
      (∀ (l : List Node) (s s' : CompState), noBC s →
        compileBlockBody fuel l s = .ok s' → noBC s') ∧
      (∀ (l : List VarDeclarator) (s s' : CompState), noBC s →
        compileDeclarators fuel l s = .ok s' → noBC s') ∧
      (∀ (qs : List String) (es : List Node) (b : Bool) (s s' : CompState),
        noBC s → compileTemplate fuel qs es b s = .ok s' → noBC s') ∧
      (∀ (l : List Node) (s s' : CompState), noBC s →
        compileSequence fuel l s = .ok s' → noBC s') ∧
      (∀ (l : List (Option Node)) (s s' : CompState), noBC s →
        compileArrayElems fuel l s = .ok s' → noBC s') ∧
      (∀ (l : List ObjProp) (s s' : CompState), noBC s →
        compileObjProps fuel l s = .ok s' → noBC s') ∧
      (∀ (cs : List SwitchCase) (i : Nat) (js : List (Nat × Nat))
          (dj : Option Nat) (s : CompState) (js2 : List (Nat × Nat))
          (dj2 : Option Nat) (s' : CompState), noBC s →
        compileSwitchTests fuel cs i js dj s = .ok (js2, dj2, s') →
        noBC s') ∧
      (∀ (cs : List SwitchCase) (addrs : List Nat) (s : CompState)
          (addrs2 : List Nat) (s' : CompState), noBC s →
        compileSwitchBodies fuel cs addrs s = .ok (addrs2, s') → noBC s') := by
  intro fuel
  induction fuel with
  | zero =>
      refine ⟨fun n s s' hs h => Except.noConfusion h,
        fun l s s' hs h => by cases l <;> exact Except.noConfusion h,
        fun l s s' hs h => by
          rcases l with _ | ⟨a, _ | ⟨b, t⟩⟩ <;> exact Except.noConfusion h,
        fun l s s' hs h => by cases l <;> exact Except.noConfusion h,
        fun l s s' hs h => by
          rcases l with _ | ⟨⟨name, initE⟩, rest⟩ <;>
            exact Except.noConfusion h,
        fun qs es b s s' hs h => by
          cases qs <;> exact Except.noConfusion h,
        fun l s s' hs h => by
          rcases l with _ | ⟨a, _ | ⟨b, t⟩⟩ <;> exact Except.noConfusion h,
        fun l s s' hs h => by cases l <;> exact Except.noConfusion h,
        fun l s s' hs h => by
          rcases l with _ | ⟨⟨key, computed, value⟩, rest⟩ <;>
            exact Except.noConfusion h,
        fun cs i js dj s js2 dj2 s' hs h => by
          rcases cs with _ | ⟨⟨testOpt, conseq⟩, rest⟩ <;>
            exact Except.noConfusion h,
        fun cs addrs s addrs2 s' hs h => by
          rcases cs with _ | ⟨⟨testOpt, conseq⟩, rest⟩ <;>
            exact Except.noConfusion h⟩
  | succ fuel ih =>
      obtain ⟨ih1, ih2, ih3, ih4, ih5, ih6, ih7, ih8, ih9, ih10, ih11⟩ := ih
      refine ⟨?_, ?_, ?_, ?_, ?_, ?_, ?_, ?_, ?_, ?_, ?_⟩
      · intro n s s' hs h
        cases n
        all_goals (
          simp only [compileNode] at h
          repeat' first
            | (obtain ⟨_, _, h⟩ := h)
            | split at h
            | (simp only [exceptBind_eq_ok] at h)
            | (simp only [Except.ok.injEq, Prod.mk.injEq] at h)
            | (obtain ⟨h, _⟩ := h)
            | (subst h)
          )
        all_goals
          try simp only [Except.ok.injEq, Prod.mk.injEq, exists_eq_right,
            exists_eq_right_right, exists_eq_left] at *
        all_goals try subst_vars
        all_goals
          repeat' first
            | assumption
            | exact Except.noConfusion h
            | (obtain ⟨a9, ha9, hb9⟩ :=
                (by assumption : ∃ a, _ = Except.ok a ∧ _ = _)
               subst hb9)
            | (simp only [nb_addInstr, nb_patchInstr, nb_patchAll, nb_foldDecl,
                nb_foldPatchPairs, nb_enterScope, nb_exitScope,
                nb_declareVariable, nb_pushLoop, nb_popLoop, nb_pushSwitch,
                nb_popSwitch, nb_setTemplates, nb_addBreakToLoop,
                nb_addContinueToLoop, nb_addBreakToSwitch, ne_eq,
                reduceCtorEq, not_false_eq_true])
            | split
            | (refine ih1 _ _ _ ?_ (by assumption))
            | (refine ih2 _ _ _ ?_ (by assumption))
            | (refine ih3 _ _ _ ?_ (by assumption))
            | (refine ih4 _ _ _ ?_ (by assumption))
            | (refine ih5 _ _ _ ?_ (by assumption))
            | (refine ih6 _ _ _ _ _ ?_ (by assumption))
            | (refine ih7 _ _ _ ?_ (by assumption))
            | (refine ih8 _ _ _ ?_ (by assumption))
            | (refine ih9 _ _ _ ?_ (by assumption))
            | (refine ih10 _ _ _ _ _ _ _ _ ?_ (by assumption))
            | (refine ih11 _ _ _ _ _ ?_ (by assumption))
            | (refine nb_addConst _ _ _ _ ?_ (by assumption))
            | (refine nb_memberPropConst _ _ _ _ ?_ (by assumption))
            | (refine (nb_addInstr _ _ _ (binaryOpcode_ne _ _ (by assumption)).1
                (binaryOpcode_ne _ _ (by assumption)).2).mpr ?_)
            | (refine (nb_addInstr _ _ _
                (compoundOpcode_ne _ _ (by assumption)).1
                (compoundOpcode_ne _ _ (by assumption)).2).mpr ?_)
            | (refine (nb_addInstr _ _ _ (unaryOpcode_ne _ _ (by assumption)).1
                (unaryOpcode_ne _ _ (by assumption)).2).mpr ?_)
      · intro l s s' hs h
        cases l
        all_goals (
          simp only [compileEach] at h
          repeat' first
            | (obtain ⟨_, _, h⟩ := h)
            | split at h
            | (simp only [exceptBind_eq_ok] at h)
            | (simp only [Except.ok.injEq, Prod.mk.injEq] at h)
            | (obtain ⟨h, _⟩ := h)
            | (subst h)
          )
        all_goals
          try simp only [Except.ok.injEq, Prod.mk.injEq, exists_eq_right,
            exists_eq_right_right, exists_eq_left] at *
        all_goals try subst_vars
        all_goals
          repeat' first
            | assumption
            | exact Except.noConfusion h
            | (obtain ⟨a9, ha9, hb9⟩ :=
                (by assumption : ∃ a, _ = Except.ok a ∧ _ = _)
               subst hb9)
            | (simp only [nb_addInstr, nb_patchInstr, nb_patchAll, nb_foldDecl,
                nb_foldPatchPairs, nb_enterScope, nb_exitScope,
                nb_declareVariable, nb_pushLoop, nb_popLoop, nb_pushSwitch,
                nb_popSwitch, nb_setTemplates, nb_addBreakToLoop,
                nb_addContinueToLoop, nb_addBreakToSwitch, ne_eq,
                reduceCtorEq, not_false_eq_true])
            | split
            | (refine ih1 _ _ _ ?_ (by assumption))
            | (refine ih2 _ _ _ ?_ (by assumption))
            | (refine ih3 _ _ _ ?_ (by assumption))
            | (refine ih4 _ _ _ ?_ (by assumption))
            | (refine ih5 _ _ _ ?_ (by assumption))
            | (refine ih6 _ _ _ _ _ ?_ (by assumption))
            | (refine ih7 _ _ _ ?_ (by assumption))
            | (refine ih8 _ _ _ ?_ (by assumption))
            | (refine ih9 _ _ _ ?_ (by assumption))
            | (refine ih10 _ _ _ _ _ _ _ _ ?_ (by assumption))
            | (refine ih11 _ _ _ _ _ ?_ (by assumption))
            | (refine nb_addConst _ _ _ _ ?_ (by assumption))
            | (refine nb_memberPropConst _ _ _ _ ?_ (by assumption))
            | (refine (nb_addInstr _ _ _ (binaryOpcode_ne _ _ (by assumption)).1
                (binaryOpcode_ne _ _ (by assumption)).2).mpr ?_)
            | (refine (nb_addInstr _ _ _
                (compoundOpcode_ne _ _ (by assumption)).1
                (compoundOpcode_ne _ _ (by assumption)).2).mpr ?_)
            | (refine (nb_addInstr _ _ _ (unaryOpcode_ne _ _ (by assumption)).1
                (unaryOpcode_ne _ _ (by assumption)).2).mpr ?_)
      · intro l s s' hs h
        rcases l with _ | ⟨a, _ | ⟨b, t⟩⟩
        all_goals (
          simp only [compileProgramBody] at h
          repeat' first
            | (obtain ⟨_, _, h⟩ := h)
            | split at h
            | (simp only [exceptBind_eq_ok] at h)
            | (simp only [Except.ok.injEq, Prod.mk.injEq] at h)
            | (obtain ⟨h, _⟩ := h)
            | (subst h)
          )
        all_goals
          try simp only [Except.ok.injEq, Prod.mk.injEq, exists_eq_right,
            exists_eq_right_right, exists_eq_left] at *
        all_goals try subst_vars
        all_goals
          repeat' first
            | assumption
            | exact Except.noConfusion h
            | (obtain ⟨a9, ha9, hb9⟩ :=
                (by assumption : ∃ a, _ = Except.ok a ∧ _ = _)
               subst hb9)
            | (simp only [nb_addInstr, nb_patchInstr, nb_patchAll, nb_foldDecl,
                nb_foldPatchPairs, nb_enterScope, nb_exitScope,
                nb_declareVariable, nb_pushLoop, nb_popLoop, nb_pushSwitch,
                nb_popSwitch, nb_setTemplates, nb_addBreakToLoop,
                nb_addContinueToLoop, nb_addBreakToSwitch, ne_eq,
                reduceCtorEq, not_false_eq_true])
            | split
            | (refine ih1 _ _ _ ?_ (by assumption))
            | (refine ih2 _ _ _ ?_ (by assumption))
            | (refine ih3 _ _ _ ?_ (by assumption))
            | (refine ih4 _ _ _ ?_ (by assumption))
            | (refine ih5 _ _ _ ?_ (by assumption))
            | (refine ih6 _ _ _ _ _ ?_ (by assumption))
            | (refine ih7 _ _ _ ?_ (by assumption))
            | (refine ih8 _ _ _ ?_ (by assumption))
            | (refine ih9 _ _ _ ?_ (by assumption))
            | (refine ih10 _ _ _ _ _ _ _ _ ?_ (by assumption))
            | (refine ih11 _ _ _ _ _ ?_ (by assumption))
            | (refine nb_addConst _ _ _ _ ?_ (by assumption))
            | (refine nb_memberPropConst _ _ _ _ ?_ (by assumption))
            | (refine (nb_addInstr _ _ _ (binaryOpcode_ne _ _ (by assumption)).1
                (binaryOpcode_ne _ _ (by assumption)).2).mpr ?_)
            | (refine (nb_addInstr _ _ _
                (compoundOpcode_ne _ _ (by assumption)).1
                (compoundOpcode_ne _ _ (by assumption)).2).mpr ?_)
            | (refine (nb_addInstr _ _ _ (unaryOpcode_ne _ _ (by assumption)).1
                (unaryOpcode_ne _ _ (by assumption)).2).mpr ?_)
      · intro l s s' hs h
        cases l
        all_goals (
          simp only [compileBlockBody] at h
          repeat' first
            | (obtain ⟨_, _, h⟩ := h)
            | split at h
            | (simp only [exceptBind_eq_ok] at h)
            | (simp only [Except.ok.injEq, Prod.mk.injEq] at h)
            | (obtain ⟨h, _⟩ := h)
            | (subst h)
          )
        all_goals
          try simp only [Except.ok.injEq, Prod.mk.injEq, exists_eq_right,
            exists_eq_right_right, exists_eq_left] at *
        all_goals try subst_vars
        all_goals
          repeat' first
            | assumption
            | exact Except.noConfusion h
            | (obtain ⟨a9, ha9, hb9⟩ :=
                (by assumption : ∃ a, _ = Except.ok a ∧ _ = _)
               subst hb9)
            | (simp only [nb_addInstr, nb_patchInstr, nb_patchAll, nb_foldDecl,
                nb_foldPatchPairs, nb_enterScope, nb_exitScope,
                nb_declareVariable, nb_pushLoop, nb_popLoop, nb_pushSwitch,
                nb_popSwitch, nb_setTemplates, nb_addBreakToLoop,
                nb_addContinueToLoop, nb_addBreakToSwitch, ne_eq,
                reduceCtorEq, not_false_eq_true])
            | split
            | (refine ih1 _ _ _ ?_ (by assumption))
            | (refine ih2 _ _ _ ?_ (by assumption))
            | (refine ih3 _ _ _ ?_ (by assumption))
            | (refine ih4 _ _ _ ?_ (by assumption))
            | (refine ih5 _ _ _ ?_ (by assumption))
            | (refine ih6 _ _ _ _ _ ?_ (by assumption))
            | (refine ih7 _ _ _ ?_ (by assumption))
            | (refine ih8 _ _ _ ?_ (by assumption))
            | (refine ih9 _ _ _ ?_ (by assumption))
            | (refine ih10 _ _ _ _ _ _ _ _ ?_ (by assumption))
            | (refine ih11 _ _ _ _ _ ?_ (by assumption))
            | (refine nb_addConst _ _ _ _ ?_ (by assumption))
            | (refine nb_memberPropConst _ _ _ _ ?_ (by assumption))
            | (refine (nb_addInstr _ _ _ (binaryOpcode_ne _ _ (by assumption)).1
                (binaryOpcode_ne _ _ (by assumption)).2).mpr ?_)
            | (refine (nb_addInstr _ _ _
                (compoundOpcode_ne _ _ (by assumption)).1
                (compoundOpcode_ne _ _ (by assumption)).2).mpr ?_)
            | (refine (nb_addInstr _ _ _ (unaryOpcode_ne _ _ (by assumption)).1
                (unaryOpcode_ne _ _ (by assumption)).2).mpr ?_)
      · intro l s s' hs h
        rcases l with _ | ⟨⟨name, initE⟩, rest⟩
        all_goals (
          simp only [compileDeclarators] at h
          repeat' first
            | (obtain ⟨_, _, h⟩ := h)
            | split at h
            | (simp only [exceptBind_eq_ok] at h)
            | (simp only [Except.ok.injEq, Prod.mk.injEq] at h)
            | (obtain ⟨h, _⟩ := h)
            | (subst h)
          )
        all_goals
          try simp only [Except.ok.injEq, Prod.mk.injEq, exists_eq_right,
            exists_eq_right_right, exists_eq_left] at *
        all_goals try subst_vars
        all_goals
          repeat' first
            | assumption
            | exact Except.noConfusion h
            | (obtain ⟨a9, ha9, hb9⟩ :=
                (by assumption : ∃ a, _ = Except.ok a ∧ _ = _)
               subst hb9)
            | (simp only [nb_addInstr, nb_patchInstr, nb_patchAll, nb_foldDecl,
                nb_foldPatchPairs, nb_enterScope, nb_exitScope,
                nb_declareVariable, nb_pushLoop, nb_popLoop, nb_pushSwitch,
                nb_popSwitch, nb_setTemplates, nb_addBreakToLoop,
                nb_addContinueToLoop, nb_addBreakToSwitch, ne_eq,
                reduceCtorEq, not_false_eq_true])
            | split
            | (refine ih1 _ _ _ ?_ (by assumption))
            | (refine ih2 _ _ _ ?_ (by assumption))
            | (refine ih3 _ _ _ ?_ (by assumption))
            | (refine ih4 _ _ _ ?_ (by assumption))
            | (refine ih5 _ _ _ ?_ (by assumption))
            | (refine ih6 _ _ _ _ _ ?_ (by assumption))
            | (refine ih7 _ _ _ ?_ (by assumption))
            | (refine ih8 _ _ _ ?_ (by assumption))
            | (refine ih9 _ _ _ ?_ (by assumption))
            | (refine ih10 _ _ _ _ _ _ _ _ ?_ (by assumption))
            | (refine ih11 _ _ _ _ _ ?_ (by assumption))
            | (refine nb_addConst _ _ _ _ ?_ (by assumption))
            | (refine nb_memberPropConst _ _ _ _ ?_ (by assumption))
            | (refine (nb_addInstr _ _ _ (binaryOpcode_ne _ _ (by assumption)).1
                (binaryOpcode_ne _ _ (by assumption)).2).mpr ?_)
            | (refine (nb_addInstr _ _ _
                (compoundOpcode_ne _ _ (by assumption)).1
                (compoundOpcode_ne _ _ (by assumption)).2).mpr ?_)
            | (refine (nb_addInstr _ _ _ (unaryOpcode_ne _ _ (by assumption)).1
                (unaryOpcode_ne _ _ (by assumption)).2).mpr ?_)
      · intro qs es b s s' hs h
        cases qs
        all_goals (
          simp only [compileTemplate] at h
          repeat' first
            | (obtain ⟨_, _, h⟩ := h)
            | split at h
            | (simp only [exceptBind_eq_ok] at h)
            | (simp only [Except.ok.injEq, Prod.mk.injEq] at h)
            | (obtain ⟨h, _⟩ := h)
            | (subst h)
          )
        all_goals
          try simp only [Except.ok.injEq, Prod.mk.injEq, exists_eq_right,
            exists_eq_right_right, exists_eq_left] at *
        all_goals try subst_vars
        all_goals
          repeat' first
            | assumption
            | exact Except.noConfusion h
            | (obtain ⟨a9, ha9, hb9⟩ :=
                (by assumption : ∃ a, _ = Except.ok a ∧ _ = _)
               subst hb9)
            | (simp only [nb_addInstr, nb_patchInstr, nb_patchAll, nb_foldDecl,
                nb_foldPatchPairs, nb_enterScope, nb_exitScope,
                nb_declareVariable, nb_pushLoop, nb_popLoop, nb_pushSwitch,
                nb_popSwitch, nb_setTemplates, nb_addBreakToLoop,
                nb_addContinueToLoop, nb_addBreakToSwitch, ne_eq,
                reduceCtorEq, not_false_eq_true])
            | split
            | (refine ih1 _ _ _ ?_ (by assumption))
            | (refine ih2 _ _ _ ?_ (by assumption))
            | (refine ih3 _ _ _ ?_ (by assumption))
            | (refine ih4 _ _ _ ?_ (by assumption))
            | (refine ih5 _ _ _ ?_ (by assumption))
            | (refine ih6 _ _ _ _ _ ?_ (by assumption))
            | (refine ih7 _ _ _ ?_ (by assumption))
            | (refine ih8 _ _ _ ?_ (by assumption))
            | (refine ih9 _ _ _ ?_ (by assumption))
            | (refine ih10 _ _ _ _ _ _ _ _ ?_ (by assumption))
            | (refine ih11 _ _ _ _ _ ?_ (by assumption))
            | (refine nb_addConst _ _ _ _ ?_ (by assumption))
            | (refine nb_memberPropConst _ _ _ _ ?_ (by assumption))
            | (refine (nb_addInstr _ _ _ (binaryOpcode_ne _ _ (by assumption)).1
                (binaryOpcode_ne _ _ (by assumption)).2).mpr ?_)
            | (refine (nb_addInstr _ _ _
                (compoundOpcode_ne _ _ (by assumption)).1
                (compoundOpcode_ne _ _ (by assumption)).2).mpr ?_)
            | (refine (nb_addInstr _ _ _ (unaryOpcode_ne _ _ (by assumption)).1
                (unaryOpcode_ne _ _ (by assumption)).2).mpr ?_)
      · intro l s s' hs h
        rcases l with _ | ⟨a, _ | ⟨b, t⟩⟩
        all_goals (
          simp only [compileSequence] at h
          repeat' first
            | (obtain ⟨_, _, h⟩ := h)
            | split at h
            | (simp only [exceptBind_eq_ok] at h)
            | (simp only [Except.ok.injEq, Prod.mk.injEq] at h)
            | (obtain ⟨h, _⟩ := h)
            | (subst h)
          )
        all_goals
          try simp only [Except.ok.injEq, Prod.mk.injEq, exists_eq_right,
            exists_eq_right_right, exists_eq_left] at *
        all_goals try subst_vars
        all_goals
          repeat' first
            | assumption
            | exact Except.noConfusion h
            | (obtain ⟨a9, ha9, hb9⟩ :=
                (by assumption : ∃ a, _ = Except.ok a ∧ _ = _)
               subst hb9)
            | (simp only [nb_addInstr, nb_patchInstr, nb_patchAll, nb_foldDecl,
                nb_foldPatchPairs, nb_enterScope, nb_exitScope,
                nb_declareVariable, nb_pushLoop, nb_popLoop, nb_pushSwitch,
                nb_popSwitch, nb_setTemplates, nb_addBreakToLoop,
                nb_addContinueToLoop, nb_addBreakToSwitch, ne_eq,
                reduceCtorEq, not_false_eq_true])
            | split
            | (refine ih1 _ _ _ ?_ (by assumption))
            | (refine ih2 _ _ _ ?_ (by assumption))
            | (refine ih3 _ _ _ ?_ (by assumption))
            | (refine ih4 _ _ _ ?_ (by assumption))
            | (refine ih5 _ _ _ ?_ (by assumption))
            | (refine ih6 _ _ _ _ _ ?_ (by assumption))
            | (refine ih7 _ _ _ ?_ (by assumption))
            | (refine ih8 _ _ _ ?_ (by assumption))
            | (refine ih9 _ _ _ ?_ (by assumption))
            | (refine ih10 _ _ _ _ _ _ _ _ ?_ (by assumption))
            | (refine ih11 _ _ _ _ _ ?_ (by assumption))
            | (refine nb_addConst _ _ _ _ ?_ (by assumption))
            | (refine nb_memberPropConst _ _ _ _ ?_ (by assumption))
            | (refine (nb_addInstr _ _ _ (binaryOpcode_ne _ _ (by assumption)).1
                (binaryOpcode_ne _ _ (by assumption)).2).mpr ?_)
            | (refine (nb_addInstr _ _ _
                (compoundOpcode_ne _ _ (by assumption)).1
                (compoundOpcode_ne _ _ (by assumption)).2).mpr ?_)
            | (refine (nb_addInstr _ _ _ (unaryOpcode_ne _ _ (by assumption)).1
                (unaryOpcode_ne _ _ (by assumption)).2).mpr ?_)
      · intro l s s' hs h
        cases l
        all_goals (
          simp only [compileArrayElems] at h
          repeat' first
            | (obtain ⟨_, _, h⟩ := h)
            | split at h
            | (simp only [exceptBind_eq_ok] at h)
            | (simp only [Except.ok.injEq, Prod.mk.injEq] at h)
            | (obtain ⟨h, _⟩ := h)
            | (subst h)
          )
        all_goals
          try simp only [Except.ok.injEq, Prod.mk.injEq, exists_eq_right,
            exists_eq_right_right, exists_eq_left] at *
        all_goals try subst_vars
        all_goals
          repeat' first
            | assumption
            | exact Except.noConfusion h
            | (obtain ⟨a9, ha9, hb9⟩ :=
                (by assumption : ∃ a, _ = Except.ok a ∧ _ = _)
               subst hb9)
            | (simp only [nb_addInstr, nb_patchInstr, nb_patchAll, nb_foldDecl,
                nb_foldPatchPairs, nb_enterScope, nb_exitScope,
                nb_declareVariable, nb_pushLoop, nb_popLoop, nb_pushSwitch,
                nb_popSwitch, nb_setTemplates, nb_addBreakToLoop,
                nb_addContinueToLoop, nb_addBreakToSwitch, ne_eq,
                reduceCtorEq, not_false_eq_true])
            | split
            | (refine ih1 _ _ _ ?_ (by assumption))
            | (refine ih2 _ _ _ ?_ (by assumption))
            | (refine ih3 _ _ _ ?_ (by assumption))
            | (refine ih4 _ _ _ ?_ (by assumption))
            | (refine ih5 _ _ _ ?_ (by assumption))
            | (refine ih6 _ _ _ _ _ ?_ (by assumption))
            | (refine ih7 _ _ _ ?_ (by assumption))
            | (refine ih8 _ _ _ ?_ (by assumption))
            | (refine ih9 _ _ _ ?_ (by assumption))
            | (refine ih10 _ _ _ _ _ _ _ _ ?_ (by assumption))
            | (refine ih11 _ _ _ _ _ ?_ (by assumption))
            | (refine nb_addConst _ _ _ _ ?_ (by assumption))
            | (refine nb_memberPropConst _ _ _ _ ?_ (by assumption))
            | (refine (nb_addInstr _ _ _ (binaryOpcode_ne _ _ (by assumption)).1
                (binaryOpcode_ne _ _ (by assumption)).2).mpr ?_)
            | (refine (nb_addInstr _ _ _
                (compoundOpcode_ne _ _ (by assumption)).1
                (compoundOpcode_ne _ _ (by assumption)).2).mpr ?_)
            | (refine (nb_addInstr _ _ _ (unaryOpcode_ne _ _ (by assumption)).1
                (unaryOpcode_ne _ _ (by assumption)).2).mpr ?_)
      · intro l s s' hs h
        rcases l with _ | ⟨⟨key, computed, value⟩, rest⟩
        all_goals (
          simp only [compileObjProps] at h
          repeat' first
            | (obtain ⟨_, _, h⟩ := h)
            | split at h
            | (simp only [exceptBind_eq_ok] at h)
            | (simp only [Except.ok.injEq, Prod.mk.injEq] at h)
            | (obtain ⟨h, _⟩ := h)
            | (subst h)
          )
        all_goals
          try simp only [Except.ok.injEq, Prod.mk.injEq, exists_eq_right,
            exists_eq_right_right, exists_eq_left] at *
        all_goals try subst_vars
        all_goals
          repeat' first
            | assumption
            | exact Except.noConfusion h
            | (obtain ⟨a9, ha9, hb9⟩ :=
                (by assumption : ∃ a, _ = Except.ok a ∧ _ = _)
               subst hb9)
            | (simp only [nb_addInstr, nb_patchInstr, nb_patchAll, nb_foldDecl,
                nb_foldPatchPairs, nb_enterScope, nb_exitScope,
                nb_declareVariable, nb_pushLoop, nb_popLoop, nb_pushSwitch,
                nb_popSwitch, nb_setTemplates, nb_addBreakToLoop,
                nb_addContinueToLoop, nb_addBreakToSwitch, ne_eq,
                reduceCtorEq, not_false_eq_true])
            | split
            | (refine ih1 _ _ _ ?_ (by assumption))
            | (refine ih2 _ _ _ ?_ (by assumption))
            | (refine ih3 _ _ _ ?_ (by assumption))
            | (refine ih4 _ _ _ ?_ (by assumption))
            | (refine ih5 _ _ _ ?_ (by assumption))
            | (refine ih6 _ _ _ _ _ ?_ (by assumption))
            | (refine ih7 _ _ _ ?_ (by assumption))
            | (refine ih8 _ _ _ ?_ (by assumption))
            | (refine ih9 _ _ _ ?_ (by assumption))
            | (refine ih10 _ _ _ _ _ _ _ _ ?_ (by assumption))
            | (refine ih11 _ _ _ _ _ ?_ (by assumption))
            | (refine nb_addConst _ _ _ _ ?_ (by assumption))
            | (refine nb_memberPropConst _ _ _ _ ?_ (by assumption))
            | (refine (nb_addInstr _ _ _ (binaryOpcode_ne _ _ (by assumption)).1
                (binaryOpcode_ne _ _ (by assumption)).2).mpr ?_)
            | (refine (nb_addInstr _ _ _
                (compoundOpcode_ne _ _ (by assumption)).1
                (compoundOpcode_ne _ _ (by assumption)).2).mpr ?_)
            | (refine (nb_addInstr _ _ _ (unaryOpcode_ne _ _ (by assumption)).1
                (unaryOpcode_ne _ _ (by assumption)).2).mpr ?_)
      · intro cs i js dj s js2 dj2 s' hs h
        rcases cs with _ | ⟨⟨testOpt, conseq⟩, rest⟩
        all_goals (
          simp only [compileSwitchTests] at h
          repeat' first
            | (obtain ⟨_, _, h⟩ := h)
            | split at h
            | (simp only [exceptBind_eq_ok] at h)
            | (simp only [Except.ok.injEq, Prod.mk.injEq] at h)
            | (obtain ⟨h, _⟩ := h)
            | (subst h)
          )
        all_goals
          try simp only [Except.ok.injEq, Prod.mk.injEq, exists_eq_right,
            exists_eq_right_right, exists_eq_left] at *
        all_goals try subst_vars
        all_goals
          repeat' first
            | assumption
            | exact Except.noConfusion h
            | (obtain ⟨a9, ha9, hb9⟩ :=
                (by assumption : ∃ a, _ = Except.ok a ∧ _ = _)
               subst hb9)
            | (simp only [nb_addInstr, nb_patchInstr, nb_patchAll, nb_foldDecl,
                nb_foldPatchPairs, nb_enterScope, nb_exitScope,
                nb_declareVariable, nb_pushLoop, nb_popLoop, nb_pushSwitch,
                nb_popSwitch, nb_setTemplates, nb_addBreakToLoop,
                nb_addContinueToLoop, nb_addBreakToSwitch, ne_eq,
                reduceCtorEq, not_false_eq_true])
            | split
            | (refine ih1 _ _ _ ?_ (by assumption))
            | (refine ih2 _ _ _ ?_ (by assumption))
            | (refine ih3 _ _ _ ?_ (by assumption))
            | (refine ih4 _ _ _ ?_ (by assumption))
            | (refine ih5 _ _ _ ?_ (by assumption))
            | (refine ih6 _ _ _ _ _ ?_ (by assumption))
            | (refine ih7 _ _ _ ?_ (by assumption))
            | (refine ih8 _ _ _ ?_ (by assumption))
            | (refine ih9 _ _ _ ?_ (by assumption))
            | (refine ih10 _ _ _ _ _ _ _ _ ?_ (by assumption))
            | (refine ih11 _ _ _ _ _ ?_ (by assumption))
            | (refine nb_addConst _ _ _ _ ?_ (by assumption))
            | (refine nb_memberPropConst _ _ _ _ ?_ (by assumption))
            | (refine (nb_addInstr _ _ _ (binaryOpcode_ne _ _ (by assumption)).1
                (binaryOpcode_ne _ _ (by assumption)).2).mpr ?_)
            | (refine (nb_addInstr _ _ _
                (compoundOpcode_ne _ _ (by assumption)).1
                (compoundOpcode_ne _ _ (by assumption)).2).mpr ?_)
            | (refine (nb_addInstr _ _ _ (unaryOpcode_ne _ _ (by assumption)).1
                (unaryOpcode_ne _ _ (by assumption)).2).mpr ?_)
      · intro cs addrs s addrs2 s' hs h
        rcases cs with _ | ⟨⟨testOpt, conseq⟩, rest⟩
        all_goals (
          simp only [compileSwitchBodies] at h
          repeat' first
            | (obtain ⟨_, _, h⟩ := h)
            | split at h
            | (simp only [exceptBind_eq_ok] at h)
            | (simp only [Except.ok.injEq, Prod.mk.injEq] at h)
            | (obtain ⟨h, _⟩ := h)
            | (subst h)
          )
        all_goals
          try simp only [Except.ok.injEq, Prod.mk.injEq, exists_eq_right,
            exists_eq_right_right, exists_eq_left] at *
        all_goals try subst_vars
        all_goals
          repeat' first
            | assumption
            | exact Except.noConfusion h
            | (obtain ⟨a9, ha9, hb9⟩ :=
                (by assumption : ∃ a, _ = Except.ok a ∧ _ = _)
               subst hb9)
            | (simp only [nb_addInstr, nb_patchInstr, nb_patchAll, nb_foldDecl,
                nb_foldPatchPairs, nb_enterScope, nb_exitScope,
                nb_declareVariable, nb_pushLoop, nb_popLoop, nb_pushSwitch,
                nb_popSwitch, nb_setTemplates, nb_addBreakToLoop,
                nb_addContinueToLoop, nb_addBreakToSwitch, ne_eq,
                reduceCtorEq, not_false_eq_true])
            | split
            | (refine ih1 _ _ _ ?_ (by assumption))
            | (refine ih2 _ _ _ ?_ (by assumption))
            | (refine ih3 _ _ _ ?_ (by assumption))
            | (refine ih4 _ _ _ ?_ (by assumption))
            | (refine ih5 _ _ _ ?_ (by assumption))
            | (refine ih6 _ _ _ _ _ ?_ (by assumption))
            | (refine ih7 _ _ _ ?_ (by assumption))
            | (refine ih8 _ _ _ ?_ (by assumption))
            | (refine ih9 _ _ _ ?_ (by assumption))
            | (refine ih10 _ _ _ _ _ _ _ _ ?_ (by assumption))
            | (refine ih11 _ _ _ _ _ ?_ (by assumption))
            | (refine nb_addConst _ _ _ _ ?_ (by assumption))
            | (refine nb_memberPropConst _ _ _ _ ?_ (by assumption))
            | (refine (nb_addInstr _ _ _ (binaryOpcode_ne _ _ (by assumption)).1
                (binaryOpcode_ne _ _ (by assumption)).2).mpr ?_)
            | (refine (nb_addInstr _ _ _
                (compoundOpcode_ne _ _ (by assumption)).1
                (compoundOpcode_ne _ _ (by assumption)).2).mpr ?_)
            | (refine (nb_addInstr _ _ _ (unaryOpcode_ne _ _ (by assumption)).1
                (unaryOpcode_ne _ _ (by assumption)).2).mpr ?_)

/-- `addBreakToLoop` leaves the instruction list unchanged. -/
theorem addBreakToLoop_instr (X : CompState) (j : Nat) :
    (addBreakToLoop X j).instructions = X.instructions := by
  unfold addBreakToLoop
  split <;> rfl

/-- `addContinueToLoop` leaves the instruction list unchanged. -/
theorem addContinueToLoop_instr (X : CompState) (j : Nat) :
    (addContinueToLoop X j).instructions = X.instructions := by
  unfold addContinueToLoop
  split <;> rfl

/-- `addBreakToSwitch` leaves the instruction list unchanged. -/
theorem addBreakToSwitch_instr (X : CompState) (j : Nat) :
    (addBreakToSwitch X j).instructions = X.instructions := by
  unfold addBreakToSwitch
  split <;> rfl

/-- C8: no compiled program contains a `BREAK` or `CONTINUE` opcode (so
the VM's `BREAK_STATEMENT`/`CONTINUE_STATEMENT` error branches, shown in
the last conjunct, are unreachable for compiled code); a `break` inside a
loop or switch and a `continue` inside a loop each append exactly one
`JMP 0`; and a `break`/`continue` outside any loop or switch fails to
compile with the source's Chinese error message. -/
theorem c8_break_continue :
    (∀ (fuel : Nat) (ast : Node) (st : CompState),
      compile fuel ast = .ok st →
      ∀ i ∈ (CompState.toByteCode st).instructions,
        i.opcode ≠ .BREAK ∧ i.opcode ≠ .CONTINUE) ∧
    (∀ (fuel : Nat) (s : CompState),
      s.switchStack ≠ [] ∨ s.loopStack ≠ [] →
      (compileNode (fuel + 1) .BreakStatement s).map (fun t => t.instructions)
        = .ok (s.instructions ++ [⟨.JMP, some 0⟩])) ∧
    (∀ (fuel : Nat) (s : CompState),
      s.loopStack ≠ [] →
      (compileNode (fuel + 1) .ContinueStatement s).map
          (fun t => t.instructions)
        = .ok (s.instructions ++ [⟨.JMP, some 0⟩])) ∧
    (∀ (fuel : Nat) (s : CompState),
      s.switchStack = [] → s.loopStack = [] →
      compileNode (fuel + 1) .BreakStatement s
        = .error "break语句必须在循环或switch语句内") ∧
    (∀ (fuel : Nat) (s : CompState),
      s.loopStack = [] →
      compileNode (fuel + 1) .ContinueStatement s
        = .error "continue语句必须在循环语句内") ∧
    (∀ (bc : ByteCode) (o : Option Nat) (s : VMState),
      executeInstruction bc ⟨.BREAK, o⟩ s = .error "BREAK_STATEMENT" ∧
      executeInstruction bc ⟨.CONTINUE, o⟩ s
        = .error "CONTINUE_STATEMENT") := by
  refine ⟨?_, ?_, ?_, ?_, ?_, fun bc o s => ⟨rfl, rfl⟩⟩
  · intro fuel ast st h
    unfold compile at h
    rw [exceptBind_eq_ok] at h
    obtain ⟨s1, h1, h2⟩ := h
    simp only [Except.ok.injEq] at h2
    subst h2
    have hs0 : noBC (⟨[], ConstantPool.empty, [], [[]], [], []⟩ : CompState) :=
      fun i hi => absurd hi (List.not_mem_nil i)
    exact (nb_addInstr _ _ _ (by decide) (by decide)).mpr
      ((compile_noBC_all fuel).1 ast _ s1 hs0 h1)
  · intro fuel s hin
    simp only [compileNode]
    by_cases hsw : s.switchStack = []
    · have hlp : s.loopStack ≠ [] := by
        rcases hin with h | h
        · exact absurd hsw h
        · exact h
      rw [if_neg (by simp [addInstr, hsw]),
        if_pos (by simp [addInstr, List.length_pos, hlp])]
      simp [Except.map, addBreakToLoop_instr, addInstr]
    · rw [if_pos (by simp [addInstr, List.length_pos, hsw])]
      simp [Except.map, addBreakToSwitch_instr, addInstr]
  · intro fuel s hlp
    simp only [compileNode]
    rw [if_pos (by simp [addInstr, List.length_pos, hlp])]
    simp [Except.map, addContinueToLoop_instr, addInstr]
  · intro fuel s hsw hlp
    simp only [compileNode]
    rw [if_neg (by simp [addInstr, hsw]), if_neg (by simp [addInstr, hlp])]
  · intro fuel s hlp
    simp only [compileNode]
    rw [if_neg (by simp [addInstr, hlp])]

/-- Witness: C8 at the compiled `while (true) \x7b\x7d` program, a
break/continue inside a pushed loop context, and the outside-loop compile
errors at the compiled state itself. -/
theorem c8_witness :
    compile 20 whileTrueAst = .ok c8St ∧
    ((⟨.JMP, some 0⟩ : Instr) ∈ (CompState.toByteCode c8St).instructions) ∧
    (⟨.JMP, some 0⟩ : Instr).opcode ≠ .BREAK ∧
    (⟨.JMP, some 0⟩ : Instr).opcode ≠ .CONTINUE ∧
    (pushLoop c8St).loopStack ≠ [] ∧
    (compileNode 1 .ContinueStatement (pushLoop c8St)).map
        (fun t => t.instructions)
      = .ok (c8St.instructions ++ [⟨.JMP, some 0⟩]) ∧
    c8St.switchStack = [] ∧ c8St.loopStack = [] ∧
    compileNode 1 .BreakStatement c8St
      = .error "break语句必须在循环或switch语句内" := by
  have hmem : (⟨.JMP, some 0⟩ : Instr) ∈
      (CompState.toByteCode c8St).instructions := by decide
  have hbc := c8_break_continue.1 20 whileTrueAst c8St rfl ⟨.JMP, some 0⟩ hmem
  have hlp : (pushLoop c8St).loopStack ≠ [] := by
    simp [pushLoop]
  refine ⟨rfl, hmem, hbc.1, hbc.2, hlp,
    c8_break_continue.2.2.1 0 (pushLoop c8St) hlp, rfl, rfl,
    c8_break_continue.2.2.2.1 0 c8St rfl rfl⟩

/-- Witness: C9's amended statement at `x := "x"`, `v := 5`. -/
theorem c9_globals_witness :
    ((Value.num 5 : Value) ≠ .null) ∧
    (∀ fa : Nat, (Value.num 5 : Value) ≠ .userFn fa) ∧
    mapGet builtinsList "x" = none ∧ "x" ≠ "this" ∧
    globalThisProtoNames.contains "x" = false ∧
    ((jsvmpRun JSVMP.fresh (declBC "x" (.num 5)) [] >>=
        fun p => jsvmpRun p.2 (loadBC "x") []).map (fun q => q.1))
      = .ok (.num 5) ∧
    (jsvmpRun JSVMP.fresh (declBC "x" (.num 5)) [] >>=
        fun p => jsvmpRun (jsvmpReset p.2) (loadBC "x") [])
      = .error ("未定义的变量: " ++ "x") :=
  ⟨fun h => Value.noConfusion h, fun fa h => Value.noConfusion h, rfl,
   by decide, by decide,
   c9_globals_amended.1 "x" (.num 5) (fun h => Value.noConfusion h)
     (fun fa h => Value.noConfusion h),
   c9_globals_amended.2.1 "x" (.num 5) (fun h => Value.noConfusion h)
     (fun fa h => Value.noConfusion h) rfl (by decide) (by decide)⟩

end Jsvmp
